import Mathlib

/-!
# Masternode payment votes: tallies, the vote store and vote-message handling

A shallow embedding of `src/masternode-payments.cpp`.

* `std::map` is a key-ordered association list (`StdMap.find`, `StdMap.assign`,
  `StdMap.emplace`, `StdMap.erase`); iteration order is list order.
* `int`, `int64_t` and `CAmount` values are mathematical integers.  The one
  `int` computation that a received vote can drive out of range, the height
  difference in `CheckAndRemove`, is given a second time in 32-bit arithmetic
  (`CheckAndRemove.int32`); the two agree whenever the difference is
  representable.
* `masternode-payments.h` is not among the sources: the vote and payee classes
  it declares are modelled from the specification, the supporting hashes of a
  payee being a set.
* Everything the file obtains from other translation units (the masternode
  registry, the sync tracker, the chain index, the signature primitive, the
  header constants) is a field of `Env`.
* Out-parameters are returned next to the result; network side effects are
  returned as a list of `Effect`s in program order; logging is dropped.
-/

namespace MasternodePayments

/-! ## Primitive data -/

/-- A 256-bit digest, as a natural number. -/
abbrev uint256 := Nat

/-- A locking script: an opaque byte sequence. -/
abbrev CScript := List Nat

/-- A public key: an opaque byte sequence. -/
abbrev CPubKey := List Nat

/-- An amount of coin (`int64_t` in the source). -/
abbrev CAmount := Int

/-- Reference to a masternode collateral output. -/
structure COutPoint where
  hash : uint256
  n : Nat
deriving DecidableEq, Repr, Ord

/-- A transaction output. -/
structure CTxOut where
  nValue : CAmount
  scriptPubKey : CScript
deriving DecidableEq, Repr

/-- A transaction, reduced to its outputs (the only part this file reads). -/
structure CTransaction where
  vout : List CTxOut
deriving DecidableEq, Repr

/-- The registry record of a masternode (the fields this file reads). -/
structure masternode_info_t where
  outpoint : COutPoint
  nProtocolVersion : Int
  pubKeyMasternode : CPubKey
  pubKeyCollateralAddress : CPubKey
deriving DecidableEq, Repr

/-- An entry of the block index (the fields this file reads); its `pprev` is
the next entry of the list that holds it. -/
structure CBlockIndex where
  nHeight : Int
  hashBlock : uint256
deriving DecidableEq, Repr

/-- A connected peer (the fields this file reads). -/
structure CNode where
  id : Int
  nVersion : Int
deriving DecidableEq, Repr

/-! ## `std::map` as a key-ordered association list -/

namespace StdMap

variable {K V : Type}

/-- The value stored under `k` (`find`, `end()` being `none`). -/
def find [DecidableEq K] : List (K × V) → K → Option V
  | [], _ => none
  | (k', v) :: rest, k => if k' = k then some v else find rest k

/-- The assignment `m[k] = v`: overwrites the value under `k`, or inserts the
pair at its place in key order. -/
def assign [DecidableEq K] [Ord K] : List (K × V) → K → V → List (K × V)
  | [], k, v => [(k, v)]
  | (k', v') :: rest, k, v =>
    if k' = k then (k, v) :: rest
    else if compare k k' = Ordering.lt then (k, v) :: (k', v') :: rest
    else (k', v') :: assign rest k v

/-- The call `m.emplace(k, v)`: inserts only when `k` has no entry yet. -/
def emplace [DecidableEq K] [Ord K] (m : List (K × V)) (k : K) (v : V) : List (K × V) :=
  match find m k with
  | some _ => m
  | none => assign m k v

/-- The call `m.erase(k)` by key. -/
def erase [DecidableEq K] (m : List (K × V)) (k : K) : List (K × V) :=
  m.filter (fun e => decide (e.1 ≠ k))

end StdMap

/-! ## Votes, payees and tallies -/

/-- Modelled from the spec: class `CMasternodePaymentVote` is declared in
`masternode-payments.h`, which is not among the sources.  The fields are the
ones the source file reads (`masternodeOutpoint`, `nBlockHeight`,
`nStartHeight`, `payee`, `vchSig`); `verified` is the boolean flag of the
spec's VoteRecord. -/
structure CMasternodePaymentVote where
  masternodeOutpoint : COutPoint
  nBlockHeight : Int
  nStartHeight : Int
  payee : CScript
  vchSig : List Nat
  verified : Bool
deriving DecidableEq, Repr

/-- Modelled from the spec: `IsVerified()` of the absent header reads the
`verified` flag of the record. -/
def CMasternodePaymentVote.IsVerified (vote : CMasternodePaymentVote) : Bool :=
  vote.verified

/-- Modelled from the spec: `MarkAsNotVerified()` of the absent header clears
the `verified` flag; the record is otherwise immutable. -/
def CMasternodePaymentVote.MarkAsNotVerified (vote : CMasternodePaymentVote) :
    CMasternodePaymentVote :=
  { vote with verified := false }

/-- Modelled from the spec: class `CMasternodePayee` is declared in the absent
header.  A payee entry is a script with its set of supporting vote hashes and
the start height passed to its constructor.  The set is kept as the list of its
members in insertion order, the order in which `Sync` reads `GetVoteHashes()`;
a hash counts once however often the list names it. -/
structure CMasternodePayee where
  scriptPubKey : CScript
  vecVoteHashes : List uint256
  nStartHeight : Int
deriving DecidableEq, Repr

/-- Modelled from the spec: the constructor `CMasternodePayee(payee, hash,
nStartHeight)` starts the supporting set with the one hash. -/
def CMasternodePayee.create (payee : CScript) (hashIn : uint256) (nStartHeight : Int) :
    CMasternodePayee :=
  { scriptPubKey := payee, vecVoteHashes := [hashIn], nStartHeight := nStartHeight }

/-- Modelled from the spec: `GetPayee()` returns the script of the entry. -/
def CMasternodePayee.GetPayee (p : CMasternodePayee) : CScript := p.scriptPubKey

/-- Modelled from the spec: `AddVoteHash` inserts the hash into the supporting
set; the insertion is idempotent, "a hash added twice to a set has no effect". -/
def CMasternodePayee.AddVoteHash (p : CMasternodePayee) (hashIn : uint256) :
    CMasternodePayee :=
  if hashIn ∈ p.vecVoteHashes then p
  else { p with vecVoteHashes := p.vecVoteHashes ++ [hashIn] }

/-- Modelled from the spec: `GetVoteHashes()` returns the members of the
supporting set. -/
def CMasternodePayee.GetVoteHashes (p : CMasternodePayee) : List uint256 := p.vecVoteHashes

/-- Modelled from the spec: the vote count of a payee is the size of its
supporting-hash set, as an `int`. -/
def CMasternodePayee.GetVoteCount (p : CMasternodePayee) : Int :=
  (p.vecVoteHashes.toFinset.card : Int)

/-- The tally of one block height (`vecPayees` in insertion order). -/
structure CMasternodeBlockPayees where
  nBlockHeight : Int
  vecPayees : List CMasternodePayee
deriving DecidableEq, Repr

/-- The constructor `CMasternodeBlockPayees(nBlockHeight)`: no payees yet. -/
def CMasternodeBlockPayees.create (nBlockHeight : Int) : CMasternodeBlockPayees :=
  { nBlockHeight := nBlockHeight, vecPayees := [] }

/-- The store `CMasternodePayments` (the members this development reads or
writes). -/
structure CMasternodePayments where
  mapMasternodePaymentVotes : List (uint256 × CMasternodePaymentVote)
  mapMasternodeBlocks : List (Int × CMasternodeBlockPayees)
  mapMasternodesLastVote : List (COutPoint × Int)
  nCachedBlockHeight : Int
deriving DecidableEq, Repr

/-- The store right after construction or `Clear()` with an empty last-vote
index. -/
def CMasternodePayments.empty : CMasternodePayments :=
  { mapMasternodePaymentVotes := [], mapMasternodeBlocks := [],
    mapMasternodesLastVote := [], nCachedBlockHeight := 0 }

/-! ## The environment: everything defined outside this source file -/

/-- The collaborators and header constants the source file uses but does not
define. -/
structure Env where
  /-- Header constant `MNPAYMENTS_SIGNATURES_REQUIRED`. -/
  MNPAYMENTS_SIGNATURES_REQUIRED : Int
  /-- Header constant `MNPAYMENTS_SIGNATURES_TOTAL`. -/
  MNPAYMENTS_SIGNATURES_TOTAL : Int
  /-- Constant `MIN_MASTERNODE_PAYMENT_PROTO_VERSION`. -/
  MIN_MASTERNODE_PAYMENT_PROTO_VERSION : Int
  /-- Global `fLiteMode`. -/
  fLiteMode : Bool
  /-- Global `fMasternodeMode`. -/
  fMasternodeMode : Bool
  /-- The digest computed by `CHashWriter` over payee, block height, start
  height and outpoint (the body of `GetHash`). -/
  hashWriter : CScript → Int → Int → COutPoint → uint256
  /-- The digest `SerializeHash(vote)`. -/
  SerializeHash : CMasternodePaymentVote → uint256
  /-- The primitive `CHashSigner::VerifyHash(hash, pubKey, vchSig)`. -/
  VerifyHash : uint256 → CPubKey → List Nat → Bool
  /-- The spork test `sporkManager.IsSporkActive(SPORK_2_NEW_SIGS)`. -/
  IsSporkActiveNewSigs : Bool
  /-- The chain query `GetBlockHash(hash, nHeight)`. -/
  GetBlockHash : Int → Option uint256
  /-- The value `BlockSubsidies(GetTotalReward(nHeight, consensus)).masternode`. -/
  masternodeSubsidy : Int → CAmount
  /-- The sync tracker `masternodeSync.IsBlockchainSynced()`. -/
  IsBlockchainSynced : Bool
  /-- The sync tracker `masternodeSync.IsMasternodeListSynced()`. -/
  IsMasternodeListSynced : Bool
  /-- The sync tracker `masternodeSync.IsWinnersListSynced()`. -/
  IsWinnersListSynced : Bool
  /-- The sync tracker `masternodeSync.IsSynced()`. -/
  IsSynced : Bool
  /-- The registry query `mnodeman.GetMasternodeInfo(outpoint, mnInfo)`. -/
  GetMasternodeInfo : COutPoint → Option masternode_info_t
  /-- The registry query `mnodeman.GetMasternodeRank(outpoint, nRank, nHeight,
  nMinProtocol)`. -/
  GetMasternodeRank : COutPoint → Int → Int → Option Int
  /-- The test `netfulfilledman.HasFulfilledRequest(peer, MASTERNODEPAYMENTSYNC)`. -/
  HasFulfilledSyncRequest : CNode → Bool
  /-- The value `int(mnodeman.size() * nStorageCoeff)` (a floating-point
  product truncated to `int`). -/
  nScaledRegistrySize : Int
  /-- The member `nMinBlocksToStore`. -/
  nMinBlocksToStore : Int
  /-- The registry query `mnodeman.GetNextMasternodeInQueueForPayment(nBlockHeight,
  true, nCount, mnInfo)`. -/
  GetNextMasternodeInQueueForPayment : Int → Option masternode_info_t
  /-- The script `GetScriptForDestination(pubKey.GetID())` of a collateral key. -/
  GetScriptForDestination : CPubKey → CScript
  /-- The active chain from `chainActive.Tip()` along `pprev` down to the entry
  without predecessor; the tip is taken to exist. -/
  chainActive : List CBlockIndex
  /-- Constant `MAX_INV_SZ`, the largest number of items in one `GETDATA`. -/
  MAX_INV_SZ : Nat

/-- Network side effects, in the order the code issues them. -/
inductive Effect where
  | PushReject (peer : Int)
  | PushSyncStatusCount (peer : Int) (nInvCount : Int)
  | PushInventory (peer : Int) (hash : uint256)
  | Misbehaving (peer : Int) (howmuch : Int)
  | AddFulfilledSyncRequest (peer : Int)
  | EraseAskFor (peer : Int) (hash : uint256)
  | AskForMN (peer : Int) (outpoint : COutPoint)
  | RelayInv (hash : uint256)
  | BumpAssetLastTime
  | PushGetData (peer : Int) (vToFetch : List uint256)
deriving DecidableEq, Repr

/-- The vote's identity hash `CMasternodePaymentVote::GetHash`. -/
def CMasternodePaymentVote.GetHash (env : Env) (vote : CMasternodePaymentVote) : uint256 :=
  env.hashWriter vote.payee vote.nBlockHeight vote.nStartHeight vote.masternodeOutpoint

/-- The signing hash `CMasternodePaymentVote::GetSignatureHash`. -/
def CMasternodePaymentVote.GetSignatureHash (env : Env) (vote : CMasternodePaymentVote) :
    uint256 :=
  env.SerializeHash vote

/-- The minimum peer version `CMasternodePayments::GetMinMasternodePaymentsProto`. -/
def GetMinMasternodePaymentsProto (env : Env) : Int :=
  env.MIN_MASTERNODE_PAYMENT_PROTO_VERSION

/-- The retention bound `CMasternodePayments::GetStorageLimit`. -/
def GetStorageLimit (env : Env) : Int :=
  max env.nScaledRegistrySize env.nMinBlocksToStore

/-! ## The last-vote index -/

/-- The gate `CMasternodePayments::UpdateLastVote`. -/
def UpdateLastVote (s : CMasternodePayments) (vote : CMasternodePaymentVote) :
    Bool × CMasternodePayments :=
  match StdMap.find s.mapMasternodesLastVote vote.masternodeOutpoint with
  | some second =>
    if second = vote.nBlockHeight then (false, s)
    else
      let index := StdMap.assign s.mapMasternodesLastVote vote.masternodeOutpoint
        vote.nBlockHeight
      (true, { s with mapMasternodesLastVote := index })
  | none =>
    let index := StdMap.emplace s.mapMasternodesLastVote vote.masternodeOutpoint
      vote.nBlockHeight
    (true, { s with mapMasternodesLastVote := index })

/-! ## Tallies -/

/-- The loop of `CMasternodeBlockPayees::AddPayee` with the `push_back` that
follows it: the first entry for the vote's payee gets the hash, otherwise a new
entry is appended. -/
def AddPayee.loop (vote : CMasternodePaymentVote) (nVoteHash : uint256) :
    List CMasternodePayee → List CMasternodePayee
  | [] => [CMasternodePayee.create vote.payee nVoteHash vote.nStartHeight]
  | payee :: rest =>
    if payee.GetPayee = vote.payee then payee.AddVoteHash nVoteHash :: rest
    else payee :: AddPayee.loop vote nVoteHash rest

/-- The method `CMasternodeBlockPayees::AddPayee`. -/
def CMasternodeBlockPayees.AddPayee (env : Env) (t : CMasternodeBlockPayees)
    (vote : CMasternodePaymentVote) : CMasternodeBlockPayees :=
  { t with vecPayees := AddPayee.loop vote (vote.GetHash env) t.vecPayees }

/-- The loop of `GetBestPayee` over the state `(payeeRet, nVotes)`. -/
def GetBestPayee.loop : List CMasternodePayee → CScript → Int → CScript × Int
  | [], payeeRet, nVotes => (payeeRet, nVotes)
  | payee :: rest, payeeRet, nVotes =>
    if payee.GetVoteCount > nVotes then GetBestPayee.loop rest payee.GetPayee payee.GetVoteCount
    else GetBestPayee.loop rest payeeRet nVotes

/-- The method `CMasternodeBlockPayees::GetBestPayee`, returning the result and
the final value of the out-parameter `payeeRet`. -/
def CMasternodeBlockPayees.GetBestPayee (t : CMasternodeBlockPayees) (payeeRet : CScript) :
    Bool × CScript :=
  if t.vecPayees.isEmpty then (false, payeeRet)
  else
    let r := GetBestPayee.loop t.vecPayees payeeRet (-1)
    (decide (r.2 > -1), r.1)

/-- The first loop of `CMasternodeBlockPayees::IsTransactionValid`, over
`nMaxSignatures`. -/
def IsTransactionValid.maxLoop : List CMasternodePayee → Int → Int
  | [], nMaxSignatures => nMaxSignatures
  | payee :: rest, nMaxSignatures =>
    if payee.GetVoteCount ≥ nMaxSignatures then IsTransactionValid.maxLoop rest payee.GetVoteCount
    else IsTransactionValid.maxLoop rest nMaxSignatures

/-- The inner loop of `IsTransactionValid` over `txNew.vout`: the final value
of `bFoundPayment`. -/
def IsTransactionValid.foundPayment (payeeScript : CScript) (masternodePayment : CAmount) :
    List CTxOut → Bool
  | [] => false
  | txout :: rest =>
    if payeeScript = txout.scriptPubKey ∧ masternodePayment = txout.nValue then true
    else IsTransactionValid.foundPayment payeeScript masternodePayment rest

/-- The second loop of `IsTransactionValid`: `true` when the loop returns
`true` from inside, `false` when it runs to its end. -/
def IsTransactionValid.payeeLoop (env : Env) (vout : List CTxOut) (masternodePayment : CAmount) :
    List CMasternodePayee → Bool
  | [] => false
  | payee :: rest =>
    let bFoundPayment := IsTransactionValid.foundPayment payee.GetPayee masternodePayment vout
    if payee.GetVoteCount ≥ env.MNPAYMENTS_SIGNATURES_REQUIRED ∧ bFoundPayment = true then true
    else IsTransactionValid.payeeLoop env vout masternodePayment rest

/-- The method `CMasternodeBlockPayees::IsTransactionValid`; `fee / 2` is the
truncating division of the source language. -/
def CMasternodeBlockPayees.IsTransactionValid (env : Env) (t : CMasternodeBlockPayees)
    (txNew : CTransaction) (nHeight : Int) (fee : CAmount) : Bool :=
  let nMaxSignatures := IsTransactionValid.maxLoop t.vecPayees 0
  let masternodePayment := env.masternodeSubsidy nHeight + Int.tdiv fee 2
  if IsTransactionValid.payeeLoop env txNew.vout masternodePayment t.vecPayees then true
  else if nMaxSignatures < env.MNPAYMENTS_SIGNATURES_REQUIRED then true
  else false

/-! ## The store -/

/-- The query `CMasternodePayments::GetBlockPayee`. -/
def GetBlockPayee (s : CMasternodePayments) (nBlockHeight : Int) (payeeRet : CScript) :
    Bool × CScript :=
  match StdMap.find s.mapMasternodeBlocks nBlockHeight with
  | none => (false, payeeRet)
  | some second => second.GetBestPayee payeeRet

/-- The query `CMasternodePayments::HasVerifiedPaymentVote`. -/
def HasVerifiedPaymentVote (s : CMasternodePayments) (hashIn : uint256) : Bool :=
  match StdMap.find s.mapMasternodePaymentVotes hashIn with
  | none => false
  | some second => second.IsVerified

/-- The method `CMasternodePayments::AddOrUpdatePaymentVote`. -/
def AddOrUpdatePaymentVote (env : Env) (s : CMasternodePayments)
    (vote : CMasternodePaymentVote) : Bool × CMasternodePayments :=
  match env.GetBlockHash (vote.nBlockHeight - 101) with
  | none => (false, s)
  | some _ =>
    let nVoteHash := vote.GetHash env
    if HasVerifiedPaymentVote s nVoteHash then (false, s)
    else
      let votes := StdMap.assign s.mapMasternodePaymentVotes nVoteHash vote
      let blocks := StdMap.emplace s.mapMasternodeBlocks vote.nBlockHeight
        (CMasternodeBlockPayees.create vote.nBlockHeight)
      let blocks :=
        match StdMap.find blocks vote.nBlockHeight with
        | some second => StdMap.assign blocks vote.nBlockHeight (second.AddPayee env vote)
        | none => blocks
      (true, { s with mapMasternodePaymentVotes := votes, mapMasternodeBlocks := blocks })

/-- The method `CMasternodePayments::IsTransactionValid`. -/
def CMasternodePayments.IsTransactionValid (env : Env) (s : CMasternodePayments)
    (txNew : CTransaction) (nBlockHeight : Int) (fee : CAmount) : Bool :=
  match StdMap.find s.mapMasternodeBlocks nBlockHeight with
  | none => true
  | some second => second.IsTransactionValid env txNew nBlockHeight fee

/-- The value an `int` (32 bits, two's complement) holds for the mathematical
result `x` of an arithmetic operation: `x` itself when it is representable, and
`x` reduced modulo `2^32` into `[-2^31, 2^31)` when it is not. -/
def wrapInt32 (x : Int) : Int := (x + 2147483648) % 4294967296 - 2147483648

/-- The `while` loop of `CheckAndRemove` from the iterator position at the head
of the first argument: the vote entries that stay from there on, and the tally
map after the erasures.  The difference `nCachedBlockHeight - vote.nBlockHeight`
is taken in the integers, which is the `int` difference of the source whenever
that difference is representable; `CheckAndRemove.loop32` computes it in 32
bits. -/
def CheckAndRemove.loop (nCachedBlockHeight nLimit : Int) :
    List (uint256 × CMasternodePaymentVote) → List (Int × CMasternodeBlockPayees) →
    List (uint256 × CMasternodePaymentVote) × List (Int × CMasternodeBlockPayees)
  | [], blocks => ([], blocks)
  | (hash, vote) :: rest, blocks =>
    if nCachedBlockHeight - vote.nBlockHeight > nLimit then
      CheckAndRemove.loop nCachedBlockHeight nLimit rest (StdMap.erase blocks vote.nBlockHeight)
    else
      let r := CheckAndRemove.loop nCachedBlockHeight nLimit rest blocks
      ((hash, vote) :: r.1, r.2)

/-- The method `CMasternodePayments::CheckAndRemove`, with the height difference
of its loop taken in the integers (see `CheckAndRemove.loop`). -/
def CheckAndRemove (env : Env) (s : CMasternodePayments) : CMasternodePayments :=
  if !env.IsBlockchainSynced then s
  else
    let nLimit := GetStorageLimit env
    let r := CheckAndRemove.loop s.nCachedBlockHeight nLimit s.mapMasternodePaymentVotes
      s.mapMasternodeBlocks
    { s with mapMasternodePaymentVotes := r.1, mapMasternodeBlocks := r.2 }

/-- The `while` loop of `CheckAndRemove` with the test of line 482 as the
compiled code evaluates it: `nCachedBlockHeight` and `vote.nBlockHeight` are
`int`s and so is their difference, which wraps around when it leaves the 32-bit
range. -/
def CheckAndRemove.loop32 (nCachedBlockHeight nLimit : Int) :
    List (uint256 × CMasternodePaymentVote) → List (Int × CMasternodeBlockPayees) →
    List (uint256 × CMasternodePaymentVote) × List (Int × CMasternodeBlockPayees)
  | [], blocks => ([], blocks)
  | (hash, vote) :: rest, blocks =>
    if wrapInt32 (nCachedBlockHeight - vote.nBlockHeight) > nLimit then
      CheckAndRemove.loop32 nCachedBlockHeight nLimit rest
        (StdMap.erase blocks vote.nBlockHeight)
    else
      let r := CheckAndRemove.loop32 nCachedBlockHeight nLimit rest blocks
      ((hash, vote) :: r.1, r.2)

/-- The method `CMasternodePayments::CheckAndRemove` in 32-bit `int` arithmetic:
the same body with the loop `CheckAndRemove.loop32`. -/
def CheckAndRemove.int32 (env : Env) (s : CMasternodePayments) : CMasternodePayments :=
  if !env.IsBlockchainSynced then s
  else
    let nLimit := GetStorageLimit env
    let r := CheckAndRemove.loop32 s.nCachedBlockHeight nLimit s.mapMasternodePaymentVotes
      s.mapMasternodeBlocks
    { s with mapMasternodePaymentVotes := r.1, mapMasternodeBlocks := r.2 }

/-! ## Vote validation and message handling -/

/-- The method `CMasternodePaymentVote::IsValid`: the result and the effects on
the peer (`strError` only feeds the log). -/
def CMasternodePaymentVote.IsValid (env : Env) (vote : CMasternodePaymentVote) (pnode : CNode)
    (nValidationHeight : Int) : Bool × List Effect :=
  match env.GetMasternodeInfo vote.masternodeOutpoint with
  | none =>
    if env.IsMasternodeListSynced then
      (false, [Effect.AskForMN pnode.id vote.masternodeOutpoint])
    else (false, [])
  | some mnInfo =>
    let nMinRequiredProtocol := GetMinMasternodePaymentsProto env
    if mnInfo.nProtocolVersion < nMinRequiredProtocol then (false, [])
    else if !env.fMasternodeMode ∧ vote.nBlockHeight < nValidationHeight then (true, [])
    else
      match env.GetMasternodeRank vote.masternodeOutpoint (vote.nBlockHeight - 101)
          nMinRequiredProtocol with
      | none => (false, [])
      | some nRank =>
        if nRank > env.MNPAYMENTS_SIGNATURES_TOTAL then
          if nRank > env.MNPAYMENTS_SIGNATURES_TOTAL * 2 ∧ vote.nBlockHeight > nValidationHeight
          then (false, [Effect.Misbehaving pnode.id 20])
          else (false, [])
        else (true, [])

/-- The method `CMasternodePaymentVote::CheckSignature`: the result and the
final value of `nDos`. -/
def CMasternodePaymentVote.CheckSignature (env : Env) (vote : CMasternodePaymentVote)
    (pubKeyMasternode : CPubKey) (nValidationHeight : Int) : Bool × Int :=
  if env.IsSporkActiveNewSigs then
    let hash := vote.GetSignatureHash env
    if !env.VerifyHash hash pubKeyMasternode vote.vchSig then
      if env.IsMasternodeListSynced ∧ vote.nBlockHeight > nValidationHeight then (false, 20)
      else (false, 0)
    else (true, 0)
  else (true, 0)

/-- The method `CMasternodePaymentVote::Relay`. -/
def CMasternodePaymentVote.Relay (env : Env) (vote : CMasternodePaymentVote) : List Effect :=
  if !env.IsSynced then [] else [Effect.RelayInv (vote.GetHash env)]

/-- The hashes `Sync` pushes for one tally: the verified ones, payee by payee. -/
def Sync.tallyHashes (s : CMasternodePayments) (t : CMasternodeBlockPayees) : List uint256 :=
  (t.vecPayees.map (fun payee =>
    payee.GetVoteHashes.filter (fun hash => HasVerifiedPaymentVote s hash))).flatten

/-- The hashes `Sync` pushes, in order: heights `nCachedBlockHeight + 0 .. 19`. -/
def Sync.hashes (s : CMasternodePayments) : List uint256 :=
  ((List.range 20).map (fun (i : Nat) =>
    match StdMap.find s.mapMasternodeBlocks (s.nCachedBlockHeight + (i : Int)) with
    | none => []
    | some second => Sync.tallyHashes s second)).flatten

/-- The method `CMasternodePayments::Sync`. -/
def Sync (env : Env) (s : CMasternodePayments) (pnode : CNode) : List Effect :=
  if !env.IsWinnersListSynced then []
  else
    let pushed := Sync.hashes s
    pushed.map (fun hash => Effect.PushInventory pnode.id hash)
      ++ [Effect.PushSyncStatusCount pnode.id (pushed.length : Int)]

/-- The message `(strCommand, vRecv)` as far as `ProcessMessage` reads it. -/
inductive Command where
  | MASTERNODEPAYMENTSYNC
  | MASTERNODEPAYMENTVOTE (vote : CMasternodePaymentVote)
  | other
deriving DecidableEq, Repr

/-- The branch of `ProcessMessage` for `MASTERNODEPAYMENTSYNC`. -/
def ProcessMessage.sync (env : Env) (s : CMasternodePayments) (pfrom : CNode) : List Effect :=
  if pfrom.nVersion < GetMinMasternodePaymentsProto env then [Effect.PushReject pfrom.id]
  else if !env.IsSynced then []
  else if env.HasFulfilledSyncRequest pfrom then [Effect.Misbehaving pfrom.id 20]
  else Effect.AddFulfilledSyncRequest pfrom.id :: Sync env s pfrom

/-- The branch of `ProcessMessage` for `MASTERNODEPAYMENTVOTE`, from the window
check on; `s` already holds the emplaced, unverified copy. -/
def ProcessMessage.voteChecks (env : Env) (s : CMasternodePayments) (pfrom : CNode)
    (vote : CMasternodePaymentVote) : CMasternodePayments × List Effect :=
  let nFirstBlock := s.nCachedBlockHeight - GetStorageLimit env
  if vote.nBlockHeight < nFirstBlock ∨ vote.nBlockHeight > s.nCachedBlockHeight + 20 then (s, [])
  else
    let valid := vote.IsValid env pfrom s.nCachedBlockHeight
    if !valid.1 then (s, valid.2)
    else
      match env.GetMasternodeInfo vote.masternodeOutpoint with
      | none => (s, valid.2 ++ [Effect.AskForMN pfrom.id vote.masternodeOutpoint])
      | some mnInfo =>
        let sig := vote.CheckSignature env mnInfo.pubKeyMasternode s.nCachedBlockHeight
        if !sig.1 then
          let penalty := if sig.2 ≠ 0 then [Effect.Misbehaving pfrom.id sig.2] else []
          (s, valid.2 ++ penalty ++ [Effect.AskForMN pfrom.id vote.masternodeOutpoint])
        else
          let last := UpdateLastVote s vote
          if !last.1 then (last.2, valid.2)
          else
            let added := AddOrUpdatePaymentVote env last.2 vote
            if added.1 then
              (added.2, valid.2 ++ vote.Relay env ++ [Effect.BumpAssetLastTime])
            else (added.2, valid.2)

/-- The branch of `ProcessMessage` for `MASTERNODEPAYMENTVOTE`. -/
def ProcessMessage.vote (env : Env) (s : CMasternodePayments) (pfrom : CNode)
    (vote : CMasternodePaymentVote) : CMasternodePayments × List Effect :=
  if pfrom.nVersion < GetMinMasternodePaymentsProto env then (s, [Effect.PushReject pfrom.id])
  else
    let nHash := vote.GetHash env
    let asked := [Effect.EraseAskFor pfrom.id nHash]
    if !env.IsMasternodeListSynced then (s, asked)
    else
      match StdMap.find s.mapMasternodePaymentVotes nHash with
      | some first =>
        if first.IsVerified then (s, asked)
        else
          let votes := StdMap.assign s.mapMasternodePaymentVotes nHash first.MarkAsNotVerified
          let r := ProcessMessage.voteChecks env { s with mapMasternodePaymentVotes := votes }
            pfrom vote
          (r.1, asked ++ r.2)
      | none =>
        let votes := StdMap.assign s.mapMasternodePaymentVotes nHash vote.MarkAsNotVerified
        let r := ProcessMessage.voteChecks env { s with mapMasternodePaymentVotes := votes }
          pfrom vote
        (r.1, asked ++ r.2)

/-- The method `CMasternodePayments::ProcessMessage`. -/
def ProcessMessage (env : Env) (s : CMasternodePayments) (pfrom : CNode) (cmd : Command) :
    CMasternodePayments × List Effect :=
  if env.fLiteMode then (s, [])
  else
    match cmd with
    | Command.MASTERNODEPAYMENTSYNC => (s, ProcessMessage.sync env s pfrom)
    | Command.MASTERNODEPAYMENTVOTE vote => ProcessMessage.vote env s pfrom vote
    | Command.other => (s, [])

/-- The part of the `MASTERNODEPAYMENTVOTE` branch that follows the window
check: `IsValid`, the registry lookup, `CheckSignature`, `UpdateLastVote` and
`AddOrUpdatePaymentVote` with the relay. -/
def ProcessMessage.afterWindow (env : Env) (s : CMasternodePayments) (pfrom : CNode)
    (vote : CMasternodePaymentVote) : CMasternodePayments × List Effect :=
  let valid := vote.IsValid env pfrom s.nCachedBlockHeight
  if !valid.1 then (s, valid.2)
  else
    match env.GetMasternodeInfo vote.masternodeOutpoint with
    | none => (s, valid.2 ++ [Effect.AskForMN pfrom.id vote.masternodeOutpoint])
    | some mnInfo =>
      let sig := vote.CheckSignature env mnInfo.pubKeyMasternode s.nCachedBlockHeight
      if !sig.1 then
        let penalty := if sig.2 ≠ 0 then [Effect.Misbehaving pfrom.id sig.2] else []
        (s, valid.2 ++ penalty ++ [Effect.AskForMN pfrom.id vote.masternodeOutpoint])
      else
        let last := UpdateLastVote s vote
        if !last.1 then (last.2, valid.2)
        else
          let added := AddOrUpdatePaymentVote env last.2 vote
          if added.1 then
            (added.2, valid.2 ++ vote.Relay env ++ [Effect.BumpAssetLastTime])
          else (added.2, valid.2)

/-- The store in which `ProcessMessage` runs the checks of a vote: the vote map
holds an unverified record under the vote's hash (the stored record when there
was one, else a copy of the vote). -/
def ProcessMessage.seen (env : Env) (s : CMasternodePayments) (vote : CMasternodePaymentVote) :
    CMasternodePayments :=
  match StdMap.find s.mapMasternodePaymentVotes (vote.GetHash env) with
  | some first =>
    { s with mapMasternodePaymentVotes :=
        StdMap.assign s.mapMasternodePaymentVotes (vote.GetHash env) first.MarkAsNotVerified }
  | none =>
    { s with mapMasternodePaymentVotes :=
        StdMap.assign s.mapMasternodePaymentVotes (vote.GetHash env) vote.MarkAsNotVerified }

/-! ## Block production and scheduling -/

/-- The value of the default constructor `CTxOut()`, declared outside this
file: the null output, with amount `-1` and an empty script. -/
def CTxOut.null : CTxOut := { nValue := -1, scriptPubKey := [] }

/-- The method `CMasternodePayments::FillBlockPayee`: the result, the
transaction and the out-parameter `masternodeTxOut` (which the body overwrites
before reading). -/
def FillBlockPayee (env : Env) (s : CMasternodePayments) (txNew : CTransaction)
    (nBlockHeight : Int) (payment : CAmount) : Bool × CTransaction × CTxOut :=
  let found := GetBlockPayee s nBlockHeight []
  if !found.1 then
    match env.GetNextMasternodeInQueueForPayment nBlockHeight with
    | none => (false, txNew, CTxOut.null)
    | some mnInfo =>
      let payee := env.GetScriptForDestination mnInfo.pubKeyCollateralAddress
      let masternodeTxOut : CTxOut := { nValue := payment, scriptPubKey := payee }
      (true, { txNew with vout := txNew.vout ++ [masternodeTxOut] }, masternodeTxOut)
  else
    let masternodeTxOut : CTxOut := { nValue := payment, scriptPubKey := found.2 }
    (true, { txNew with vout := txNew.vout ++ [masternodeTxOut] }, masternodeTxOut)

/-- The loop of `IsScheduled` over the remaining heights, with the current
value of the local `payee`. -/
def IsScheduled.loop (s : CMasternodePayments) (mnpayee : CScript) (nNotBlockHeight : Int) :
    List Int → CScript → Bool
  | [], _ => false
  | h :: rest, payee =>
    if h = nNotBlockHeight then IsScheduled.loop s mnpayee nNotBlockHeight rest payee
    else
      let found := GetBlockPayee s h payee
      if found.1 = true ∧ mnpayee = found.2 then true
      else IsScheduled.loop s mnpayee nNotBlockHeight rest found.2

/-- The method `CMasternodePayments::IsScheduled`; the loop runs over the
heights `nCachedBlockHeight + 0 .. 8`. -/
def IsScheduled (env : Env) (s : CMasternodePayments) (mnInfo : masternode_info_t)
    (nNotBlockHeight : Int) : Bool :=
  if !env.IsMasternodeListSynced then false
  else
    let mnpayee := env.GetScriptForDestination mnInfo.pubKeyCollateralAddress
    IsScheduled.loop s mnpayee nNotBlockHeight
      ((List.range 9).map (fun (i : Nat) => s.nCachedBlockHeight + (i : Int))) []

/-- The payee of a block at a height, tallied or fallback: the script of the
output `FillBlockPayee` builds, when it builds one. -/
def payeeFor (env : Env) (s : CMasternodePayments) (nBlockHeight : Int) : Option CScript :=
  let filled := FillBlockPayee env s { vout := [] } nBlockHeight 0
  if filled.1 then some filled.2.2.scriptPubKey else none

/-! ## Requests for missing payment blocks -/

/-- The test `vToFetch.size() == MAX_INV_SZ` with its body: a full batch goes
out as one `GETDATA` and a new batch starts.  The state is the batch being
filled and the batches pushed so far, oldest first. -/
def RequestLowDataPaymentBlocks.flush (env : Env) (st : List uint256 × List (List uint256)) :
    List uint256 × List (List uint256) :=
  if st.1.length = env.MAX_INV_SZ then ([], st.2 ++ [st.1]) else st

/-- The `while` loop of `RequestLowDataPaymentBlocks` along the chain, from the
entry at the head of the list; an entry without predecessor ends the loop. -/
def RequestLowDataPaymentBlocks.chainLoop (env : Env) (s : CMasternodePayments) (nLimit : Int) :
    List CBlockIndex → List uint256 × List (List uint256) →
    List uint256 × List (List uint256)
  | [], st => st
  | pindex :: pprev, st =>
    if s.nCachedBlockHeight - pindex.nHeight < nLimit then
      match StdMap.find s.mapMasternodeBlocks pindex.nHeight with
      | none =>
        RequestLowDataPaymentBlocks.chainLoop env s nLimit pprev
          (RequestLowDataPaymentBlocks.flush env (st.1 ++ [pindex.hashBlock], st.2))
      | some _ => RequestLowDataPaymentBlocks.chainLoop env s nLimit pprev st
    else st

/-- The inner loop over the payees of one tally: the final values of `fFound`
and `nTotalVotes`. -/
def RequestLowDataPaymentBlocks.countLoop (env : Env) :
    List CMasternodePayee → Int → Bool × Int
  | [], nTotalVotes => (false, nTotalVotes)
  | payee :: rest, nTotalVotes =>
    if payee.GetVoteCount ≥ env.MNPAYMENTS_SIGNATURES_REQUIRED then (true, nTotalVotes)
    else RequestLowDataPaymentBlocks.countLoop env rest (nTotalVotes + payee.GetVoteCount)

/-- The condition under which the loop over the tallies moves on to the next
tally: `fFound || nTotalVotes >= (TOTAL + REQUIRED)/2`, with the truncating
division of the source language. -/
def RequestLowDataPaymentBlocks.enoughData (env : Env) (t : CMasternodeBlockPayees) : Bool :=
  let counted := RequestLowDataPaymentBlocks.countLoop env t.vecPayees 0
  counted.1 || decide (counted.2 ≥
    Int.tdiv (env.MNPAYMENTS_SIGNATURES_TOTAL + env.MNPAYMENTS_SIGNATURES_REQUIRED) 2)

/-- The loop of `RequestLowDataPaymentBlocks` over `mapMasternodeBlocks`. -/
def RequestLowDataPaymentBlocks.tallyLoop (env : Env) :
    List (Int × CMasternodeBlockPayees) → List uint256 × List (List uint256) →
    List uint256 × List (List uint256)
  | [], st => st
  | mnBlockPayees :: rest, st =>
    if RequestLowDataPaymentBlocks.enoughData env mnBlockPayees.2 then
      RequestLowDataPaymentBlocks.tallyLoop env rest st
    else
      match env.GetBlockHash mnBlockPayees.1 with
      | some hash =>
        RequestLowDataPaymentBlocks.tallyLoop env rest
          (RequestLowDataPaymentBlocks.flush env (st.1 ++ [hash], st.2))
      | none =>
        RequestLowDataPaymentBlocks.tallyLoop env rest (RequestLowDataPaymentBlocks.flush env st)

/-- The batches `RequestLowDataPaymentBlocks` sends, in order, when the
masternode list is synced: the full batches of the two loops and the rest. -/
def RequestLowDataPaymentBlocks.batches (env : Env) (s : CMasternodePayments) :
    List (List uint256) :=
  let st := RequestLowDataPaymentBlocks.tallyLoop env s.mapMasternodeBlocks
    (RequestLowDataPaymentBlocks.chainLoop env s (GetStorageLimit env) env.chainActive ([], []))
  if !st.1.isEmpty then st.2 ++ [st.1] else st.2

/-- The method `CMasternodePayments::RequestLowDataPaymentBlocks`: one
`GETDATA` per batch. -/
def RequestLowDataPaymentBlocks (env : Env) (s : CMasternodePayments) (pnode : CNode) :
    List Effect :=
  if !env.IsMasternodeListSynced then []
  else
    (RequestLowDataPaymentBlocks.batches env s).map
      (fun vToFetch => Effect.PushGetData pnode.id vToFetch)

/-- The hashes the chain loop decides to request: the entries from the tip
down, as long as they are within the storage limit of the cached tip, whose
height has no tally. -/
def RequestLowDataPaymentBlocks.missing (env : Env) (s : CMasternodePayments) : List uint256 :=
  ((env.chainActive.takeWhile
      (fun pindex => decide (s.nCachedBlockHeight - pindex.nHeight < GetStorageLimit env))).filter
    (fun pindex => (StdMap.find s.mapMasternodeBlocks pindex.nHeight).isNone)).map
    (fun pindex => pindex.hashBlock)

/-- A tally is under-supported when every payee has fewer than
`MNPAYMENTS_SIGNATURES_REQUIRED` votes and the votes of all its payees together
are fewer than the integer midpoint `(TOTAL + REQUIRED)/2`. -/
def underSupported (env : Env) (t : CMasternodeBlockPayees) : Prop :=
  (∀ payee ∈ t.vecPayees, payee.GetVoteCount < env.MNPAYMENTS_SIGNATURES_REQUIRED) ∧
  (t.vecPayees.map (fun payee => payee.GetVoteCount)).sum <
    Int.tdiv (env.MNPAYMENTS_SIGNATURES_TOTAL + env.MNPAYMENTS_SIGNATURES_REQUIRED) 2

/-- The hashes the loop over the tallies decides to request: the resolvable
block hashes of the heights whose tally does not have enough data. -/
def RequestLowDataPaymentBlocks.lowData (env : Env) (s : CMasternodePayments) : List uint256 :=
  s.mapMasternodeBlocks.filterMap
    (fun mnBlockPayees =>
      if RequestLowDataPaymentBlocks.enoughData env mnBlockPayees.2 then none
      else env.GetBlockHash mnBlockPayees.1)

/-! ## Runs -/

/-- A sequence of `UpdateLastVote` calls: the results in call order and the
final store. -/
def UpdateLastVote.run : CMasternodePayments → List CMasternodePaymentVote →
    List Bool × CMasternodePayments
  | s, [] => ([], s)
  | s, vote :: rest =>
    let r := UpdateLastVote s vote
    let q := UpdateLastVote.run r.2 rest
    (r.1 :: q.1, q.2)

/-- The number of calls for outpoint `outpoint` and height `nBlockHeight` that
return true in a sequence of `UpdateLastVote` calls on the store `s`. -/
def UpdateLastVote.acceptedFor (outpoint : COutPoint) (nBlockHeight : Int) :
    CMasternodePayments → List CMasternodePaymentVote → Nat
  | _, [] => 0
  | s, vote :: rest =>
    (if vote.masternodeOutpoint = outpoint ∧ vote.nBlockHeight = nBlockHeight ∧
        (UpdateLastVote s vote).1 = true then 1 else 0) +
      UpdateLastVote.acceptedFor outpoint nBlockHeight (UpdateLastVote s vote).2 rest

/-- The state of the two loops between iterations: the batch being filled is
shorter than `MAX_INV_SZ` and every batch pushed so far has exactly
`MAX_INV_SZ` items. -/
def RequestLowDataPaymentBlocks.wellBatched (env : Env)
    (st : List uint256 × List (List uint256)) : Prop :=
  st.1.length < env.MAX_INV_SZ ∧ ∀ batch ∈ st.2, batch.length = env.MAX_INV_SZ

/-- The heights of the votes of `outpoint` that `UpdateLastVote` accepts in a
sequence of calls on the store `s`, in call order. -/
def UpdateLastVote.acceptedHeights (outpoint : COutPoint) :
    CMasternodePayments → List CMasternodePaymentVote → List Int
  | _, [] => []
  | s, vote :: rest =>
    if vote.masternodeOutpoint = outpoint ∧ (UpdateLastVote s vote).1 = true then
      vote.nBlockHeight :: UpdateLastVote.acceptedHeights outpoint (UpdateLastVote s vote).2 rest
    else UpdateLastVote.acceptedHeights outpoint (UpdateLastVote s vote).2 rest

/-- A sequence of `AddOrUpdatePaymentVote` calls: the results in call order and
the final store. -/
def AddOrUpdatePaymentVote.run (env : Env) : CMasternodePayments → List CMasternodePaymentVote →
    List Bool × CMasternodePayments
  | s, [] => ([], s)
  | s, vote :: rest =>
    let r := AddOrUpdatePaymentVote env s vote
    let q := AddOrUpdatePaymentVote.run env r.2 rest
    (r.1 :: q.1, q.2)

/-- The payee entries tallied for a height, in tally order (none when the
height has no tally). -/
def payeesAt (s : CMasternodePayments) (nBlockHeight : Int) : List CMasternodePayee :=
  match StdMap.find s.mapMasternodeBlocks nBlockHeight with
  | some second => second.vecPayees
  | none => []

/-- Whether `CheckAndRemove` erases the tally of height `h`: some vote entry is
older than the limit and has block height `h`. -/
def CheckAndRemove.erased (nCachedBlockHeight nLimit : Int)
    (votes : List (uint256 × CMasternodePaymentVote)) (h : Int) : Bool :=
  votes.any (fun e => decide (nCachedBlockHeight - e.2.nBlockHeight > nLimit) &&
    decide (e.2.nBlockHeight = h))

/-- An identity hash without collisions. -/
def CollisionFree (hashWriter : CScript → Int → Int → COutPoint → uint256) : Prop :=
  ∀ p h sh o p' h' sh' o', hashWriter p h sh o = hashWriter p' h' sh' o' →
    p = p' ∧ h = h' ∧ sh = sh' ∧ o = o'

/-- Consistency of a vote map with a tally map: every vote is stored under its
identity hash, and every tally has a stored vote of its height. -/
def Consistent (hashWriter : CScript → Int → Int → COutPoint → uint256)
    (votes : List (uint256 × CMasternodePaymentVote))
    (blocks : List (Int × CMasternodeBlockPayees)) : Prop :=
  (∀ r ∈ votes,
    r.1 = hashWriter r.2.payee r.2.nBlockHeight r.2.nStartHeight r.2.masternodeOutpoint) ∧
  (∀ e ∈ blocks, ∃ r ∈ votes, r.2.nBlockHeight = e.1)

/-! ## The worked scenario of the specification -/

/-- An injective identity hash: the pairing code of the four hashed fields. -/
def Scenario.hashWriter (payee : CScript) (nBlockHeight nStartHeight : Int)
    (outpoint : COutPoint) : uint256 :=
  Encodable.encode (payee, nBlockHeight, nStartHeight, outpoint.hash, outpoint.n)

/-- The masternode the scenario registry reports as next due payment. -/
def Scenario.dueInfo : masternode_info_t :=
  { outpoint := { hash := 9, n := 0 }, nProtocolVersion := 70208, pubKeyMasternode := [1],
    pubKeyCollateralAddress := [9] }

/-- The environment of the concrete scenario: threshold 5 of 10 signatures, a
fully synced node, a chain that resolves every non-negative height, a registry
that knows every outpoint with rank 1, signatures that verify when non-empty,
and a storage limit of `max 25 50`. -/
def Scenario.env : Env :=
  { MNPAYMENTS_SIGNATURES_REQUIRED := 5
    MNPAYMENTS_SIGNATURES_TOTAL := 10
    MIN_MASTERNODE_PAYMENT_PROTO_VERSION := 70208
    fLiteMode := false
    fMasternodeMode := false
    hashWriter := Scenario.hashWriter
    SerializeHash := fun vote =>
      Scenario.hashWriter vote.payee vote.nBlockHeight vote.nStartHeight vote.masternodeOutpoint
    VerifyHash := fun _ _ vchSig => !vchSig.isEmpty
    IsSporkActiveNewSigs := true
    GetBlockHash := fun nHeight => if 0 ≤ nHeight then some nHeight.toNat else none
    masternodeSubsidy := fun _ => 1000
    IsBlockchainSynced := true
    IsMasternodeListSynced := true
    IsWinnersListSynced := true
    IsSynced := true
    GetMasternodeInfo := fun outpoint =>
      some { outpoint := outpoint, nProtocolVersion := 70208, pubKeyMasternode := [1],
             pubKeyCollateralAddress := [2] }
    GetMasternodeRank := fun _ _ _ => some 1
    HasFulfilledSyncRequest := fun _ => false
    nScaledRegistrySize := 25
    nMinBlocksToStore := 50
    GetNextMasternodeInQueueForPayment := fun _ => some Scenario.dueInfo
    GetScriptForDestination := fun pubKey => pubKey
    chainActive := [{ nHeight := 1002, hashBlock := 1002 }, { nHeight := 1001, hashBlock := 1001 },
                    { nHeight := 1000, hashBlock := 1000 }, { nHeight := 999, hashBlock := 999 },
                    { nHeight := 998, hashBlock := 998 }]
    MAX_INV_SZ := 2 }

/-- The payee script S1 of the scenario. -/
def Scenario.S1 : CScript := [1]

/-- The payee script S2 of the scenario. -/
def Scenario.S2 : CScript := [2]

/-- The signed vote of masternode `i` for payee `payee` at height `nBlockHeight`. -/
def Scenario.voteAt (i : Nat) (nBlockHeight : Int) (payee : CScript) : CMasternodePaymentVote :=
  { masternodeOutpoint := { hash := i, n := 0 }, nBlockHeight := nBlockHeight,
    nStartHeight := 900, payee := payee, vchSig := [7], verified := true }

/-- The vote of masternode `i` for payee `payee` at height 1000. -/
def Scenario.vote (i : Nat) (payee : CScript) : CMasternodePaymentVote :=
  Scenario.voteAt i 1000 payee

/-- The votes of masternodes 1 to 5 for S1 at height 1000. -/
def Scenario.votes5 : List CMasternodePaymentVote :=
  [Scenario.vote 1 Scenario.S1, Scenario.vote 2 Scenario.S1, Scenario.vote 3 Scenario.S1,
   Scenario.vote 4 Scenario.S1, Scenario.vote 5 Scenario.S1]

/-- The store after masternodes 1 to 5 voted for S1 at height 1000. -/
def Scenario.store5 : CMasternodePayments :=
  (AddOrUpdatePaymentVote.run Scenario.env CMasternodePayments.empty Scenario.votes5).2

/-- The store after only masternodes 1 and 2 voted at height 1000, for S2. -/
def Scenario.store2 : CMasternodePayments :=
  (AddOrUpdatePaymentVote.run Scenario.env CMasternodePayments.empty
    [Scenario.vote 1 Scenario.S2, Scenario.vote 2 Scenario.S2]).2

/-- The tally of `Scenario.store2` for height 1000: S2 with the two votes. -/
def Scenario.tally2 : CMasternodeBlockPayees :=
  { nBlockHeight := 1000,
    vecPayees := [{ scriptPubKey := Scenario.S2,
                    vecVoteHashes := [(Scenario.vote 1 Scenario.S2).GetHash Scenario.env,
                                      (Scenario.vote 2 Scenario.S2).GetHash Scenario.env],
                    nStartHeight := 900 }] }

/-- A tally in which S1 has five votes and S2 has two. -/
def Scenario.tally : CMasternodeBlockPayees :=
  { nBlockHeight := 1000,
    vecPayees := [{ scriptPubKey := Scenario.S2, vecVoteHashes := [11, 12], nStartHeight := 900 },
                  { scriptPubKey := Scenario.S1, vecVoteHashes := [1, 2, 3, 4, 5],
                    nStartHeight := 900 }] }

/-- A tally in which S2 (inserted first) and S1 are tied with two votes each. -/
def Scenario.tallyTied : CMasternodeBlockPayees :=
  { nBlockHeight := 1000,
    vecPayees := [{ scriptPubKey := Scenario.S2, vecVoteHashes := [11, 12], nStartHeight := 900 },
                  { scriptPubKey := Scenario.S1, vecVoteHashes := [1, 2], nStartHeight := 900 }] }

/-- The scenario store with the cached tip moved to `nHeight`. -/
def Scenario.store5At (nHeight : Int) : CMasternodePayments :=
  { Scenario.store5 with nCachedBlockHeight := nHeight }

/-- The empty store with the cached tip at `nHeight`. -/
def Scenario.storeAt (nHeight : Int) : CMasternodePayments :=
  { CMasternodePayments.empty with nCachedBlockHeight := nHeight }

/-- A peer with a current protocol version. -/
def Scenario.peer : CNode := { id := 3, nVersion := 70208 }

/-- The scenario environment with the spork `SPORK_2_NEW_SIGS` inactive. -/
def Scenario.envNoSpork : Env := { Scenario.env with IsSporkActiveNewSigs := false }

/-- The scenario environment while the chain is being reorganised: the chain
index resolves block hashes up to height 800 only, and the registry, which
ranks against a block hash, ranks at those heights only. -/
def Scenario.envReorg : Env :=
  { Scenario.env with
    GetBlockHash := fun nHeight =>
      if 0 ≤ nHeight ∧ nHeight ≤ 800 then some nHeight.toNat else none
    GetMasternodeRank := fun _ nHeight _ =>
      if 0 ≤ nHeight ∧ nHeight ≤ 800 then some 1 else none }

/-- The scenario environment with a registry that knows no masternode. -/
def Scenario.envUnknown : Env := { Scenario.env with GetMasternodeInfo := fun _ => none }

/-- The scenario environment with a registry that ranks every masternode 11th. -/
def Scenario.envRank11 : Env := { Scenario.env with GetMasternodeRank := fun _ _ _ => some 11 }

/-- The scenario environment with a registry that has no masternode due
payment. -/
def Scenario.envNoQueue : Env :=
  { Scenario.env with GetNextMasternodeInQueueForPayment := fun _ => none }

/-- The vote of masternode `i` for `payee` at `nBlockHeight` with an empty
signature, which `Scenario.env` does not verify. -/
def Scenario.unsignedVoteAt (i : Nat) (nBlockHeight : Int) (payee : CScript) :
    CMasternodePaymentVote :=
  { Scenario.voteAt i nBlockHeight payee with vchSig := [], verified := false }

/-- The store after the unverified vote of masternode 1 for S1 at height 1000
was ingested once. -/
def Scenario.storeUnverified : CMasternodePayments :=
  (AddOrUpdatePaymentVote Scenario.env CMasternodePayments.empty
    (Scenario.unsignedVoteAt 1 1000 Scenario.S1)).2

/-- A vote of masternode 1 for S1 whose block height is `INT_MIN`, the least
value of the `int` field. -/
def Scenario.voteIntMin : CMasternodePaymentVote :=
  Scenario.voteAt 1 (-2147483648) Scenario.S1

/-- The store of a node with the tip at 1000 after it handled the message that
carries `Scenario.voteIntMin`. -/
def Scenario.storeIntMin : CMasternodePayments :=
  (ProcessMessage Scenario.env (Scenario.storeAt 1000) Scenario.peer
    (Command.MASTERNODEPAYMENTVOTE Scenario.voteIntMin)).1

/-- A store with the tip at 1100 whose tally for height 1000 has S1 with four
votes and S2 with three: seven votes, no payee at the threshold of five. -/
def Scenario.storeSeven : CMasternodePayments :=
  { CMasternodePayments.empty with
    mapMasternodeBlocks :=
      [(1000, { nBlockHeight := 1000,
                vecPayees := [{ scriptPubKey := Scenario.S1, vecVoteHashes := [1, 2, 3, 4],
                                nStartHeight := 900 },
                              { scriptPubKey := Scenario.S2, vecVoteHashes := [11, 12, 13],
                                nStartHeight := 900 }] })],
    nCachedBlockHeight := 1100 }

/-- The same store with one vote less for S2: six votes. -/
def Scenario.storeSix : CMasternodePayments :=
  { CMasternodePayments.empty with
    mapMasternodeBlocks :=
      [(1000, { nBlockHeight := 1000,
                vecPayees := [{ scriptPubKey := Scenario.S1, vecVoteHashes := [1, 2, 3, 4],
                                nStartHeight := 900 },
                              { scriptPubKey := Scenario.S2, vecVoteHashes := [11, 12],
                                nStartHeight := 900 }] })],
    nCachedBlockHeight := 1100 }

/-! ## Facts about the map operations -/

namespace StdMap

variable {K V : Type}

theorem find_assign_self [DecidableEq K] [Ord K] (m : List (K × V)) (k : K) (v : V) :
    find (assign m k v) k = some v := by
  induction m with
  | nil => simp [assign, find]
  | cons e rest ih =>
    obtain ⟨k', v'⟩ := e
    by_cases h : k' = k
    · simp [assign, find, h]
    · by_cases hlt : compare k k' = Ordering.lt
      · simp [assign, find, h, hlt]
      · simp [assign, find, h, hlt, ih]

theorem find_assign_ne [DecidableEq K] [Ord K] (m : List (K × V)) (k k0 : K) (v : V)
    (hne : k0 ≠ k) : find (assign m k v) k0 = find m k0 := by
  induction m with
  | nil => simp [assign, find, Ne.symm hne]
  | cons e rest ih =>
    obtain ⟨k', v'⟩ := e
    by_cases h : k' = k
    · subst h
      simp [assign, find, Ne.symm hne]
    · by_cases hlt : compare k k' = Ordering.lt
      · simp [assign, find, h, hlt, Ne.symm hne]
      · by_cases h0 : k' = k0
        · subst h0
          simp [assign, find, h, hlt]
        · simp [assign, find, h, hlt, h0, ih]

theorem mem_assign [DecidableEq K] [Ord K] (m : List (K × V)) (k : K) (v : V) (e : K × V)
    (he : e ∈ assign m k v) : e = (k, v) ∨ e ∈ m := by
  induction m with
  | nil =>
    simp [assign] at he
    exact Or.inl he
  | cons e' rest ih =>
    obtain ⟨k', v'⟩ := e'
    by_cases h : k' = k
    · subst h
      simp only [assign, if_true, List.mem_cons] at he
      rcases he with he | he
      · exact Or.inl he
      · exact Or.inr (List.mem_cons_of_mem _ he)
    · by_cases hlt : compare k k' = Ordering.lt
      · simp only [assign, h, hlt, if_true, if_false, List.mem_cons] at he
        rcases he with he | he | he
        · exact Or.inl he
        · exact Or.inr (he ▸ List.mem_cons_self _ _)
        · exact Or.inr (List.mem_cons_of_mem _ he)
      · simp only [assign, h, hlt, if_false, List.mem_cons] at he
        rcases he with he | he
        · exact Or.inr (he ▸ List.mem_cons_self _ _)
        · rcases ih he with h1 | h1
          · exact Or.inl h1
          · exact Or.inr (List.mem_cons_of_mem _ h1)

theorem find_erase_self [DecidableEq K] (m : List (K × V)) (k : K) :
    find (erase m k) k = none := by
  induction m with
  | nil => simp [erase, find]
  | cons e rest ih =>
    obtain ⟨k', v'⟩ := e
    by_cases h : k' = k
    · simpa [erase, List.filter_cons, h] using ih
    · simpa [erase, List.filter_cons, h, find] using ih

theorem find_erase_ne [DecidableEq K] (m : List (K × V)) (k k0 : K) (hne : k0 ≠ k) :
    find (erase m k) k0 = find m k0 := by
  induction m with
  | nil => simp [erase, find]
  | cons e rest ih =>
    obtain ⟨k', v'⟩ := e
    by_cases h : k' = k
    · subst h
      have h0 : ¬ k' = k0 := fun h0 => hne h0.symm
      simpa [erase, List.filter_cons, find, h0] using ih
    · by_cases h0 : k' = k0
      · subst h0
        simp [erase, List.filter_cons, h, find]
      · simpa [erase, List.filter_cons, h, find, h0] using ih

theorem find_emplace_self [DecidableEq K] [Ord K] (m : List (K × V)) (k : K) (v : V) :
    find (emplace m k v) k = some ((find m k).getD v) := by
  unfold emplace
  cases h : find m k with
  | none => simp [find_assign_self]
  | some w => simp [h]

theorem find_emplace_ne [DecidableEq K] [Ord K] (m : List (K × V)) (k k0 : K) (v : V)
    (hne : k0 ≠ k) : find (emplace m k v) k0 = find m k0 := by
  unfold emplace
  cases h : find m k with
  | none => simp [find_assign_ne _ _ _ _ hne]
  | some w => simp

theorem mem_assign_self [DecidableEq K] [Ord K] (m : List (K × V)) (k : K) (v : V) :
    (k, v) ∈ assign m k v := by
  induction m with
  | nil => simp [assign]
  | cons e rest ih =>
    obtain ⟨k', v'⟩ := e
    by_cases h : k' = k
    · simp [assign, h]
    · by_cases hlt : compare k k' = Ordering.lt
      · simp [assign, h, hlt]
      · simp [assign, h, hlt, ih]

theorem mem_assign_of_ne [DecidableEq K] [Ord K] (m : List (K × V)) (k : K) (v : V)
    (e : K × V) (he : e ∈ m) (hne : e.1 ≠ k) : e ∈ assign m k v := by
  induction m with
  | nil => simp at he
  | cons e' rest ih =>
    obtain ⟨k', v'⟩ := e'
    by_cases h : k' = k
    · subst h
      rcases List.mem_cons.mp he with he | he
      · subst he
        exact absurd rfl hne
      · simp [assign, he]
    · by_cases hlt : compare k k' = Ordering.lt
      · simp only [assign, h, hlt, if_true, if_false]
        exact List.mem_cons_of_mem _ he
      · simp only [assign, h, hlt, if_false]
        rcases List.mem_cons.mp he with he | he
        · subst he
          exact List.mem_cons_self _ _
        · exact List.mem_cons_of_mem _ (ih he)

theorem mem_emplace [DecidableEq K] [Ord K] (m : List (K × V)) (k : K) (v : V) (e : K × V)
    (he : e ∈ emplace m k v) : e = (k, v) ∨ e ∈ m := by
  unfold emplace at he
  cases h : find m k with
  | none =>
    rw [h] at he
    exact mem_assign m k v e he
  | some w =>
    rw [h] at he
    exact Or.inr he

theorem find_filter_key [DecidableEq K] (p : K → Bool) (m : List (K × V)) (k : K) :
    find (m.filter (fun e => p e.1)) k = if p k = true then find m k else none := by
  induction m with
  | nil => simp [find]
  | cons e rest ih =>
    obtain ⟨k', v'⟩ := e
    by_cases hk : k' = k
    · subst hk
      by_cases hp : p k' = true
      · simp [List.filter_cons, hp, find]
      · simpa [List.filter_cons, hp, find] using ih
    · by_cases hp : p k' = true
      · simpa [List.filter_cons, hp, find, hk] using ih
      · simpa [List.filter_cons, hp, find, hk] using ih

end StdMap

/-! ## Transaction validity against a tally -/

theorem IsTransactionValid.foundPayment_iff (payeeScript : CScript) (masternodePayment : CAmount)
    (vout : List CTxOut) :
    IsTransactionValid.foundPayment payeeScript masternodePayment vout = true ↔
      ∃ txout ∈ vout, txout.scriptPubKey = payeeScript ∧ txout.nValue = masternodePayment := by
  induction vout with
  | nil => simp [IsTransactionValid.foundPayment]
  | cons txout rest ih =>
    by_cases h : payeeScript = txout.scriptPubKey ∧ masternodePayment = txout.nValue
    · rw [IsTransactionValid.foundPayment, if_pos h]
      exact ⟨fun _ => ⟨txout, List.mem_cons_self _ _, h.1.symm, h.2.symm⟩, fun _ => rfl⟩
    · rw [IsTransactionValid.foundPayment, if_neg h, ih]
      simp only [List.mem_cons]
      constructor
      · rintro ⟨o, ho, h1, h2⟩
        exact ⟨o, Or.inr ho, h1, h2⟩
      · rintro ⟨o, ho | ho, h1, h2⟩
        · exact absurd ⟨(ho ▸ h1).symm, (ho ▸ h2).symm⟩ h
        · exact ⟨o, ho, h1, h2⟩

theorem IsTransactionValid.payeeLoop_iff (env : Env) (vout : List CTxOut)
    (masternodePayment : CAmount) (payees : List CMasternodePayee) :
    IsTransactionValid.payeeLoop env vout masternodePayment payees = true ↔
      ∃ payee ∈ payees, env.MNPAYMENTS_SIGNATURES_REQUIRED ≤ payee.GetVoteCount ∧
        IsTransactionValid.foundPayment payee.GetPayee masternodePayment vout = true := by
  induction payees with
  | nil => simp [IsTransactionValid.payeeLoop]
  | cons payee rest ih =>
    by_cases h : payee.GetVoteCount ≥ env.MNPAYMENTS_SIGNATURES_REQUIRED ∧
        IsTransactionValid.foundPayment payee.GetPayee masternodePayment vout = true
    · rw [IsTransactionValid.payeeLoop]
      simp only [if_pos h]
      exact ⟨fun _ => ⟨payee, List.mem_cons_self _ _, h.1, h.2⟩, fun _ => trivial⟩
    · rw [IsTransactionValid.payeeLoop]
      simp only [if_neg h, ih, List.mem_cons]
      constructor
      · rintro ⟨p, hp, h1, h2⟩
        exact ⟨p, Or.inr hp, h1, h2⟩
      · rintro ⟨p, hp | hp, h1, h2⟩
        · subst hp
          exact absurd ⟨h1, h2⟩ h
        · exact ⟨p, hp, h1, h2⟩

theorem IsTransactionValid.le_maxLoop (payees : List CMasternodePayee) (n : Int) :
    n ≤ IsTransactionValid.maxLoop payees n ∧
      ∀ payee ∈ payees, payee.GetVoteCount ≤ IsTransactionValid.maxLoop payees n := by
  induction payees generalizing n with
  | nil => simp [IsTransactionValid.maxLoop]
  | cons payee rest ih =>
    by_cases h : payee.GetVoteCount ≥ n
    · simp only [IsTransactionValid.maxLoop, h, if_true, List.mem_cons]
      refine ⟨le_trans h (ih _).1, ?_⟩
      rintro p (hp | hp)
      · subst hp
        exact (ih _).1
      · exact (ih _).2 p hp
    · simp only [IsTransactionValid.maxLoop, h, if_false, List.mem_cons]
      refine ⟨(ih _).1, ?_⟩
      rintro p (hp | hp)
      · subst hp
        exact le_trans (le_of_lt (not_le.mp h)) (ih _).1
      · exact (ih _).2 p hp

theorem IsTransactionValid.maxLoop_attained (payees : List CMasternodePayee) (n : Int) :
    IsTransactionValid.maxLoop payees n = n ∨
      ∃ payee ∈ payees, IsTransactionValid.maxLoop payees n = payee.GetVoteCount := by
  induction payees generalizing n with
  | nil => simp [IsTransactionValid.maxLoop]
  | cons payee rest ih =>
    by_cases h : payee.GetVoteCount ≥ n
    · simp only [IsTransactionValid.maxLoop, h, if_true, List.mem_cons]
      rcases ih payee.GetVoteCount with h1 | ⟨p, hp, h1⟩
      · exact Or.inr ⟨payee, Or.inl rfl, h1⟩
      · exact Or.inr ⟨p, Or.inr hp, h1⟩
    · simp only [IsTransactionValid.maxLoop, h, if_false, List.mem_cons]
      rcases ih n with h1 | ⟨p, hp, h1⟩
      · exact Or.inl h1
      · exact Or.inr ⟨p, Or.inr hp, h1⟩

/-- C1: when some tallied payee has at least `MNPAYMENTS_SIGNATURES_REQUIRED`
votes, `CMasternodeBlockPayees::IsTransactionValid` returns true exactly when
the transaction has an output whose script is the script of a tallied payee
with at least that many votes and whose value is exactly
`masternodeSubsidy nHeight + fee / 2` (truncating division). -/
theorem isTransactionValid_iff_pays_required (env : Env) (t : CMasternodeBlockPayees)
    (txNew : CTransaction) (nHeight : Int) (fee : CAmount)
    (hmax : ∃ payee ∈ t.vecPayees, env.MNPAYMENTS_SIGNATURES_REQUIRED ≤ payee.GetVoteCount) :
    t.IsTransactionValid env txNew nHeight fee = true ↔
      ∃ txout ∈ txNew.vout, ∃ payee ∈ t.vecPayees,
        env.MNPAYMENTS_SIGNATURES_REQUIRED ≤ payee.GetVoteCount ∧
        txout.scriptPubKey = payee.GetPayee ∧
        txout.nValue = env.masternodeSubsidy nHeight + Int.tdiv fee 2 := by
  obtain ⟨p0, hp0, hreq⟩ := hmax
  have hge : ¬ IsTransactionValid.maxLoop t.vecPayees 0 < env.MNPAYMENTS_SIGNATURES_REQUIRED :=
    not_lt.mpr (le_trans hreq ((IsTransactionValid.le_maxLoop t.vecPayees 0).2 p0 hp0))
  unfold CMasternodeBlockPayees.IsTransactionValid
  simp only [hge, if_false]
  constructor
  · intro h
    have h1 : IsTransactionValid.payeeLoop env txNew.vout
        (env.masternodeSubsidy nHeight + Int.tdiv fee 2) t.vecPayees = true := by
      by_contra hc
      simp [hc] at h
    obtain ⟨p, hp, hcount, hfound⟩ := (IsTransactionValid.payeeLoop_iff _ _ _ _).mp h1
    obtain ⟨o, ho, hs, hv⟩ := (IsTransactionValid.foundPayment_iff _ _ _).mp hfound
    exact ⟨o, ho, p, hp, hcount, hs, hv⟩
  · rintro ⟨o, ho, p, hp, hcount, hs, hv⟩
    have h1 : IsTransactionValid.payeeLoop env txNew.vout
        (env.masternodeSubsidy nHeight + Int.tdiv fee 2) t.vecPayees = true :=
      (IsTransactionValid.payeeLoop_iff _ _ _ _).mpr
        ⟨p, hp, hcount, (IsTransactionValid.foundPayment_iff _ _ _).mpr ⟨o, ho, hs, hv⟩⟩
    simp [h1]

/-- Witness for C1: in the scenario tally (S1 with five votes, S2 with two) a
transaction paying `1000 + 10 / 2` to S1 at height 1000 is valid, by the
right-hand side of the equivalence. -/
theorem isTransactionValid_iff_pays_required_witness :
    (∃ payee ∈ Scenario.tally.vecPayees,
        Scenario.env.MNPAYMENTS_SIGNATURES_REQUIRED ≤ payee.GetVoteCount) ∧
    Scenario.tally.IsTransactionValid Scenario.env
        { vout := [{ nValue := 1005, scriptPubKey := Scenario.S1 }] } 1000 10 = true :=
  ⟨⟨_, List.mem_cons_of_mem _ (List.mem_cons_self _ _), by decide⟩,
   (isTransactionValid_iff_pays_required Scenario.env Scenario.tally
      { vout := [{ nValue := 1005, scriptPubKey := Scenario.S1 }] } 1000 10
      ⟨_, List.mem_cons_of_mem _ (List.mem_cons_self _ _), by decide⟩).mpr
     ⟨_, List.mem_cons_self _ _, _, List.mem_cons_of_mem _ (List.mem_cons_self _ _),
      by decide, rfl, by decide⟩⟩

/-- C2: with a positive signature threshold, `CMasternodePayments::IsTransactionValid`
returns true for every transaction and fee when the store has no tally for the
height, and also when the tally of that height has only payees with fewer than
`MNPAYMENTS_SIGNATURES_REQUIRED` votes (a tally without payees included). -/
theorem isTransactionValid_fallback (env : Env) (s : CMasternodePayments) (txNew : CTransaction)
    (nBlockHeight : Int) (fee : CAmount) (hreq : 0 < env.MNPAYMENTS_SIGNATURES_REQUIRED) :
    (StdMap.find s.mapMasternodeBlocks nBlockHeight = none →
      s.IsTransactionValid env txNew nBlockHeight fee = true) ∧
    (∀ t, StdMap.find s.mapMasternodeBlocks nBlockHeight = some t →
      (∀ payee ∈ t.vecPayees, payee.GetVoteCount < env.MNPAYMENTS_SIGNATURES_REQUIRED) →
      s.IsTransactionValid env txNew nBlockHeight fee = true) := by
  constructor
  · intro hnone
    simp [CMasternodePayments.IsTransactionValid, hnone]
  · intro t hsome hbelow
    have hmaxlt : IsTransactionValid.maxLoop t.vecPayees 0 < env.MNPAYMENTS_SIGNATURES_REQUIRED := by
      rcases IsTransactionValid.maxLoop_attained t.vecPayees 0 with h0 | ⟨p, hp, h1⟩
      · rw [h0]
        exact hreq
      · rw [h1]
        exact hbelow p hp
    simp [CMasternodePayments.IsTransactionValid, hsome,
      CMasternodeBlockPayees.IsTransactionValid, hmaxlt]

/-- Witness for C2: with threshold 5, the store in which only two masternodes
voted for height 1000 accepts a transaction without outputs at that height. -/
theorem isTransactionValid_fallback_witness :
    0 < Scenario.env.MNPAYMENTS_SIGNATURES_REQUIRED ∧
    StdMap.find Scenario.store2.mapMasternodeBlocks 1000 = some Scenario.tally2 ∧
    Scenario.store2.IsTransactionValid Scenario.env { vout := [] } 1000 10 = true :=
  ⟨by decide, by decide,
   (isTransactionValid_fallback Scenario.env Scenario.store2 { vout := [] } 1000 10
      (by decide)).2 Scenario.tally2 (by decide) (by decide)⟩

/-! ## The best payee of a tally -/

theorem CMasternodePayee.GetVoteCount_nonneg (p : CMasternodePayee) : 0 ≤ p.GetVoteCount := by
  simp [CMasternodePayee.GetVoteCount]

theorem CMasternodePayee.AddVoteHash_of_mem (p : CMasternodePayee) (hashIn : uint256)
    (hmem : hashIn ∈ p.GetVoteHashes) : p.AddVoteHash hashIn = p := by
  unfold CMasternodePayee.GetVoteHashes at hmem
  rw [CMasternodePayee.AddVoteHash, if_pos hmem]

theorem CMasternodePayee.AddVoteHash_of_not_mem (p : CMasternodePayee) (hashIn : uint256)
    (hnew : hashIn ∉ p.GetVoteHashes) :
    p.AddVoteHash hashIn = { p with vecVoteHashes := p.vecVoteHashes ++ [hashIn] } := by
  unfold CMasternodePayee.GetVoteHashes at hnew
  rw [CMasternodePayee.AddVoteHash, if_neg hnew]

theorem CMasternodePayee.AddVoteHash_GetPayee (p : CMasternodePayee) (hashIn : uint256) :
    (p.AddVoteHash hashIn).GetPayee = p.GetPayee := by
  by_cases h : hashIn ∈ p.vecVoteHashes
  · rw [CMasternodePayee.AddVoteHash, if_pos h]
  · rw [CMasternodePayee.AddVoteHash, if_neg h]
    rfl

theorem CMasternodePayee.AddVoteHash_GetVoteHashes (p : CMasternodePayee) (hashIn : uint256)
    (hnew : hashIn ∉ p.GetVoteHashes) :
    (p.AddVoteHash hashIn).GetVoteHashes = p.GetVoteHashes ++ [hashIn] := by
  rw [p.AddVoteHash_of_not_mem hashIn hnew]
  rfl

theorem CMasternodePayee.AddVoteHash_GetVoteCount (p : CMasternodePayee) (hashIn : uint256)
    (hnew : hashIn ∉ p.GetVoteHashes) :
    (p.AddVoteHash hashIn).GetVoteCount = p.GetVoteCount + 1 := by
  rw [p.AddVoteHash_of_not_mem hashIn hnew]
  unfold CMasternodePayee.GetVoteHashes at hnew
  simp [CMasternodePayee.GetVoteCount, List.toFinset_append, Finset.card_union_of_disjoint, hnew]

theorem CMasternodePayee.mem_AddVoteHash (p : CMasternodePayee) (hashIn hash : uint256) :
    hash ∈ (p.AddVoteHash hashIn).GetVoteHashes ↔ hash ∈ p.GetVoteHashes ∨ hash = hashIn := by
  by_cases h : hashIn ∈ p.GetVoteHashes
  · rw [p.AddVoteHash_of_mem hashIn h]
    constructor
    · exact Or.inl
    · rintro (h1 | h1)
      · exact h1
      · rw [h1]
        exact h
  · rw [p.AddVoteHash_GetVoteHashes hashIn h]
    simp

theorem GetBestPayee_loop_spec (payees : List CMasternodePayee) (payeeRet : CScript)
    (nVotes : Int) :
    (GetBestPayee.loop payees payeeRet nVotes = (payeeRet, nVotes) ∧
        ∀ payee ∈ payees, payee.GetVoteCount ≤ nVotes) ∨
      ∃ before best after, payees = before ++ best :: after ∧
        GetBestPayee.loop payees payeeRet nVotes = (best.GetPayee, best.GetVoteCount) ∧
        nVotes < best.GetVoteCount ∧
        (∀ payee ∈ before, payee.GetVoteCount < best.GetVoteCount) ∧
        (∀ payee ∈ after, payee.GetVoteCount ≤ best.GetVoteCount) := by
  induction payees generalizing payeeRet nVotes with
  | nil => exact Or.inl ⟨rfl, by simp⟩
  | cons p rest ih =>
    by_cases h : p.GetVoteCount > nVotes
    · rw [GetBestPayee.loop, if_pos h]
      right
      rcases ih p.GetPayee p.GetVoteCount with ⟨heq, hall⟩ | ⟨b, best, a, hsplit, heq, hlt, hb, ha⟩
      · exact ⟨[], p, rest, rfl, heq, h, by simp, hall⟩
      · refine ⟨p :: b, best, a, by simp [hsplit], heq, lt_trans h hlt, ?_, ha⟩
        intro q hq
        rcases List.mem_cons.mp hq with hq | hq
        · subst hq
          exact hlt
        · exact hb q hq
    · rw [GetBestPayee.loop, if_neg h]
      have hle : p.GetVoteCount ≤ nVotes := not_lt.mp h
      rcases ih payeeRet nVotes with ⟨heq, hall⟩ | ⟨b, best, a, hsplit, heq, hlt, hb, ha⟩
      · left
        refine ⟨heq, ?_⟩
        intro q hq
        rcases List.mem_cons.mp hq with hq | hq
        · subst hq
          exact hle
        · exact hall q hq
      · right
        refine ⟨p :: b, best, a, by simp [hsplit], heq, hlt, ?_, ha⟩
        intro q hq
        rcases List.mem_cons.mp hq with hq | hq
        · subst hq
          exact lt_of_le_of_lt hle hlt
        · exact hb q hq

/-- C3: for an empty tally `GetBestPayee` fails; for a non-empty tally it
succeeds and returns the script of an entry `best` such that every entry before
it in tally order has strictly fewer votes and every entry after it has at most
as many votes: the first-inserted payee among those with the maximum count. -/
theorem getBestPayee_first_maximum (t : CMasternodeBlockPayees) (payeeRet : CScript) :
    (t.vecPayees = [] → (t.GetBestPayee payeeRet).1 = false) ∧
    (t.vecPayees ≠ [] →
      ∃ before best after, t.vecPayees = before ++ best :: after ∧
        t.GetBestPayee payeeRet = (true, best.GetPayee) ∧
        (∀ payee ∈ before, payee.GetVoteCount < best.GetVoteCount) ∧
        (∀ payee ∈ after, payee.GetVoteCount ≤ best.GetVoteCount) ∧
        (∀ payee ∈ t.vecPayees, payee.GetVoteCount ≤ best.GetVoteCount)) := by
  constructor
  · intro hnil
    simp [CMasternodeBlockPayees.GetBestPayee, hnil]
  · intro hne
    have hemp : t.vecPayees.isEmpty = false := by
      cases hv : t.vecPayees with
      | nil => exact absurd hv hne
      | cons _ _ => rfl
    rcases GetBestPayee_loop_spec t.vecPayees payeeRet (-1) with
      ⟨_, hall⟩ | ⟨b, best, a, hsplit, heq, hlt, hb, ha⟩
    · obtain ⟨p, hp⟩ := List.exists_mem_of_ne_nil _ hne
      have h1 := hall p hp
      have h2 := p.GetVoteCount_nonneg
      omega
    · refine ⟨b, best, a, hsplit, ?_, hb, ha, ?_⟩
      · have hgt : best.GetVoteCount > -1 := hlt
        simp [CMasternodeBlockPayees.GetBestPayee, hemp, heq, hgt]
      · intro q hq
        rw [hsplit] at hq
        rcases List.mem_append.mp hq with hq | hq
        · exact le_of_lt (hb q hq)
        · rcases List.mem_cons.mp hq with hq | hq
          · subst hq
            exact le_refl _
          · exact ha q hq

/-- Witness for C3: in a tally where S2 and S1 are tied with two votes each and
S2 was inserted first, the best payee is S2. -/
theorem getBestPayee_first_maximum_witness :
    Scenario.tallyTied.vecPayees ≠ [] ∧
    ∃ before best after, Scenario.tallyTied.vecPayees = before ++ best :: after ∧
      Scenario.tallyTied.GetBestPayee [] = (true, best.GetPayee) ∧
      (∀ payee ∈ before, payee.GetVoteCount < best.GetVoteCount) ∧
      (∀ payee ∈ after, payee.GetVoteCount ≤ best.GetVoteCount) ∧
      (∀ payee ∈ Scenario.tallyTied.vecPayees, payee.GetVoteCount ≤ best.GetVoteCount) :=
  ⟨by decide, (getBestPayee_first_maximum Scenario.tallyTied []).2 (by decide)⟩

/-! ## Ingestion: `AddOrUpdatePaymentVote` -/

theorem AddPayee_loop_spec (vote : CMasternodePaymentVote) (nVoteHash : uint256)
    (payees : List CMasternodePayee) :
    (∃ before entry after, payees = before ++ entry :: after ∧
        entry.GetPayee = vote.payee ∧ (∀ q ∈ before, q.GetPayee ≠ vote.payee) ∧
        AddPayee.loop vote nVoteHash payees = before ++ entry.AddVoteHash nVoteHash :: after) ∨
      ((∀ q ∈ payees, q.GetPayee ≠ vote.payee) ∧
        AddPayee.loop vote nVoteHash payees =
          payees ++ [CMasternodePayee.create vote.payee nVoteHash vote.nStartHeight]) := by
  induction payees with
  | nil => exact Or.inr ⟨by simp, rfl⟩
  | cons p rest ih =>
    by_cases h : p.GetPayee = vote.payee
    · left
      exact ⟨[], p, rest, rfl, h, by simp, by simp [AddPayee.loop, h]⟩
    · rcases ih with ⟨b, e, a, hsplit, he, hb, hloop⟩ | ⟨hall, hloop⟩
      · left
        refine ⟨p :: b, e, a, by simp [hsplit], he, ?_, by simp [AddPayee.loop, h, hloop]⟩
        intro q hq
        rcases List.mem_cons.mp hq with hq | hq
        · subst hq
          exact h
        · exact hb q hq
      · right
        refine ⟨?_, by simp [AddPayee.loop, h, hloop]⟩
        intro q hq
        rcases List.mem_cons.mp hq with hq | hq
        · subst hq
          exact h
        · exact hall q hq

/-- The store after an accepted vote: the vote is assigned under its hash, and
the tally of its height (a fresh one when the height had none) takes the vote
through `AddPayee`. -/
theorem AddOrUpdatePaymentVote_accept (env : Env) (s : CMasternodePayments)
    (vote : CMasternodePaymentVote)
    (hblock : env.GetBlockHash (vote.nBlockHeight - 101) ≠ none)
    (hnew : HasVerifiedPaymentVote s (vote.GetHash env) = false) :
    AddOrUpdatePaymentVote env s vote =
      (true, { s with
        mapMasternodePaymentVotes :=
          StdMap.assign s.mapMasternodePaymentVotes (vote.GetHash env) vote,
        mapMasternodeBlocks :=
          StdMap.assign
            (StdMap.emplace s.mapMasternodeBlocks vote.nBlockHeight
              (CMasternodeBlockPayees.create vote.nBlockHeight))
            vote.nBlockHeight
            (((StdMap.find s.mapMasternodeBlocks vote.nBlockHeight).getD
              (CMasternodeBlockPayees.create vote.nBlockHeight)).AddPayee env vote) }) := by
  unfold AddOrUpdatePaymentVote
  cases hb : env.GetBlockHash (vote.nBlockHeight - 101) with
  | none => exact absurd hb hblock
  | some bh =>
    simp only [hnew, Bool.false_eq_true, if_false, StdMap.find_emplace_self]

theorem AddOrUpdatePaymentVote_payeesAt (env : Env) (s : CMasternodePayments)
    (vote : CMasternodePaymentVote)
    (hblock : env.GetBlockHash (vote.nBlockHeight - 101) ≠ none)
    (hnew : HasVerifiedPaymentVote s (vote.GetHash env) = false) :
    ∃ t, StdMap.find (AddOrUpdatePaymentVote env s vote).2.mapMasternodeBlocks
        vote.nBlockHeight = some t ∧
      t.vecPayees = AddPayee.loop vote (vote.GetHash env) (payeesAt s vote.nBlockHeight) := by
  rw [AddOrUpdatePaymentVote_accept env s vote hblock hnew]
  refine ⟨_, StdMap.find_assign_self _ _ _, ?_⟩
  unfold payeesAt
  cases StdMap.find s.mapMasternodeBlocks vote.nBlockHeight with
  | none => rfl
  | some t0 => rfl

/-- C5 fails as stated: the unverified vote of masternode 1 for S1 at height
1000 is ingested a second time.  The block hash resolves, no verified record is
stored under the vote's hash, the call returns true and the tally of height 1000
has an entry for S1; that entry is the same before and after the call, with a
vote count of 1 both times, so the count did not grow by one. -/
theorem addOrUpdatePaymentVote_repeated_hash_counted_once :
    Scenario.env.GetBlockHash
      ((Scenario.unsignedVoteAt 1 1000 Scenario.S1).nBlockHeight - 101) ≠ none ∧
    HasVerifiedPaymentVote Scenario.storeUnverified
      ((Scenario.unsignedVoteAt 1 1000 Scenario.S1).GetHash Scenario.env) = false ∧
    (AddOrUpdatePaymentVote Scenario.env Scenario.storeUnverified
      (Scenario.unsignedVoteAt 1 1000 Scenario.S1)).1 = true ∧
    (∃ entry, payeesAt Scenario.storeUnverified 1000 = [entry] ∧
      entry.GetPayee = (Scenario.unsignedVoteAt 1 1000 Scenario.S1).payee ∧
      payeesAt (AddOrUpdatePaymentVote Scenario.env Scenario.storeUnverified
        (Scenario.unsignedVoteAt 1 1000 Scenario.S1)).2 1000 = [entry] ∧
      entry.GetVoteCount = 1 ∧ entry.GetVoteCount ≠ entry.GetVoteCount + 1) :=
  ⟨by decide, by decide, by decide,
   ⟨CMasternodePayee.create Scenario.S1
      ((Scenario.unsignedVoteAt 1 1000 Scenario.S1).GetHash Scenario.env) 900,
    by decide, by decide, by decide, by decide, by decide⟩⟩

/-- C5, amended: when the block hash for `nBlockHeight - 101` resolves and no
verified record is stored under the vote's identity hash,
`AddOrUpdatePaymentVote` returns true; afterwards the vote map holds the vote
under its hash and agrees with the old map on every other key; the tallies of
all other heights are as before; the tally of the vote's height exists and its
payee list is the old list (empty when the height had no tally) with either the
first entry for the vote's payee taking the hash and nothing added, or, when no
entry had that payee, a new entry with one vote appended at the end; all other
entries are as before.  The entry that takes the hash keeps its payee and start
height; its vote count grows by exactly one, the hash being added after its
other supporting hashes, when the hash was not yet among them, and the entry is
unchanged when it already was. -/
theorem addOrUpdatePaymentVote_counts_distinct_hashes (env : Env) (s : CMasternodePayments)
    (vote : CMasternodePaymentVote)
    (hblock : env.GetBlockHash (vote.nBlockHeight - 101) ≠ none)
    (hnew : HasVerifiedPaymentVote s (vote.GetHash env) = false) :
    (AddOrUpdatePaymentVote env s vote).1 = true ∧
    StdMap.find (AddOrUpdatePaymentVote env s vote).2.mapMasternodePaymentVotes
      (vote.GetHash env) = some vote ∧
    (∀ k, k ≠ vote.GetHash env →
      StdMap.find (AddOrUpdatePaymentVote env s vote).2.mapMasternodePaymentVotes k =
        StdMap.find s.mapMasternodePaymentVotes k) ∧
    (∀ h, h ≠ vote.nBlockHeight →
      StdMap.find (AddOrUpdatePaymentVote env s vote).2.mapMasternodeBlocks h =
        StdMap.find s.mapMasternodeBlocks h) ∧
    (∃ t, StdMap.find (AddOrUpdatePaymentVote env s vote).2.mapMasternodeBlocks
        vote.nBlockHeight = some t ∧
      ((∃ before entry after,
          payeesAt s vote.nBlockHeight = before ++ entry :: after ∧
          entry.GetPayee = vote.payee ∧ (∀ q ∈ before, q.GetPayee ≠ vote.payee) ∧
          t.vecPayees = before ++ entry.AddVoteHash (vote.GetHash env) :: after ∧
          (entry.AddVoteHash (vote.GetHash env)).GetPayee = entry.GetPayee ∧
          (entry.AddVoteHash (vote.GetHash env)).nStartHeight = entry.nStartHeight ∧
          (vote.GetHash env ∉ entry.GetVoteHashes →
            (entry.AddVoteHash (vote.GetHash env)).GetVoteCount = entry.GetVoteCount + 1 ∧
            (entry.AddVoteHash (vote.GetHash env)).GetVoteHashes =
              entry.GetVoteHashes ++ [vote.GetHash env]) ∧
          (vote.GetHash env ∈ entry.GetVoteHashes →
            entry.AddVoteHash (vote.GetHash env) = entry)) ∨
       ((∀ q ∈ payeesAt s vote.nBlockHeight, q.GetPayee ≠ vote.payee) ∧
          t.vecPayees = payeesAt s vote.nBlockHeight ++
            [CMasternodePayee.create vote.payee (vote.GetHash env) vote.nStartHeight] ∧
          (CMasternodePayee.create vote.payee (vote.GetHash env) vote.nStartHeight).GetPayee =
            vote.payee ∧
          (CMasternodePayee.create vote.payee (vote.GetHash env)
            vote.nStartHeight).GetVoteCount = 1))) ∧
    (AddOrUpdatePaymentVote env s vote).2.mapMasternodesLastVote = s.mapMasternodesLastVote ∧
    (AddOrUpdatePaymentVote env s vote).2.nCachedBlockHeight = s.nCachedBlockHeight := by
  obtain ⟨t, ht, hvec⟩ := AddOrUpdatePaymentVote_payeesAt env s vote hblock hnew
  refine ⟨?_, ?_, ?_, ?_, ⟨t, ht, ?_⟩, ?_, ?_⟩
  · rw [AddOrUpdatePaymentVote_accept env s vote hblock hnew]
  · rw [AddOrUpdatePaymentVote_accept env s vote hblock hnew]
    exact StdMap.find_assign_self _ _ _
  · intro k hk
    rw [AddOrUpdatePaymentVote_accept env s vote hblock hnew]
    exact StdMap.find_assign_ne _ _ _ _ hk
  · intro h hh
    rw [AddOrUpdatePaymentVote_accept env s vote hblock hnew]
    simp only
    rw [StdMap.find_assign_ne _ _ _ _ hh, StdMap.find_emplace_ne _ _ _ _ hh]
  · rcases AddPayee_loop_spec vote (vote.GetHash env) (payeesAt s vote.nBlockHeight) with
      ⟨b, e, a, hsplit, he, hb, hloop⟩ | ⟨hall, hloop⟩
    · left
      refine ⟨b, e, a, hsplit, he, hb, hvec.trans hloop, e.AddVoteHash_GetPayee _, ?_, ?_, ?_⟩
      · by_cases hmem : vote.GetHash env ∈ e.GetVoteHashes
        · rw [e.AddVoteHash_of_mem _ hmem]
        · rw [e.AddVoteHash_of_not_mem _ hmem]
      · intro hmem
        exact ⟨e.AddVoteHash_GetVoteCount _ hmem, e.AddVoteHash_GetVoteHashes _ hmem⟩
      · intro hmem
        exact e.AddVoteHash_of_mem _ hmem
    · right
      refine ⟨hall, hvec.trans hloop, rfl, ?_⟩
      simp [CMasternodePayee.create, CMasternodePayee.GetVoteCount]
  · rw [AddOrUpdatePaymentVote_accept env s vote hblock hnew]
  · rw [AddOrUpdatePaymentVote_accept env s vote hblock hnew]

/-- Witness for the amended C5: ingesting the vote of masternode 6 for S1 into
the scenario store, where S1 already has five votes, none of them this one. -/
theorem addOrUpdatePaymentVote_counts_distinct_hashes_witness :
    Scenario.env.GetBlockHash ((Scenario.vote 6 Scenario.S1).nBlockHeight - 101) ≠ none ∧
    HasVerifiedPaymentVote Scenario.store5
      ((Scenario.vote 6 Scenario.S1).GetHash Scenario.env) = false ∧
    (AddOrUpdatePaymentVote Scenario.env Scenario.store5 (Scenario.vote 6 Scenario.S1)).1 = true ∧
    StdMap.find (AddOrUpdatePaymentVote Scenario.env Scenario.store5
      (Scenario.vote 6 Scenario.S1)).2.mapMasternodePaymentVotes
      ((Scenario.vote 6 Scenario.S1).GetHash Scenario.env) = some (Scenario.vote 6 Scenario.S1) :=
  ⟨by decide, by decide,
   ((addOrUpdatePaymentVote_counts_distinct_hashes Scenario.env Scenario.store5
      (Scenario.vote 6 Scenario.S1) (by decide) (by decide)).1),
   ((addOrUpdatePaymentVote_counts_distinct_hashes Scenario.env Scenario.store5
      (Scenario.vote 6 Scenario.S1) (by decide) (by decide)).2.1)⟩

/-- C6: `AddOrUpdatePaymentVote` returns false and leaves the whole store
unchanged when the block hash for `nBlockHeight - 101` cannot be resolved or a
verified record is stored under the vote's identity hash; in particular, after
a verified vote has been ingested, ingesting it again returns false and changes
nothing. -/
theorem addOrUpdatePaymentVote_reject (env : Env) (s : CMasternodePayments)
    (vote : CMasternodePaymentVote) :
    ((env.GetBlockHash (vote.nBlockHeight - 101) = none ∨
        HasVerifiedPaymentVote s (vote.GetHash env) = true) →
      AddOrUpdatePaymentVote env s vote = (false, s)) ∧
    (vote.IsVerified = true → (AddOrUpdatePaymentVote env s vote).1 = true →
      AddOrUpdatePaymentVote env (AddOrUpdatePaymentVote env s vote).2 vote =
        (false, (AddOrUpdatePaymentVote env s vote).2)) := by
  have hrej : ∀ s0 : CMasternodePayments,
      (env.GetBlockHash (vote.nBlockHeight - 101) = none ∨
        HasVerifiedPaymentVote s0 (vote.GetHash env) = true) →
      AddOrUpdatePaymentVote env s0 vote = (false, s0) := by
    intro s0 h
    unfold AddOrUpdatePaymentVote
    cases hb : env.GetBlockHash (vote.nBlockHeight - 101) with
    | none => rfl
    | some bh =>
      rcases h with h | h
      · rw [hb] at h
        exact absurd h (by simp)
      · simp [h]
  refine ⟨hrej s, ?_⟩
  intro hver hok
  apply hrej
  right
  have hblock : env.GetBlockHash (vote.nBlockHeight - 101) ≠ none := by
    intro hnone
    rw [hrej s (Or.inl hnone)] at hok
    exact absurd hok (by simp)
  have hnew : HasVerifiedPaymentVote s (vote.GetHash env) = false := by
    cases hv : HasVerifiedPaymentVote s (vote.GetHash env) with
    | false => rfl
    | true =>
      rw [hrej s (Or.inr hv)] at hok
      exact absurd hok (by simp)
  rw [AddOrUpdatePaymentVote_accept env s vote hblock hnew]
  simp [HasVerifiedPaymentVote, StdMap.find_assign_self, hver]

/-- Witness for C6: the verified vote of masternode 1 is already in the
scenario store; ingesting it again returns false and leaves the store as it
is. -/
theorem addOrUpdatePaymentVote_reject_witness :
    HasVerifiedPaymentVote Scenario.store5
      ((Scenario.vote 1 Scenario.S1).GetHash Scenario.env) = true ∧
    AddOrUpdatePaymentVote Scenario.env Scenario.store5 (Scenario.vote 1 Scenario.S1) =
      (false, Scenario.store5) :=
  ⟨by decide,
   (addOrUpdatePaymentVote_reject Scenario.env Scenario.store5 (Scenario.vote 1 Scenario.S1)).1
     (Or.inr (by decide))⟩

theorem HasVerifiedPaymentVote_of_find_none (s : CMasternodePayments) (hashIn : uint256)
    (h : StdMap.find s.mapMasternodePaymentVotes hashIn = none) :
    HasVerifiedPaymentVote s hashIn = false := by
  simp [HasVerifiedPaymentVote, h]

/-- Votes for one payee at one height, ingested into a store whose tally for
that height holds exactly one entry, for that payee: all are accepted and the
entry gains one vote per call. -/
theorem AddOrUpdatePaymentVote.run_same_payee (env : Env) (h : Int) (S : CScript)
    (votes : List CMasternodePaymentVote) (s : CMasternodePayments) (p0 : CMasternodePayee)
    (htally : payeesAt s h = [p0]) (hS : p0.GetPayee = S)
    (hheight : ∀ v ∈ votes, v.nBlockHeight = h) (hpayee : ∀ v ∈ votes, v.payee = S)
    (hdistinct : (votes.map (fun v => v.GetHash env)).Nodup)
    (hfresh : ∀ v ∈ votes, StdMap.find s.mapMasternodePaymentVotes (v.GetHash env) = none)
    (hunseen : ∀ v ∈ votes, v.GetHash env ∉ p0.GetVoteHashes)
    (hblock : env.GetBlockHash (h - 101) ≠ none) :
    (AddOrUpdatePaymentVote.run env s votes).1 = List.replicate votes.length true ∧
    ∃ p, payeesAt (AddOrUpdatePaymentVote.run env s votes).2 h = [p] ∧ p.GetPayee = S ∧
      p.GetVoteCount = p0.GetVoteCount + (votes.length : Int) := by
  induction votes generalizing s p0 with
  | nil => exact ⟨rfl, p0, htally, hS, by simp⟩
  | cons v rest ih =>
    have hvh : v.nBlockHeight = h := hheight v (List.mem_cons_self _ _)
    have hvp : v.payee = S := hpayee v (List.mem_cons_self _ _)
    have hb : env.GetBlockHash (v.nBlockHeight - 101) ≠ none := by rw [hvh]; exact hblock
    have hnew := HasVerifiedPaymentVote_of_find_none s _ (hfresh v (List.mem_cons_self _ _))
    obtain ⟨t, ht, hvec⟩ := AddOrUpdatePaymentVote_payeesAt env s v hb hnew
    rw [hvh, htally] at hvec
    rw [hvh] at ht
    have hloop : AddPayee.loop v (v.GetHash env) [p0] = [p0.AddVoteHash (v.GetHash env)] := by
      have : p0.GetPayee = v.payee := by rw [hS, hvp]
      simp [AddPayee.loop, this]
    have htally1 : payeesAt (AddOrUpdatePaymentVote env s v).2 h =
        [p0.AddVoteHash (v.GetHash env)] := by
      simp [payeesAt, ht, hvec, hloop]
    have hnodup := List.nodup_cons.mp hdistinct
    have hfresh1 : ∀ w ∈ rest,
        StdMap.find (AddOrUpdatePaymentVote env s v).2.mapMasternodePaymentVotes
          (w.GetHash env) = none := by
      intro w hw
      have hne : w.GetHash env ≠ v.GetHash env := by
        intro heq
        exact hnodup.1 (List.mem_map.mpr ⟨w, hw, heq⟩)
      rw [AddOrUpdatePaymentVote_accept env s v hb hnew]
      simp only
      rw [StdMap.find_assign_ne _ _ _ _ hne]
      exact hfresh w (List.mem_cons_of_mem _ hw)
    have hunseen1 : ∀ w ∈ rest, w.GetHash env ∉ (p0.AddVoteHash (v.GetHash env)).GetVoteHashes := by
      intro w hw hmem
      rcases (p0.mem_AddVoteHash (v.GetHash env) (w.GetHash env)).mp hmem with hmem | heq
      · exact hunseen w (List.mem_cons_of_mem _ hw) hmem
      · exact hnodup.1 (List.mem_map.mpr ⟨w, hw, heq⟩)
    obtain ⟨hres, p, hp, hpS, hcount⟩ := ih (AddOrUpdatePaymentVote env s v).2
      (p0.AddVoteHash (v.GetHash env)) htally1
      ((p0.AddVoteHash_GetPayee (v.GetHash env)).trans hS)
      (fun w hw => hheight w (List.mem_cons_of_mem _ hw))
      (fun w hw => hpayee w (List.mem_cons_of_mem _ hw)) hnodup.2 hfresh1 hunseen1
    have hfirst : (AddOrUpdatePaymentVote env s v).1 = true := by
      rw [AddOrUpdatePaymentVote_accept env s v hb hnew]
    refine ⟨?_, p, hp, hpS, ?_⟩
    · simp only [AddOrUpdatePaymentVote.run, hfirst, hres, List.length_cons, List.replicate_succ]
    · rw [hcount, p0.AddVoteHash_GetVoteCount (v.GetHash env) (hunseen v (List.mem_cons_self _ _))]
      simp only [List.length_cons]
      push_cast
      ring

/-- C4: from a store without a tally at height `h`, ingesting `n ≥ 1` votes with
pairwise distinct identity hashes, all for height `h` and payee script `S`, none
of whose hashes is stored yet, with the block hash for `h - 101` resolvable:
every call returns true, the tally of `h` then holds the single payee `S` with
exactly `n` votes, and `GetBlockPayee h` succeeds with `S`. -/
theorem addOrUpdatePaymentVote_same_payee_count (env : Env) (s : CMasternodePayments) (h : Int)
    (S : CScript) (votes : List CMasternodePaymentVote) (payeeRet : CScript)
    (hn : 1 ≤ votes.length)
    (hheight : ∀ v ∈ votes, v.nBlockHeight = h) (hpayee : ∀ v ∈ votes, v.payee = S)
    (hdistinct : (votes.map (fun v => v.GetHash env)).Nodup)
    (hfresh : ∀ v ∈ votes, StdMap.find s.mapMasternodePaymentVotes (v.GetHash env) = none)
    (hnotally : StdMap.find s.mapMasternodeBlocks h = none)
    (hblock : env.GetBlockHash (h - 101) ≠ none) :
    (AddOrUpdatePaymentVote.run env s votes).1 = List.replicate votes.length true ∧
    (∃ p, payeesAt (AddOrUpdatePaymentVote.run env s votes).2 h = [p] ∧ p.GetPayee = S ∧
      p.GetVoteCount = (votes.length : Int)) ∧
    GetBlockPayee (AddOrUpdatePaymentVote.run env s votes).2 h payeeRet = (true, S) := by
  cases votes with
  | nil => simp at hn
  | cons v rest =>
    have hvh : v.nBlockHeight = h := hheight v (List.mem_cons_self _ _)
    have hvp : v.payee = S := hpayee v (List.mem_cons_self _ _)
    have hb : env.GetBlockHash (v.nBlockHeight - 101) ≠ none := by rw [hvh]; exact hblock
    have hnew := HasVerifiedPaymentVote_of_find_none s _ (hfresh v (List.mem_cons_self _ _))
    obtain ⟨t, ht, hvec⟩ := AddOrUpdatePaymentVote_payeesAt env s v hb hnew
    have hold : payeesAt s h = [] := by simp [payeesAt, hnotally]
    rw [hvh, hold] at hvec
    rw [hvh] at ht
    have htally1 : payeesAt (AddOrUpdatePaymentVote env s v).2 h =
        [CMasternodePayee.create v.payee (v.GetHash env) v.nStartHeight] := by
      simp [payeesAt, ht, hvec, AddPayee.loop]
    have hnodup := List.nodup_cons.mp hdistinct
    have hfresh1 : ∀ w ∈ rest,
        StdMap.find (AddOrUpdatePaymentVote env s v).2.mapMasternodePaymentVotes
          (w.GetHash env) = none := by
      intro w hw
      have hne : w.GetHash env ≠ v.GetHash env := by
        intro heq
        exact hnodup.1 (List.mem_map.mpr ⟨w, hw, heq⟩)
      rw [AddOrUpdatePaymentVote_accept env s v hb hnew]
      simp only
      rw [StdMap.find_assign_ne _ _ _ _ hne]
      exact hfresh w (List.mem_cons_of_mem _ hw)
    have hunseen1 : ∀ w ∈ rest, w.GetHash env ∉
        (CMasternodePayee.create v.payee (v.GetHash env) v.nStartHeight).GetVoteHashes := by
      intro w hw hmem
      have heq : w.GetHash env = v.GetHash env := by
        simpa [CMasternodePayee.create, CMasternodePayee.GetVoteHashes] using hmem
      exact hnodup.1 (List.mem_map.mpr ⟨w, hw, heq⟩)
    obtain ⟨hres, p, hp, hpS, hcount⟩ := AddOrUpdatePaymentVote.run_same_payee env h S rest
      (AddOrUpdatePaymentVote env s v).2 _ htally1 hvp
      (fun w hw => hheight w (List.mem_cons_of_mem _ hw))
      (fun w hw => hpayee w (List.mem_cons_of_mem _ hw)) hnodup.2 hfresh1 hunseen1 hblock
    have hfirst : (AddOrUpdatePaymentVote env s v).1 = true := by
      rw [AddOrUpdatePaymentVote_accept env s v hb hnew]
    have hcount1 : p.GetVoteCount = ((v :: rest).length : Int) := by
      rw [hcount]
      simp only [CMasternodePayee.create, CMasternodePayee.GetVoteCount, List.length_cons,
        List.toFinset_cons, List.toFinset_nil, insert_emptyc_eq, Finset.card_singleton]
      push_cast
      ring
    refine ⟨?_, ⟨p, hp, hpS, hcount1⟩, ?_⟩
    · simp only [AddOrUpdatePaymentVote.run, hfirst, hres, List.length_cons, List.replicate_succ]
    · have hp1 : payeesAt (AddOrUpdatePaymentVote.run env s (v :: rest)).2 h = [p] := hp
      unfold payeesAt at hp1
      unfold GetBlockPayee
      cases hfind : StdMap.find (AddOrUpdatePaymentVote.run env s (v :: rest)).2.mapMasternodeBlocks
          h with
      | none => simp [hfind] at hp1
      | some t1 =>
        simp only [hfind] at hp1
        have hpos : p.GetVoteCount > -1 := by
          have := p.GetVoteCount_nonneg
          omega
        simp [CMasternodeBlockPayees.GetBestPayee, hp1, GetBestPayee.loop, hpos, hpS]

/-- Witness for C4: the five votes of the scenario, from the empty store. -/
theorem addOrUpdatePaymentVote_same_payee_count_witness :
    (∃ p, payeesAt (AddOrUpdatePaymentVote.run Scenario.env CMasternodePayments.empty
        Scenario.votes5).2 1000 = [p] ∧ p.GetPayee = Scenario.S1 ∧
      p.GetVoteCount = (Scenario.votes5.length : Int)) ∧
    GetBlockPayee (AddOrUpdatePaymentVote.run Scenario.env CMasternodePayments.empty
      Scenario.votes5).2 1000 [] = (true, Scenario.S1) :=
  (addOrUpdatePaymentVote_same_payee_count Scenario.env CMasternodePayments.empty 1000
    Scenario.S1 Scenario.votes5 [] (by decide) (by decide) (by decide) (by decide) (by decide)
    (by decide) (by decide)).2

/-! ## The last-vote index -/

theorem UpdateLastVote_find_self (s : CMasternodePayments) (vote : CMasternodePaymentVote) :
    StdMap.find (UpdateLastVote s vote).2.mapMasternodesLastVote vote.masternodeOutpoint =
      some vote.nBlockHeight := by
  unfold UpdateLastVote
  cases hfind : StdMap.find s.mapMasternodesLastVote vote.masternodeOutpoint with
  | none => simp [StdMap.find_emplace_self, hfind]
  | some second =>
    by_cases h : second = vote.nBlockHeight
    · subst h
      simp [hfind]
    · simp [h, StdMap.find_assign_self]

theorem UpdateLastVote_find_ne (s : CMasternodePayments) (vote : CMasternodePaymentVote)
    (outpoint : COutPoint) (hne : outpoint ≠ vote.masternodeOutpoint) :
    StdMap.find (UpdateLastVote s vote).2.mapMasternodesLastVote outpoint =
      StdMap.find s.mapMasternodesLastVote outpoint := by
  unfold UpdateLastVote
  cases hfind : StdMap.find s.mapMasternodesLastVote vote.masternodeOutpoint with
  | none => simp [StdMap.find_emplace_ne _ _ _ _ hne]
  | some second =>
    by_cases h : second = vote.nBlockHeight
    · simp [h]
    · simp [h, StdMap.find_assign_ne _ _ _ _ hne]

theorem UpdateLastVote_false_iff (s : CMasternodePayments) (vote : CMasternodePaymentVote) :
    (UpdateLastVote s vote).1 = false ↔
      StdMap.find s.mapMasternodesLastVote vote.masternodeOutpoint = some vote.nBlockHeight := by
  unfold UpdateLastVote
  cases hfind : StdMap.find s.mapMasternodesLastVote vote.masternodeOutpoint with
  | none => simp
  | some second =>
    by_cases h : second = vote.nBlockHeight
    · simp [h]
    · simp [h]

theorem UpdateLastVote_false_unchanged (s : CMasternodePayments) (vote : CMasternodePaymentVote)
    (h : (UpdateLastVote s vote).1 = false) : (UpdateLastVote s vote).2 = s := by
  have hfind := (UpdateLastVote_false_iff s vote).mp h
  simp [UpdateLastVote, hfind]

/-- C7: `UpdateLastVote` returns false exactly when the last-vote index holds
the vote's block height under the vote's outpoint; on false the store is
unchanged; on true the index holds the vote's height under the vote's outpoint,
the entries of all other outpoints are as before, and the rest of the store is
untouched. -/
theorem updateLastVote_spec (s : CMasternodePayments) (vote : CMasternodePaymentVote) :
    ((UpdateLastVote s vote).1 = false ↔
      StdMap.find s.mapMasternodesLastVote vote.masternodeOutpoint = some vote.nBlockHeight) ∧
    ((UpdateLastVote s vote).1 = false → (UpdateLastVote s vote).2 = s) ∧
    ((UpdateLastVote s vote).1 = true →
      StdMap.find (UpdateLastVote s vote).2.mapMasternodesLastVote vote.masternodeOutpoint =
        some vote.nBlockHeight ∧
      (∀ outpoint, outpoint ≠ vote.masternodeOutpoint →
        StdMap.find (UpdateLastVote s vote).2.mapMasternodesLastVote outpoint =
          StdMap.find s.mapMasternodesLastVote outpoint) ∧
      (UpdateLastVote s vote).2.mapMasternodePaymentVotes = s.mapMasternodePaymentVotes ∧
      (UpdateLastVote s vote).2.mapMasternodeBlocks = s.mapMasternodeBlocks ∧
      (UpdateLastVote s vote).2.nCachedBlockHeight = s.nCachedBlockHeight) := by
  refine ⟨UpdateLastVote_false_iff s vote, UpdateLastVote_false_unchanged s vote, ?_⟩
  intro _
  refine ⟨UpdateLastVote_find_self s vote, UpdateLastVote_find_ne s vote, ?_, ?_, ?_⟩
  all_goals
    unfold UpdateLastVote
    cases StdMap.find s.mapMasternodesLastVote vote.masternodeOutpoint with
    | none => rfl
    | some second =>
      by_cases h : second = vote.nBlockHeight
      · simp [h]
      · simp [h]

theorem UpdateLastVote.acceptedFor_eq_zero (outpoint : COutPoint) (nBlockHeight : Int)
    (calls : List CMasternodePaymentVote) (s : CMasternodePayments)
    (hlast : StdMap.find s.mapMasternodesLastVote outpoint = some nBlockHeight)
    (hsame : ∀ c ∈ calls, c.masternodeOutpoint = outpoint → c.nBlockHeight = nBlockHeight) :
    UpdateLastVote.acceptedFor outpoint nBlockHeight s calls = 0 := by
  induction calls generalizing s with
  | nil => rfl
  | cons c rest ih =>
    have hrest : ∀ c' ∈ rest, c'.masternodeOutpoint = outpoint → c'.nBlockHeight = nBlockHeight :=
      fun c' hc' => hsame c' (List.mem_cons_of_mem _ hc')
    by_cases ho : c.masternodeOutpoint = outpoint
    · have hh : c.nBlockHeight = nBlockHeight := hsame c (List.mem_cons_self _ _) ho
      have hfalse : (UpdateLastVote s c).1 = false := by
        rw [UpdateLastVote_false_iff, ho, hh]
        exact hlast
      have hlast1 : StdMap.find (UpdateLastVote s c).2.mapMasternodesLastVote outpoint =
          some nBlockHeight := by
        rw [UpdateLastVote_false_unchanged s c hfalse]
        exact hlast
      simp [UpdateLastVote.acceptedFor, hfalse, ih _ hlast1 hrest]
    · have hlast1 : StdMap.find (UpdateLastVote s c).2.mapMasternodesLastVote outpoint =
          some nBlockHeight := by
        rw [UpdateLastVote_find_ne s c outpoint (fun h => ho h.symm)]
        exact hlast
      simp [UpdateLastVote.acceptedFor, ho, ih _ hlast1 hrest]

/-- C8, the claim as stated fails: from the empty index, masternode 1 votes for
height 1000, then for height 1001, then for height 1000 again (naming another
payee); all three calls return true, so two calls for the same outpoint and
height are accepted. -/
theorem updateLastVote_same_height_accepted_twice :
    (UpdateLastVote.run CMasternodePayments.empty
      [Scenario.voteAt 1 1000 Scenario.S1, Scenario.voteAt 1 1001 Scenario.S1,
       Scenario.voteAt 1 1000 Scenario.S2]).1 = [true, true, true] ∧
    UpdateLastVote.acceptedFor { hash := 1, n := 0 } 1000 CMasternodePayments.empty
      [Scenario.voteAt 1 1000 Scenario.S1, Scenario.voteAt 1 1001 Scenario.S1,
       Scenario.voteAt 1 1000 Scenario.S2] = 2 := by
  constructor <;> decide

/-- C8 as amended: in a sequence of `UpdateLastVote` calls, from the empty index
or any other store, in which every call of the masternode `outpoint` is for the
height `nBlockHeight`, at most one call for that outpoint and height returns
true, whatever payees the votes name. -/
theorem updateLastVote_accepts_once_without_other_height (outpoint : COutPoint)
    (nBlockHeight : Int) (s : CMasternodePayments) (calls : List CMasternodePaymentVote)
    (hsame : ∀ c ∈ calls, c.masternodeOutpoint = outpoint → c.nBlockHeight = nBlockHeight) :
    UpdateLastVote.acceptedFor outpoint nBlockHeight s calls ≤ 1 := by
  induction calls generalizing s with
  | nil => simp [UpdateLastVote.acceptedFor]
  | cons c rest ih =>
    have hrest : ∀ c' ∈ rest, c'.masternodeOutpoint = outpoint → c'.nBlockHeight = nBlockHeight :=
      fun c' hc' => hsame c' (List.mem_cons_of_mem _ hc')
    by_cases ho : c.masternodeOutpoint = outpoint
    · have hh : c.nBlockHeight = nBlockHeight := hsame c (List.mem_cons_self _ _) ho
      have hlast1 : StdMap.find (UpdateLastVote s c).2.mapMasternodesLastVote outpoint =
          some nBlockHeight := by
        rw [← ho, ← hh]
        exact UpdateLastVote_find_self s c
      rw [UpdateLastVote.acceptedFor, UpdateLastVote.acceptedFor_eq_zero _ _ _ _ hlast1 hrest]
      split <;> simp
    · have h := ih (UpdateLastVote s c).2 hrest
      simpa [UpdateLastVote.acceptedFor, ho] using h

/-- Witness for C8 as amended: masternode 1 votes three times for height 1000,
naming two payees, while masternode 2 votes for height 1001 in between. -/
theorem updateLastVote_accepts_once_without_other_height_witness :
    UpdateLastVote.acceptedFor { hash := 1, n := 0 } 1000 CMasternodePayments.empty
      [Scenario.voteAt 1 1000 Scenario.S1, Scenario.voteAt 2 1001 Scenario.S1,
       Scenario.voteAt 1 1000 Scenario.S2, Scenario.voteAt 1 1000 Scenario.S1] ≤ 1 :=
  updateLastVote_accepts_once_without_other_height { hash := 1, n := 0 } 1000
    CMasternodePayments.empty _ (by decide)

/-! ## Pruning: `CheckAndRemove` -/

theorem CheckAndRemove.loop_votes (T L : Int) (votes : List (uint256 × CMasternodePaymentVote))
    (blocks : List (Int × CMasternodeBlockPayees)) :
    (CheckAndRemove.loop T L votes blocks).1 =
      votes.filter (fun e => decide (T - e.2.nBlockHeight ≤ L)) := by
  induction votes generalizing blocks with
  | nil => rfl
  | cons e rest ih =>
    obtain ⟨hash, vote⟩ := e
    by_cases h : T - vote.nBlockHeight > L
    · have hle : ¬ T - vote.nBlockHeight ≤ L := not_le.mpr h
      rw [CheckAndRemove.loop, if_pos h, ih]
      exact (List.filter_cons_of_neg (by rw [decide_eq_true_eq]; exact hle)).symm
    · have hle : T - vote.nBlockHeight ≤ L := not_lt.mp h
      rw [CheckAndRemove.loop, if_neg h]
      simp only [ih]
      exact (List.filter_cons_of_pos (by rw [decide_eq_true_eq]; exact hle)).symm

theorem wrapInt32_of_inRange (x : Int) (hlo : -2147483648 ≤ x) (hhi : x < 2147483648) :
    wrapInt32 x = x := by
  unfold wrapInt32
  omega

/-- The 32-bit loop keeps the entries whose wrapped difference is within the
limit. -/
theorem CheckAndRemove.loop32_votes (T L : Int) (votes : List (uint256 × CMasternodePaymentVote))
    (blocks : List (Int × CMasternodeBlockPayees)) :
    (CheckAndRemove.loop32 T L votes blocks).1 =
      votes.filter (fun e => decide (wrapInt32 (T - e.2.nBlockHeight) ≤ L)) := by
  induction votes generalizing blocks with
  | nil => rfl
  | cons e rest ih =>
    obtain ⟨hash, vote⟩ := e
    by_cases h : wrapInt32 (T - vote.nBlockHeight) > L
    · have hle : ¬ wrapInt32 (T - vote.nBlockHeight) ≤ L := not_le.mpr h
      rw [CheckAndRemove.loop32, if_pos h, ih]
      exact (List.filter_cons_of_neg (by rw [decide_eq_true_eq]; exact hle)).symm
    · have hle : wrapInt32 (T - vote.nBlockHeight) ≤ L := not_lt.mp h
      rw [CheckAndRemove.loop32, if_neg h]
      simp only [ih]
      exact (List.filter_cons_of_pos (by rw [decide_eq_true_eq]; exact hle)).symm

/-- The two loops agree when every height difference is representable in 32
bits. -/
theorem CheckAndRemove.loop32_eq_loop (T L : Int)
    (votes : List (uint256 × CMasternodePaymentVote)) (blocks : List (Int × CMasternodeBlockPayees))
    (hrange : ∀ e ∈ votes, -2147483648 ≤ T - e.2.nBlockHeight ∧
      T - e.2.nBlockHeight < 2147483648) :
    CheckAndRemove.loop32 T L votes blocks = CheckAndRemove.loop T L votes blocks := by
  induction votes generalizing blocks with
  | nil => rfl
  | cons e rest ih =>
    obtain ⟨hash, vote⟩ := e
    have hhead := hrange (hash, vote) (List.mem_cons_self _ _)
    have htail : ∀ e ∈ rest, -2147483648 ≤ T - e.2.nBlockHeight ∧
        T - e.2.nBlockHeight < 2147483648 :=
      fun e he => hrange e (List.mem_cons_of_mem _ he)
    rw [CheckAndRemove.loop32, CheckAndRemove.loop,
      wrapInt32_of_inRange _ hhead.1 hhead.2]
    simp only [ih _ htail]

/-- The 32-bit method and the method in exact arithmetic agree on every store
whose votes lie within the 32-bit range of the cached tip. -/
theorem CheckAndRemove.int32_eq (env : Env) (s : CMasternodePayments)
    (hrange : ∀ e ∈ s.mapMasternodePaymentVotes,
      -2147483648 ≤ s.nCachedBlockHeight - e.2.nBlockHeight ∧
      s.nCachedBlockHeight - e.2.nBlockHeight < 2147483648) :
    CheckAndRemove.int32 env s = CheckAndRemove env s := by
  unfold CheckAndRemove.int32 CheckAndRemove
  simp only [CheckAndRemove.loop32_eq_loop _ _ _ _ hrange]

/-- C9 at the failing input: a node with the tip at 1000 and storage limit 50
handles a vote message whose block height is `INT_MIN`.  Message handling files
the vote in the vote map before its window check, as an unverified record.  The
record is older than the limit (`1000 - INT_MIN > 50`), so C9 has it removed,
and in exact arithmetic `CheckAndRemove` removes it; in 32-bit `int` arithmetic
the difference wraps to a negative number and `CheckAndRemove` keeps the
record. -/
theorem checkAndRemove_keeps_vote_at_int_min :
    StdMap.find Scenario.storeIntMin.mapMasternodePaymentVotes
      (Scenario.voteIntMin.GetHash Scenario.env) = some Scenario.voteIntMin.MarkAsNotVerified ∧
    Scenario.env.IsBlockchainSynced = true ∧
    Scenario.storeIntMin.nCachedBlockHeight - Scenario.voteIntMin.MarkAsNotVerified.nBlockHeight >
      GetStorageLimit Scenario.env ∧
    wrapInt32 (Scenario.storeIntMin.nCachedBlockHeight -
      Scenario.voteIntMin.MarkAsNotVerified.nBlockHeight) = -2147482648 ∧
    StdMap.find (CheckAndRemove.int32 Scenario.env Scenario.storeIntMin).mapMasternodePaymentVotes
      (Scenario.voteIntMin.GetHash Scenario.env) = some Scenario.voteIntMin.MarkAsNotVerified ∧
    StdMap.find (CheckAndRemove Scenario.env Scenario.storeIntMin).mapMasternodePaymentVotes
      (Scenario.voteIntMin.GetHash Scenario.env) = none :=
  ⟨by decide, rfl, by decide, by decide, by decide, by decide⟩

theorem CheckAndRemove.erased_cons (T L : Int) (hash : uint256) (vote : CMasternodePaymentVote)
    (rest : List (uint256 × CMasternodePaymentVote)) (h : Int) :
    CheckAndRemove.erased T L ((hash, vote) :: rest) h =
      (decide (T - vote.nBlockHeight > L) && decide (vote.nBlockHeight = h) ||
        CheckAndRemove.erased T L rest h) := by
  simp only [CheckAndRemove.erased, List.any_cons]

theorem CheckAndRemove.loop_blocks (T L : Int) (votes : List (uint256 × CMasternodePaymentVote))
    (blocks : List (Int × CMasternodeBlockPayees)) :
    (CheckAndRemove.loop T L votes blocks).2 =
      blocks.filter (fun b => !CheckAndRemove.erased T L votes b.1) := by
  induction votes generalizing blocks with
  | nil => simp [CheckAndRemove.loop, CheckAndRemove.erased]
  | cons e rest ih =>
    obtain ⟨hash, vote⟩ := e
    by_cases h : T - vote.nBlockHeight > L
    · rw [CheckAndRemove.loop, if_pos h, ih, StdMap.erase, List.filter_filter]
      apply List.filter_congr
      intro b _
      rw [CheckAndRemove.erased_cons, decide_eq_true h]
      by_cases hb : vote.nBlockHeight = b.1
      · have hb1 : decide (b.1 ≠ vote.nBlockHeight) = false :=
          decide_eq_false (fun hc => hc hb.symm)
        rw [decide_eq_true hb, hb1]
        simp
      · have hb1 : decide (b.1 ≠ vote.nBlockHeight) = true :=
          decide_eq_true (fun hc => hb hc.symm)
        rw [decide_eq_false hb, hb1]
        simp
    · rw [CheckAndRemove.loop, if_neg h]
      simp only [ih]
      apply List.filter_congr
      intro b _
      rw [CheckAndRemove.erased_cons, decide_eq_false h]
      simp

theorem CheckAndRemove.erased_iff (T L : Int) (votes : List (uint256 × CMasternodePaymentVote))
    (h : Int) :
    CheckAndRemove.erased T L votes h = true ↔
      ∃ r ∈ votes, T - r.2.nBlockHeight > L ∧ r.2.nBlockHeight = h := by
  simp [CheckAndRemove.erased]

/-! ## Consistency of the reachable stores -/

theorem AddOrUpdatePaymentVote_refuse (env : Env) (s : CMasternodePayments)
    (vote : CMasternodePaymentVote)
    (h : env.GetBlockHash (vote.nBlockHeight - 101) = none ∨
      HasVerifiedPaymentVote s (vote.GetHash env) = true) :
    AddOrUpdatePaymentVote env s vote = (false, s) := by
  unfold AddOrUpdatePaymentVote
  cases hb : env.GetBlockHash (vote.nBlockHeight - 101) with
  | none => rfl
  | some bh =>
    rcases h with h | h
    · rw [hb] at h
      exact absurd h (by simp)
    · simp [h]

theorem Consistent.assign_vote (hashWriter : CScript → Int → Int → COutPoint → uint256)
    (hfree : CollisionFree hashWriter) (votes : List (uint256 × CMasternodePaymentVote))
    (blocks : List (Int × CMasternodeBlockPayees)) (v : CMasternodePaymentVote)
    (hcons : Consistent hashWriter votes blocks) :
    Consistent hashWriter
      (StdMap.assign votes
        (hashWriter v.payee v.nBlockHeight v.nStartHeight v.masternodeOutpoint) v) blocks := by
  constructor
  · intro r hr
    rcases StdMap.mem_assign _ _ _ _ hr with hr | hr
    · rw [hr]
    · exact hcons.1 r hr
  · intro e he
    obtain ⟨r, hr, hre⟩ := hcons.2 e he
    by_cases hk : r.1 = hashWriter v.payee v.nBlockHeight v.nStartHeight v.masternodeOutpoint
    · have hkey := hcons.1 r hr
      rw [hk] at hkey
      have hsame := (hfree _ _ _ _ _ _ _ _ hkey).2.1
      exact ⟨_, StdMap.mem_assign_self _ _ _, hsame.trans hre⟩
    · exact ⟨r, StdMap.mem_assign_of_ne _ _ _ r hr hk, hre⟩

theorem Consistent.addOrUpdate (env : Env)
    (hashWriter : CScript → Int → Int → COutPoint → uint256)
    (hfree : CollisionFree hashWriter) (hH : env.hashWriter = hashWriter)
    (s : CMasternodePayments) (vote : CMasternodePaymentVote)
    (hcons : Consistent hashWriter s.mapMasternodePaymentVotes s.mapMasternodeBlocks) :
    Consistent hashWriter (AddOrUpdatePaymentVote env s vote).2.mapMasternodePaymentVotes
      (AddOrUpdatePaymentVote env s vote).2.mapMasternodeBlocks := by
  by_cases hblock : env.GetBlockHash (vote.nBlockHeight - 101) = none
  · rw [AddOrUpdatePaymentVote_refuse env s vote (Or.inl hblock)]
    exact hcons
  · cases hver : HasVerifiedPaymentVote s (vote.GetHash env) with
    | true =>
      rw [AddOrUpdatePaymentVote_refuse env s vote (Or.inr hver)]
      exact hcons
    | false =>
      rw [AddOrUpdatePaymentVote_accept env s vote hblock hver]
      have hkey : vote.GetHash env =
          hashWriter vote.payee vote.nBlockHeight vote.nStartHeight vote.masternodeOutpoint := by
        rw [CMasternodePaymentVote.GetHash, hH]
      have h1 := Consistent.assign_vote hashWriter hfree _ _ vote hcons
      rw [← hkey] at h1
      refine ⟨h1.1, ?_⟩
      intro e he
      have hself : ∃ r ∈ StdMap.assign s.mapMasternodePaymentVotes (vote.GetHash env) vote,
          r.2.nBlockHeight = vote.nBlockHeight :=
        ⟨_, StdMap.mem_assign_self _ _ _, rfl⟩
      rcases StdMap.mem_assign _ _ _ _ he with he | he
      · rw [he]
        exact hself
      · rcases StdMap.mem_emplace _ _ _ _ he with he | he
        · rw [he]
          exact hself
        · exact h1.2 e he

theorem UpdateLastVote_maps (s : CMasternodePayments) (vote : CMasternodePaymentVote) :
    (UpdateLastVote s vote).2.mapMasternodePaymentVotes = s.mapMasternodePaymentVotes ∧
    (UpdateLastVote s vote).2.mapMasternodeBlocks = s.mapMasternodeBlocks := by
  unfold UpdateLastVote
  cases StdMap.find s.mapMasternodesLastVote vote.masternodeOutpoint with
  | none => exact ⟨rfl, rfl⟩
  | some second =>
    by_cases h : second = vote.nBlockHeight
    · simp [h]
    · simp [h]

/-- The store after the checks of a vote message: the one before, or the one
`AddOrUpdatePaymentVote` returns after an accepted `UpdateLastVote`. -/
theorem ProcessMessage.voteChecks_store (env : Env) (s : CMasternodePayments) (pfrom : CNode)
    (vote : CMasternodePaymentVote) :
    (ProcessMessage.voteChecks env s pfrom vote).1 = s ∨
      ((UpdateLastVote s vote).1 = true ∧
        (ProcessMessage.voteChecks env s pfrom vote).1 =
          (AddOrUpdatePaymentVote env (UpdateLastVote s vote).2 vote).2) := by
  unfold ProcessMessage.voteChecks
  simp only []
  by_cases hw : vote.nBlockHeight < s.nCachedBlockHeight - GetStorageLimit env ∨
      vote.nBlockHeight > s.nCachedBlockHeight + 20
  · rw [if_pos hw]
    exact Or.inl rfl
  · rw [if_neg hw]
    cases hv : (vote.IsValid env pfrom s.nCachedBlockHeight).1 with
    | false => exact Or.inl (by simp)
    | true =>
      cases hm : env.GetMasternodeInfo vote.masternodeOutpoint with
      | none => exact Or.inl (by simp)
      | some mnInfo =>
        cases hs : (vote.CheckSignature env mnInfo.pubKeyMasternode s.nCachedBlockHeight).1 with
        | false => exact Or.inl (by simp [hs])
        | true =>
          cases hl : (UpdateLastVote s vote).1 with
          | false =>
            left
            simp [hs, hl, UpdateLastVote_false_unchanged s vote hl]
          | true =>
            right
            cases ha : (AddOrUpdatePaymentVote env (UpdateLastVote s vote).2 vote).1 with
            | false => simp [hs, hl, ha]
            | true => simp [hs, hl, ha]

theorem Consistent.voteChecks (env : Env)
    (hashWriter : CScript → Int → Int → COutPoint → uint256)
    (hfree : CollisionFree hashWriter) (hH : env.hashWriter = hashWriter)
    (s : CMasternodePayments) (pfrom : CNode) (vote : CMasternodePaymentVote)
    (hcons : Consistent hashWriter s.mapMasternodePaymentVotes s.mapMasternodeBlocks) :
    Consistent hashWriter (ProcessMessage.voteChecks env s pfrom vote).1.mapMasternodePaymentVotes
      (ProcessMessage.voteChecks env s pfrom vote).1.mapMasternodeBlocks := by
  rcases ProcessMessage.voteChecks_store env s pfrom vote with h | ⟨_, h⟩
  · rw [h]
    exact hcons
  · rw [h]
    apply Consistent.addOrUpdate env hashWriter hfree hH
    rw [(UpdateLastVote_maps s vote).1, (UpdateLastVote_maps s vote).2]
    exact hcons

theorem CheckAndRemove_synced (env : Env) (s : CMasternodePayments)
    (hsync : env.IsBlockchainSynced = true) :
    (CheckAndRemove env s).mapMasternodePaymentVotes =
        s.mapMasternodePaymentVotes.filter
          (fun e => decide (s.nCachedBlockHeight - e.2.nBlockHeight ≤ GetStorageLimit env)) ∧
    (CheckAndRemove env s).mapMasternodeBlocks =
        s.mapMasternodeBlocks.filter
          (fun b => !CheckAndRemove.erased s.nCachedBlockHeight (GetStorageLimit env)
            s.mapMasternodePaymentVotes b.1) := by
  simp [CheckAndRemove, hsync, CheckAndRemove.loop_votes, CheckAndRemove.loop_blocks]

theorem CheckAndRemove_find_recent (env : Env) (s : CMasternodePayments)
    (hsync : env.IsBlockchainSynced = true) (h : Int)
    (hrecent : s.nCachedBlockHeight - h ≤ GetStorageLimit env) :
    StdMap.find (CheckAndRemove env s).mapMasternodeBlocks h =
      StdMap.find s.mapMasternodeBlocks h := by
  rw [(CheckAndRemove_synced env s hsync).2]
  rw [StdMap.find_filter_key (fun k => !CheckAndRemove.erased s.nCachedBlockHeight
    (GetStorageLimit env) s.mapMasternodePaymentVotes k)]
  cases her : CheckAndRemove.erased s.nCachedBlockHeight (GetStorageLimit env)
      s.mapMasternodePaymentVotes h with
  | false => simp
  | true =>
    obtain ⟨r, _, hrold, hrh⟩ := (CheckAndRemove.erased_iff _ _ _ _).mp her
    rw [hrh] at hrold
    exact absurd hrecent (not_le.mpr hrold)

theorem ProcessMessage.voteChecks_eq (env : Env) (s : CMasternodePayments) (pfrom : CNode)
    (vote : CMasternodePaymentVote) :
    ProcessMessage.voteChecks env s pfrom vote =
      if vote.nBlockHeight < s.nCachedBlockHeight - GetStorageLimit env ∨
          vote.nBlockHeight > s.nCachedBlockHeight + 20 then (s, [])
      else ProcessMessage.afterWindow env s pfrom vote := rfl

theorem ProcessMessage.seen_fields (env : Env) (s : CMasternodePayments)
    (vote : CMasternodePaymentVote) :
    (ProcessMessage.seen env s vote).mapMasternodeBlocks = s.mapMasternodeBlocks ∧
    (ProcessMessage.seen env s vote).mapMasternodesLastVote = s.mapMasternodesLastVote ∧
    (ProcessMessage.seen env s vote).nCachedBlockHeight = s.nCachedBlockHeight := by
  unfold ProcessMessage.seen
  cases StdMap.find s.mapMasternodePaymentVotes (vote.GetHash env) with
  | none => exact ⟨rfl, rfl, rfl⟩
  | some first => exact ⟨rfl, rfl, rfl⟩

theorem ProcessMessage.seen_find (env : Env) (s : CMasternodePayments)
    (vote : CMasternodePaymentVote) :
    (∃ record, StdMap.find (ProcessMessage.seen env s vote).mapMasternodePaymentVotes
        (vote.GetHash env) = some record ∧ record.IsVerified = false ∧
      (StdMap.find s.mapMasternodePaymentVotes (vote.GetHash env) = none →
        record = vote.MarkAsNotVerified) ∧
      (∀ first, StdMap.find s.mapMasternodePaymentVotes (vote.GetHash env) = some first →
        record = first.MarkAsNotVerified)) ∧
    (∀ k, k ≠ vote.GetHash env →
      StdMap.find (ProcessMessage.seen env s vote).mapMasternodePaymentVotes k =
        StdMap.find s.mapMasternodePaymentVotes k) := by
  unfold ProcessMessage.seen
  cases hfind : StdMap.find s.mapMasternodePaymentVotes (vote.GetHash env) with
  | none =>
    refine ⟨⟨_, StdMap.find_assign_self _ _ _, rfl, fun _ => rfl, fun first h => ?_⟩,
      fun k hk => StdMap.find_assign_ne _ _ _ _ hk⟩
    exact absurd h (by simp)
  | some first =>
    refine ⟨⟨_, StdMap.find_assign_self _ _ _, rfl, fun h => ?_, fun first' h => ?_⟩,
      fun k hk => StdMap.find_assign_ne _ _ _ _ hk⟩
    · exact absurd h (by simp)
    · rw [Option.some.inj h]

theorem ProcessMessage.vote_eq (env : Env) (s : CMasternodePayments) (pfrom : CNode)
    (vote : CMasternodePaymentVote) :
    ProcessMessage.vote env s pfrom vote =
      if pfrom.nVersion < GetMinMasternodePaymentsProto env then
        (s, [Effect.PushReject pfrom.id])
      else if env.IsMasternodeListSynced = false then
        (s, [Effect.EraseAskFor pfrom.id (vote.GetHash env)])
      else if HasVerifiedPaymentVote s (vote.GetHash env) = true then
        (s, [Effect.EraseAskFor pfrom.id (vote.GetHash env)])
      else
        ((ProcessMessage.voteChecks env (ProcessMessage.seen env s vote) pfrom vote).1,
          Effect.EraseAskFor pfrom.id (vote.GetHash env) ::
            (ProcessMessage.voteChecks env (ProcessMessage.seen env s vote) pfrom vote).2) := by
  unfold ProcessMessage.vote ProcessMessage.seen HasVerifiedPaymentVote
  by_cases hver : pfrom.nVersion < GetMinMasternodePaymentsProto env
  · simp only [if_pos hver]
  · simp only [if_neg hver]
    cases hsync : env.IsMasternodeListSynced with
    | false => simp
    | true =>
      cases hfind : StdMap.find s.mapMasternodePaymentVotes (vote.GetHash env) with
      | none => simp
      | some first =>
        cases hfv : first.IsVerified with
        | true => simp
        | false => simp

theorem ProcessMessage.vote_out_of_range (env : Env) (s : CMasternodePayments) (pfrom : CNode)
    (vote : CMasternodePaymentVote)
    (hout : vote.nBlockHeight < s.nCachedBlockHeight - GetStorageLimit env ∨
      vote.nBlockHeight > s.nCachedBlockHeight + 20) :
    (ProcessMessage.vote env s pfrom vote).1.mapMasternodeBlocks = s.mapMasternodeBlocks ∧
    (ProcessMessage.vote env s pfrom vote).1.mapMasternodesLastVote =
      s.mapMasternodesLastVote ∧
    ∀ e ∈ (ProcessMessage.vote env s pfrom vote).2,
      e = Effect.PushReject pfrom.id ∨ e = Effect.EraseAskFor pfrom.id (vote.GetHash env) := by
  have hseen := ProcessMessage.seen_fields env s vote
  have hout1 : vote.nBlockHeight <
        (ProcessMessage.seen env s vote).nCachedBlockHeight - GetStorageLimit env ∨
      vote.nBlockHeight > (ProcessMessage.seen env s vote).nCachedBlockHeight + 20 := by
    rw [hseen.2.2]
    exact hout
  have hchecks : ProcessMessage.voteChecks env (ProcessMessage.seen env s vote) pfrom vote =
      (ProcessMessage.seen env s vote, []) := by
    rw [ProcessMessage.voteChecks_eq, if_pos hout1]
  rw [ProcessMessage.vote_eq, hchecks]
  split_ifs
  · exact ⟨rfl, rfl, by simp⟩
  · exact ⟨rfl, rfl, by simp⟩
  · exact ⟨rfl, rfl, by simp⟩
  · exact ⟨hseen.1, hseen.2.1, by simp⟩

/-- C11: handling a vote message whose height is below
`nCachedBlockHeight - GetStorageLimit()` or above `nCachedBlockHeight + 20`
issues no `Misbehaving` call and no relay, and leaves every tally and the
last-vote index as they were; with a non-negative storage limit, a vote whose
height equals either bound passes the window check: the checks continue with
the code after it. -/
theorem processMessage_vote_window (env : Env) (s : CMasternodePayments) (pfrom : CNode)
    (vote : CMasternodePaymentVote) :
    ((vote.nBlockHeight < s.nCachedBlockHeight - GetStorageLimit env ∨
        vote.nBlockHeight > s.nCachedBlockHeight + 20) →
      (∀ peer howmuch, Effect.Misbehaving peer howmuch ∉
        (ProcessMessage env s pfrom (Command.MASTERNODEPAYMENTVOTE vote)).2) ∧
      (∀ hash, Effect.RelayInv hash ∉
        (ProcessMessage env s pfrom (Command.MASTERNODEPAYMENTVOTE vote)).2) ∧
      (ProcessMessage env s pfrom (Command.MASTERNODEPAYMENTVOTE vote)).1.mapMasternodeBlocks =
        s.mapMasternodeBlocks ∧
      (ProcessMessage env s pfrom (Command.MASTERNODEPAYMENTVOTE vote)).1.mapMasternodesLastVote =
        s.mapMasternodesLastVote) ∧
    (0 ≤ GetStorageLimit env →
      (vote.nBlockHeight = s.nCachedBlockHeight - GetStorageLimit env ∨
        vote.nBlockHeight = s.nCachedBlockHeight + 20) →
      ProcessMessage.voteChecks env s pfrom vote = ProcessMessage.afterWindow env s pfrom vote) := by
  constructor
  · intro hout
    unfold ProcessMessage
    cases hlite : env.fLiteMode with
    | true => simp
    | false =>
      simp only [Bool.false_eq_true, if_false]
      obtain ⟨hb, hl, he⟩ := ProcessMessage.vote_out_of_range env s pfrom vote hout
      refine ⟨?_, ?_, hb, hl⟩
      · intro peer howmuch hmem
        rcases he _ hmem with h | h <;> simp at h
      · intro hash hmem
        rcases he _ hmem with h | h <;> simp at h
  · intro hlimit hedge
    rw [ProcessMessage.voteChecks_eq, if_neg]
    rcases hedge with h | h <;> omega

/-- Witness for C11: with the tip at 1000 and storage limit 50, a vote for
height 1021 changes no tally, and a vote for height 1020 passes the window
check. -/
theorem processMessage_vote_window_witness :
    (ProcessMessage Scenario.env (Scenario.storeAt 1000) Scenario.peer
      (Command.MASTERNODEPAYMENTVOTE (Scenario.voteAt 1 1021 Scenario.S1))).1.mapMasternodeBlocks =
      (Scenario.storeAt 1000).mapMasternodeBlocks ∧
    ProcessMessage.voteChecks Scenario.env (Scenario.storeAt 1000) Scenario.peer
        (Scenario.voteAt 1 1020 Scenario.S1) =
      ProcessMessage.afterWindow Scenario.env (Scenario.storeAt 1000) Scenario.peer
        (Scenario.voteAt 1 1020 Scenario.S1) :=
  ⟨((processMessage_vote_window Scenario.env (Scenario.storeAt 1000) Scenario.peer
      (Scenario.voteAt 1 1021 Scenario.S1)).1 (by decide)).2.2.1,
   (processMessage_vote_window Scenario.env (Scenario.storeAt 1000) Scenario.peer
      (Scenario.voteAt 1 1020 Scenario.S1)).2 (by decide) (by decide)⟩

/-! ## Signature and rank checks -/

theorem CheckSignature_true (env : Env) (vote : CMasternodePaymentVote)
    (pubKeyMasternode : CPubKey) (nValidationHeight : Int)
    (h : (vote.CheckSignature env pubKeyMasternode nValidationHeight).1 = true) :
    env.IsSporkActiveNewSigs = false ∨
      env.VerifyHash (vote.GetSignatureHash env) pubKeyMasternode vote.vchSig = true := by
  unfold CMasternodePaymentVote.CheckSignature at h
  cases hspork : env.IsSporkActiveNewSigs with
  | false => exact Or.inl rfl
  | true =>
    right
    cases hverify : env.VerifyHash (vote.GetSignatureHash env) pubKeyMasternode vote.vchSig with
    | true => rfl
    | false =>
      simp only [hspork, if_true, hverify, Bool.not_false] at h
      split_ifs at h

/-- C13: when `CheckSignature` returns false, `nDos` is 20 if the masternode
list is synced and the vote's block height is strictly greater than the
validation height, and 0 otherwise; when it returns true, `nDos` is 0. -/
theorem checkSignature_nDos (env : Env) (vote : CMasternodePaymentVote)
    (pubKeyMasternode : CPubKey) (nValidationHeight : Int) :
    ((vote.CheckSignature env pubKeyMasternode nValidationHeight).1 = false →
      (vote.CheckSignature env pubKeyMasternode nValidationHeight).2 =
        if env.IsMasternodeListSynced = true ∧ vote.nBlockHeight > nValidationHeight then 20
        else 0) ∧
    ((vote.CheckSignature env pubKeyMasternode nValidationHeight).1 = true →
      (vote.CheckSignature env pubKeyMasternode nValidationHeight).2 = 0) := by
  unfold CMasternodePaymentVote.CheckSignature
  cases hspork : env.IsSporkActiveNewSigs with
  | false => simp
  | true =>
    cases hverify : env.VerifyHash (vote.GetSignatureHash env) pubKeyMasternode vote.vchSig with
    | true => simp [hverify]
    | false =>
      by_cases hban : env.IsMasternodeListSynced = true ∧ vote.nBlockHeight > nValidationHeight
      · simp only [if_true, hverify, Bool.not_false, if_pos hban]
        simp
      · simp only [if_true, hverify, Bool.not_false, if_neg hban]
        simp

/-- Witness for C13: an unsigned vote for the future height 1001 fails the
check with `nDos = 20` on the synced scenario node. -/
theorem checkSignature_nDos_witness :
    ((Scenario.unsignedVoteAt 1 1001 Scenario.S1).CheckSignature Scenario.env [1] 1000).1 =
      false ∧
    ((Scenario.unsignedVoteAt 1 1001 Scenario.S1).CheckSignature Scenario.env [1] 1000).2 =
      if Scenario.env.IsMasternodeListSynced = true ∧
          (Scenario.unsignedVoteAt 1 1001 Scenario.S1).nBlockHeight > 1000 then 20
      else 0 :=
  ⟨by decide,
   (checkSignature_nDos Scenario.env (Scenario.unsignedVoteAt 1 1001 Scenario.S1) [1] 1000).1
     (by decide)⟩

/-- C14: when `IsValid` performs the rank check (known masternode, sufficient
protocol, no skip, rank available) and the rank exceeds
`MNPAYMENTS_SIGNATURES_TOTAL`, the vote is rejected, and `Misbehaving(peer, 20)`
is issued exactly when the rank exceeds twice that total and the vote's height
is strictly greater than the validation height; a rank of at most the total is
accepted without any effect on the peer. -/
theorem isValid_rank (env : Env) (vote : CMasternodePaymentVote) (pnode : CNode)
    (nValidationHeight : Int) (mnInfo : masternode_info_t) (nRank : Int)
    (hinfo : env.GetMasternodeInfo vote.masternodeOutpoint = some mnInfo)
    (hproto : ¬ mnInfo.nProtocolVersion < GetMinMasternodePaymentsProto env)
    (hnoskip : ¬ ((!env.fMasternodeMode) = true ∧ vote.nBlockHeight < nValidationHeight))
    (hrank : env.GetMasternodeRank vote.masternodeOutpoint (vote.nBlockHeight - 101)
      (GetMinMasternodePaymentsProto env) = some nRank) :
    (nRank > env.MNPAYMENTS_SIGNATURES_TOTAL →
      (vote.IsValid env pnode nValidationHeight).1 = false ∧
      (vote.IsValid env pnode nValidationHeight).2 =
        (if nRank > env.MNPAYMENTS_SIGNATURES_TOTAL * 2 ∧ vote.nBlockHeight > nValidationHeight
          then [Effect.Misbehaving pnode.id 20] else []) ∧
      (Effect.Misbehaving pnode.id 20 ∈ (vote.IsValid env pnode nValidationHeight).2 ↔
        nRank > env.MNPAYMENTS_SIGNATURES_TOTAL * 2 ∧ vote.nBlockHeight > nValidationHeight)) ∧
    (nRank ≤ env.MNPAYMENTS_SIGNATURES_TOTAL →
      vote.IsValid env pnode nValidationHeight = (true, [])) := by
  unfold CMasternodePaymentVote.IsValid
  simp only [hinfo, if_neg hproto, if_neg hnoskip, hrank]
  constructor
  · intro hover
    simp only [if_pos hover]
    by_cases hban : nRank > env.MNPAYMENTS_SIGNATURES_TOTAL * 2 ∧
        vote.nBlockHeight > nValidationHeight
    · simp only [if_pos hban]
      simp [hban]
    · simp only [if_neg hban]
      simp [hban]
  · intro hle
    have hnot : ¬ nRank > env.MNPAYMENTS_SIGNATURES_TOTAL := not_lt.mpr hle
    simp only [if_neg hnot]

/-- Witness for C14: a voter ranked 11th of 10 for the future height 1001 is
rejected without a penalty. -/
theorem isValid_rank_witness :
    (Scenario.voteAt 1 1001 Scenario.S1).IsValid Scenario.envRank11 Scenario.peer 1000 =
      (false, []) :=
  Prod.ext
    ((isValid_rank Scenario.envRank11 (Scenario.voteAt 1 1001 Scenario.S1) Scenario.peer 1000
      { outpoint := { hash := 1, n := 0 }, nProtocolVersion := 70208, pubKeyMasternode := [1],
        pubKeyCollateralAddress := [2] } 11 rfl (by decide) (by decide) rfl).1 (by decide)).1
    ((isValid_rank Scenario.envRank11 (Scenario.voteAt 1 1001 Scenario.S1) Scenario.peer 1000
      { outpoint := { hash := 1, n := 0 }, nProtocolVersion := 70208, pubKeyMasternode := [1],
        pubKeyCollateralAddress := [2] } 11 rfl (by decide) (by decide) rfl).1 (by decide)).2.1

theorem IsValid_true_effects (env : Env) (vote : CMasternodePaymentVote) (pnode : CNode)
    (nValidationHeight : Int) (h : (vote.IsValid env pnode nValidationHeight).1 = true) :
    (vote.IsValid env pnode nValidationHeight).2 = [] := by
  unfold CMasternodePaymentVote.IsValid at h ⊢
  cases hinfo : env.GetMasternodeInfo vote.masternodeOutpoint with
  | none =>
    simp only [hinfo] at h
    split_ifs at h
  | some mnInfo =>
    simp only [hinfo] at h ⊢
    split_ifs at h ⊢
    · rfl
    · cases hrank : env.GetMasternodeRank vote.masternodeOutpoint (vote.nBlockHeight - 101)
          (GetMinMasternodePaymentsProto env) with
      | none =>
        simp only [hrank] at h
        exact absurd h (by simp)
      | some nRank =>
        simp only [hrank] at h ⊢
        split_ifs at h ⊢
        rfl

theorem IsValid_effects (env : Env) (vote : CMasternodePaymentVote) (pnode : CNode)
    (nValidationHeight : Int) :
    ∀ e ∈ (vote.IsValid env pnode nValidationHeight).2,
      e = Effect.AskForMN pnode.id vote.masternodeOutpoint ∨
        e = Effect.Misbehaving pnode.id 20 := by
  unfold CMasternodePaymentVote.IsValid
  cases hinfo : env.GetMasternodeInfo vote.masternodeOutpoint with
  | none =>
    simp only []
    split_ifs <;> simp
  | some mnInfo =>
    simp only []
    split_ifs
    · simp
    · simp
    · cases hrank : env.GetMasternodeRank vote.masternodeOutpoint (vote.nBlockHeight - 101)
          (GetMinMasternodePaymentsProto env) with
      | none => simp
      | some nRank =>
        simp only []
        split_ifs <;> simp

/-- The two ways the code after the window check ends: the vote is turned down
by `IsValid`, the registry lookup, `CheckSignature` or `UpdateLastVote`, with
the store as before and effects on the sending peer only; or all of them pass
and the outcome is that of `AddOrUpdatePaymentVote` after `UpdateLastVote`. -/
theorem ProcessMessage.afterWindow_cases (env : Env) (s : CMasternodePayments) (pfrom : CNode)
    (vote : CMasternodePaymentVote) :
    ((ProcessMessage.afterWindow env s pfrom vote).1 = s ∧
      ∀ e ∈ (ProcessMessage.afterWindow env s pfrom vote).2,
        e = Effect.AskForMN pfrom.id vote.masternodeOutpoint ∨
          ∃ howmuch, e = Effect.Misbehaving pfrom.id howmuch) ∨
    ((vote.IsValid env pfrom s.nCachedBlockHeight).1 = true ∧
      (∃ mnInfo, env.GetMasternodeInfo vote.masternodeOutpoint = some mnInfo ∧
        (vote.CheckSignature env mnInfo.pubKeyMasternode s.nCachedBlockHeight).1 = true) ∧
      (UpdateLastVote s vote).1 = true ∧
      ProcessMessage.afterWindow env s pfrom vote =
        ((AddOrUpdatePaymentVote env (UpdateLastVote s vote).2 vote).2,
          if (AddOrUpdatePaymentVote env (UpdateLastVote s vote).2 vote).1 = true then
            vote.Relay env ++ [Effect.BumpAssetLastTime]
          else [])) := by
  have hvalid := IsValid_effects env vote pfrom s.nCachedBlockHeight
  have hweak : ∀ e, (e = Effect.AskForMN pfrom.id vote.masternodeOutpoint ∨
      e = Effect.Misbehaving pfrom.id 20) →
      (e = Effect.AskForMN pfrom.id vote.masternodeOutpoint ∨
        ∃ howmuch, e = Effect.Misbehaving pfrom.id howmuch) := by
    intro e he
    rcases he with he | he
    · exact Or.inl he
    · exact Or.inr ⟨20, he⟩
  unfold ProcessMessage.afterWindow
  simp only []
  cases hv : (vote.IsValid env pfrom s.nCachedBlockHeight).1 with
  | false =>
    left
    simp only [Bool.not_false, if_true]
    exact ⟨trivial, fun e he => hweak e (hvalid e he)⟩
  | true =>
    have hnil := IsValid_true_effects env vote pfrom s.nCachedBlockHeight hv
    simp only [Bool.not_true, Bool.false_eq_true, if_false, hnil, List.nil_append]
    cases hm : env.GetMasternodeInfo vote.masternodeOutpoint with
    | none =>
      left
      exact ⟨rfl, by simp⟩
    | some mnInfo =>
      simp only []
      cases hs : (vote.CheckSignature env mnInfo.pubKeyMasternode s.nCachedBlockHeight).1 with
      | false =>
        left
        simp only [Bool.not_false, if_true]
        refine ⟨trivial, ?_⟩
        intro e he
        rcases List.mem_append.mp he with he | he
        · split_ifs at he
          · rw [List.mem_singleton] at he
            exact Or.inr ⟨_, he⟩
          · simp at he
        · rw [List.mem_singleton] at he
          exact Or.inl he
      | true =>
        simp only [Bool.not_true, Bool.false_eq_true, if_false]
        cases hl : (UpdateLastVote s vote).1 with
        | false =>
          left
          simp only [Bool.not_false, if_true]
          exact ⟨UpdateLastVote_false_unchanged s vote hl, by simp⟩
        | true =>
          right
          refine ⟨by simp, ⟨mnInfo, rfl, hs⟩, by simp, ?_⟩
          simp only [Bool.not_true, Bool.false_eq_true, if_false]
          cases ha : (AddOrUpdatePaymentVote env (UpdateLastVote s vote).2 vote).1 with
          | false => simp
          | true => simp

/-- The two ways the handling of a vote message ends.  Either the vote is
turned down before `AddOrUpdatePaymentVote` is called: tallies and last-vote
index are as before, nothing is relayed and the sync tracker is not bumped.  Or
every gate is passed (peer version, list synced, not seen as verified, window,
`IsValid`, registry lookup, `CheckSignature`, `UpdateLastVote`) and the outcome
is that of `AddOrUpdatePaymentVote` on the store `UpdateLastVote` returned. -/
theorem ProcessMessage_vote_cases (env : Env) (s : CMasternodePayments) (pfrom : CNode)
    (vote : CMasternodePaymentVote) :
    ((ProcessMessage env s pfrom (Command.MASTERNODEPAYMENTVOTE vote)).1.mapMasternodeBlocks =
        s.mapMasternodeBlocks ∧
      (ProcessMessage env s pfrom (Command.MASTERNODEPAYMENTVOTE vote)).1.mapMasternodesLastVote =
        s.mapMasternodesLastVote ∧
      (∀ hash, Effect.RelayInv hash ∉
        (ProcessMessage env s pfrom (Command.MASTERNODEPAYMENTVOTE vote)).2) ∧
      Effect.BumpAssetLastTime ∉
        (ProcessMessage env s pfrom (Command.MASTERNODEPAYMENTVOTE vote)).2) ∨
    (env.fLiteMode = false ∧
      ¬ pfrom.nVersion < GetMinMasternodePaymentsProto env ∧
      env.IsMasternodeListSynced = true ∧
      HasVerifiedPaymentVote s (vote.GetHash env) = false ∧
      ¬ (vote.nBlockHeight < s.nCachedBlockHeight - GetStorageLimit env ∨
        vote.nBlockHeight > s.nCachedBlockHeight + 20) ∧
      (vote.IsValid env pfrom s.nCachedBlockHeight).1 = true ∧
      (∃ mnInfo, env.GetMasternodeInfo vote.masternodeOutpoint = some mnInfo ∧
        (vote.CheckSignature env mnInfo.pubKeyMasternode s.nCachedBlockHeight).1 = true) ∧
      (UpdateLastVote (ProcessMessage.seen env s vote) vote).1 = true ∧
      ProcessMessage env s pfrom (Command.MASTERNODEPAYMENTVOTE vote) =
        ((AddOrUpdatePaymentVote env
            (UpdateLastVote (ProcessMessage.seen env s vote) vote).2 vote).2,
          Effect.EraseAskFor pfrom.id (vote.GetHash env) ::
            if (AddOrUpdatePaymentVote env
                (UpdateLastVote (ProcessMessage.seen env s vote) vote).2 vote).1 = true then
              vote.Relay env ++ [Effect.BumpAssetLastTime]
            else [])) := by
  have hseen := ProcessMessage.seen_fields env s vote
  unfold ProcessMessage
  cases hlite : env.fLiteMode with
  | true => exact Or.inl ⟨rfl, rfl, by simp, by simp⟩
  | false =>
    simp only [Bool.false_eq_true, if_false]
    rw [ProcessMessage.vote_eq]
    by_cases hver : pfrom.nVersion < GetMinMasternodePaymentsProto env
    · rw [if_pos hver]
      exact Or.inl ⟨rfl, rfl, by simp, by simp⟩
    · rw [if_neg hver]
      cases hsync : env.IsMasternodeListSynced with
      | false => exact Or.inl ⟨rfl, rfl, by simp, by simp⟩
      | true =>
        simp only [Bool.true_eq_false, if_false]
        cases hknown : HasVerifiedPaymentVote s (vote.GetHash env) with
        | true => exact Or.inl ⟨rfl, rfl, by simp, by simp⟩
        | false =>
          simp only [Bool.false_eq_true, if_false]
          rw [ProcessMessage.voteChecks_eq, hseen.2.2]
          by_cases hout : vote.nBlockHeight < s.nCachedBlockHeight - GetStorageLimit env ∨
              vote.nBlockHeight > s.nCachedBlockHeight + 20
          · rw [if_pos hout]
            exact Or.inl ⟨hseen.1, hseen.2.1, by simp, by simp⟩
          · rw [if_neg hout]
            rcases ProcessMessage.afterWindow_cases env (ProcessMessage.seen env s vote) pfrom
                vote with ⟨hstore, heff⟩ | ⟨hvalid, hsig, hlast, heq⟩
            · left
              refine ⟨?_, ?_, ?_, ?_⟩
              · rw [hstore]
                exact hseen.1
              · rw [hstore]
                exact hseen.2.1
              · intro hash hmem
                rcases List.mem_cons.mp hmem with h | h
                · simp at h
                · rcases heff _ h with h1 | ⟨_, h1⟩ <;> simp at h1
              · intro hmem
                rcases List.mem_cons.mp hmem with h | h
                · simp at h
                · rcases heff _ h with h1 | ⟨_, h1⟩ <;> simp at h1
            · right
              rw [hseen.2.2] at hvalid hsig
              refine ⟨by simp, hver, by simp, by simp, hout, hvalid, hsig, hlast, ?_⟩
              rw [heq]

/-- A vote message that reaches the checks (node not in lite mode, peer version
sufficient, masternode list synced, hash not stored as verified): the window
check decides first, on the store that holds the unverified record. -/
theorem ProcessMessage_vote_checks (env : Env) (s : CMasternodePayments) (pfrom : CNode)
    (vote : CMasternodePaymentVote) (hlite : env.fLiteMode = false)
    (hver : ¬ pfrom.nVersion < GetMinMasternodePaymentsProto env)
    (hsync : env.IsMasternodeListSynced = true)
    (hnew : HasVerifiedPaymentVote s (vote.GetHash env) = false) :
    ProcessMessage env s pfrom (Command.MASTERNODEPAYMENTVOTE vote) =
      if vote.nBlockHeight < s.nCachedBlockHeight - GetStorageLimit env ∨
          vote.nBlockHeight > s.nCachedBlockHeight + 20 then
        (ProcessMessage.seen env s vote, [Effect.EraseAskFor pfrom.id (vote.GetHash env)])
      else
        ((ProcessMessage.afterWindow env (ProcessMessage.seen env s vote) pfrom vote).1,
          Effect.EraseAskFor pfrom.id (vote.GetHash env) ::
            (ProcessMessage.afterWindow env (ProcessMessage.seen env s vote) pfrom vote).2) := by
  have hseen := ProcessMessage.seen_fields env s vote
  unfold ProcessMessage
  simp only [hlite, Bool.false_eq_true, if_false]
  rw [ProcessMessage.vote_eq, if_neg hver, hsync, hnew, ProcessMessage.voteChecks_eq, hseen.2.2]
  by_cases hout : vote.nBlockHeight < s.nCachedBlockHeight - GetStorageLimit env ∨
      vote.nBlockHeight > s.nCachedBlockHeight + 20
  · simp [if_pos hout]
  · simp [if_neg hout]

/-- The code after the window check for a voter the registry knows: `IsValid`,
then `CheckSignature`, then `UpdateLastVote`, then `AddOrUpdatePaymentVote`. -/
theorem ProcessMessage.afterWindow_known (env : Env) (s : CMasternodePayments) (pfrom : CNode)
    (vote : CMasternodePaymentVote) (mnInfo : masternode_info_t)
    (hinfo : env.GetMasternodeInfo vote.masternodeOutpoint = some mnInfo) :
    ProcessMessage.afterWindow env s pfrom vote =
      if (vote.IsValid env pfrom s.nCachedBlockHeight).1 = false then
        (s, (vote.IsValid env pfrom s.nCachedBlockHeight).2)
      else if (vote.CheckSignature env mnInfo.pubKeyMasternode s.nCachedBlockHeight).1 = false then
        (s, (if (vote.CheckSignature env mnInfo.pubKeyMasternode s.nCachedBlockHeight).2 ≠ 0 then
              [Effect.Misbehaving pfrom.id
                (vote.CheckSignature env mnInfo.pubKeyMasternode s.nCachedBlockHeight).2]
            else []) ++ [Effect.AskForMN pfrom.id vote.masternodeOutpoint])
      else if (UpdateLastVote s vote).1 = false then (s, [])
      else
        ((AddOrUpdatePaymentVote env (UpdateLastVote s vote).2 vote).2,
          if (AddOrUpdatePaymentVote env (UpdateLastVote s vote).2 vote).1 = true then
            vote.Relay env ++ [Effect.BumpAssetLastTime]
          else []) := by
  unfold ProcessMessage.afterWindow
  simp only [hinfo]
  cases hv : (vote.IsValid env pfrom s.nCachedBlockHeight).1 with
  | false => simp
  | true =>
    have hnil := IsValid_true_effects env vote pfrom s.nCachedBlockHeight hv
    simp only [Bool.not_true, Bool.false_eq_true, if_false, hnil, List.nil_append]
    cases hs : (vote.CheckSignature env mnInfo.pubKeyMasternode s.nCachedBlockHeight).1 with
    | false => simp
    | true =>
      simp only [Bool.not_true, Bool.false_eq_true, if_false]
      cases hl : (UpdateLastVote s vote).1 with
      | false =>
        simp only [Bool.not_false, if_true]
        rw [UpdateLastVote_false_unchanged s vote hl]
        simp
      | true =>
        simp only [Bool.not_true, Bool.false_eq_true, if_false]
        cases ha : (AddOrUpdatePaymentVote env (UpdateLastVote s vote).2 vote).1 with
        | false => simp
        | true => simp

/-- C12, the claim as stated fails: with the spork `SPORK_2_NEW_SIGS` inactive,
a vote with an empty signature, which `VerifyHash` refuses, passes
`CheckSignature`, and handling its message tallies and relays it. -/
theorem checkSignature_passes_unverified_without_spork :
    Scenario.envNoSpork.VerifyHash
      ((Scenario.unsignedVoteAt 1 1001 Scenario.S1).GetSignatureHash Scenario.envNoSpork) [1]
      (Scenario.unsignedVoteAt 1 1001 Scenario.S1).vchSig = false ∧
    ((Scenario.unsignedVoteAt 1 1001 Scenario.S1).CheckSignature Scenario.envNoSpork [1]
      1000).1 = true ∧
    Effect.RelayInv ((Scenario.unsignedVoteAt 1 1001 Scenario.S1).GetHash Scenario.envNoSpork) ∈
      (ProcessMessage Scenario.envNoSpork (Scenario.storeAt 1000) Scenario.peer
        (Command.MASTERNODEPAYMENTVOTE (Scenario.unsignedVoteAt 1 1001 Scenario.S1))).2 ∧
    payeesAt (ProcessMessage Scenario.envNoSpork (Scenario.storeAt 1000) Scenario.peer
        (Command.MASTERNODEPAYMENTVOTE (Scenario.unsignedVoteAt 1 1001 Scenario.S1))).1 1001 =
      [CMasternodePayee.create Scenario.S1
        ((Scenario.unsignedVoteAt 1 1001 Scenario.S1).GetHash Scenario.envNoSpork) 900] := by
  refine ⟨by decide, by decide, by decide, by decide⟩

/-- C12 as amended: `CheckSignature` returns true only if the spork
`SPORK_2_NEW_SIGS` is inactive or the vote's signature verifies over its
signature hash under the given key; consequently handling a vote message
changes a tally or relays the vote only if the spork is inactive or the
signature verifies under the masternode key the registry holds for the
voter. -/
theorem checkSignature_true_only_if_verified_or_spork_off (env : Env)
    (vote : CMasternodePaymentVote) :
    (∀ pubKeyMasternode nValidationHeight,
      (vote.CheckSignature env pubKeyMasternode nValidationHeight).1 = true →
      env.IsSporkActiveNewSigs = false ∨
        env.VerifyHash (vote.GetSignatureHash env) pubKeyMasternode vote.vchSig = true) ∧
    (∀ s pfrom,
      ((ProcessMessage env s pfrom (Command.MASTERNODEPAYMENTVOTE vote)).1.mapMasternodeBlocks ≠
          s.mapMasternodeBlocks ∨
        ∃ hash, Effect.RelayInv hash ∈
          (ProcessMessage env s pfrom (Command.MASTERNODEPAYMENTVOTE vote)).2) →
      env.IsSporkActiveNewSigs = false ∨
        ∃ mnInfo, env.GetMasternodeInfo vote.masternodeOutpoint = some mnInfo ∧
          env.VerifyHash (vote.GetSignatureHash env) mnInfo.pubKeyMasternode vote.vchSig =
            true) := by
  refine ⟨fun pk vh h => CheckSignature_true env vote pk vh h, ?_⟩
  intro s pfrom hdone
  rcases ProcessMessage_vote_cases env s pfrom vote with
    ⟨hblocks, _, hrelay, _⟩ | ⟨_, _, _, _, _, _, ⟨mnInfo, hinfo, hsig⟩, _, _⟩
  · rcases hdone with h | ⟨hash, h⟩
    · exact absurd hblocks h
    · exact absurd h (hrelay hash)
  · rcases CheckSignature_true env vote _ _ hsig with h | h
    · exact Or.inl h
    · exact Or.inr ⟨mnInfo, hinfo, h⟩

/-- Witness for C12 as amended: on the scenario node, where the spork is
active, the signed vote of masternode 1 for height 1001 is relayed, and its
signature verifies under the registry key. -/
theorem checkSignature_true_only_if_verified_or_spork_off_witness :
    (∃ hash, Effect.RelayInv hash ∈
      (ProcessMessage Scenario.env (Scenario.storeAt 1000) Scenario.peer
        (Command.MASTERNODEPAYMENTVOTE (Scenario.voteAt 1 1001 Scenario.S1))).2) ∧
    (Scenario.env.IsSporkActiveNewSigs = false ∨
      ∃ mnInfo, Scenario.env.GetMasternodeInfo
          (Scenario.voteAt 1 1001 Scenario.S1).masternodeOutpoint = some mnInfo ∧
        Scenario.env.VerifyHash
          ((Scenario.voteAt 1 1001 Scenario.S1).GetSignatureHash Scenario.env)
          mnInfo.pubKeyMasternode (Scenario.voteAt 1 1001 Scenario.S1).vchSig = true) :=
  ⟨⟨(Scenario.voteAt 1 1001 Scenario.S1).GetHash Scenario.env, by decide⟩,
   (checkSignature_true_only_if_verified_or_spork_off Scenario.env
      (Scenario.voteAt 1 1001 Scenario.S1)).2 (Scenario.storeAt 1000) Scenario.peer
     (Or.inr ⟨(Scenario.voteAt 1 1001 Scenario.S1).GetHash Scenario.env, by decide⟩)⟩

/-- C15, the claim as stated fails: on a node that is not a masternode, a vote
from a masternode the registry knows, with a sufficient protocol version, whose
block height equals the validation height (1000), so that it is at or before
it, still goes through the rank check and is rejected for rank 11 of 10. -/
theorem isValid_checks_rank_at_validation_height :
    Scenario.envRank11.fMasternodeMode = false ∧
    (∃ mnInfo, Scenario.envRank11.GetMasternodeInfo
        (Scenario.voteAt 1 1000 Scenario.S1).masternodeOutpoint = some mnInfo ∧
      ¬ mnInfo.nProtocolVersion < GetMinMasternodePaymentsProto Scenario.envRank11) ∧
    (Scenario.voteAt 1 1000 Scenario.S1).nBlockHeight ≤ 1000 ∧
    (Scenario.voteAt 1 1000 Scenario.S1).IsValid Scenario.envRank11 Scenario.peer 1000 =
      (false, []) := by
  refine ⟨rfl, ⟨_, rfl, by decide⟩, by decide, by decide⟩

/-- C15 as amended: for a vote from a masternode the registry knows, with a
sufficient protocol version.  On a node that is not a masternode, `IsValid`
skips the rank check and accepts the vote when its block height is strictly
below the validation height, whatever the voter's rank (the rank query is any
function here).  At the validation height and above on such a node, and at
every height on a masternode node, the rank check is performed: the vote is
accepted exactly when the rank query at `nBlockHeight - 101` answers with a rank
of at most `MNPAYMENTS_SIGNATURES_TOTAL`. -/
theorem isValid_skips_rank_below_validation_height (env : Env) (vote : CMasternodePaymentVote)
    (pnode : CNode) (nValidationHeight : Int) (mnInfo : masternode_info_t)
    (hinfo : env.GetMasternodeInfo vote.masternodeOutpoint = some mnInfo)
    (hproto : ¬ mnInfo.nProtocolVersion < GetMinMasternodePaymentsProto env) :
    (env.fMasternodeMode = false → vote.nBlockHeight < nValidationHeight →
      vote.IsValid env pnode nValidationHeight = (true, [])) ∧
    ((env.fMasternodeMode = true ∨ nValidationHeight ≤ vote.nBlockHeight) →
      ((vote.IsValid env pnode nValidationHeight).1 = true ↔
        ∃ nRank, env.GetMasternodeRank vote.masternodeOutpoint (vote.nBlockHeight - 101)
          (GetMinMasternodePaymentsProto env) = some nRank ∧
          nRank ≤ env.MNPAYMENTS_SIGNATURES_TOTAL)) := by
  constructor
  · intro hmode hbelow
    unfold CMasternodePaymentVote.IsValid
    simp only [hinfo, if_neg hproto]
    rw [if_pos ⟨by rw [hmode]; rfl, hbelow⟩]
  · intro hcheck
    have hnoskip : ¬ ((!env.fMasternodeMode) = true ∧ vote.nBlockHeight < nValidationHeight) := by
      rintro ⟨hmode, hbelow⟩
      rcases hcheck with h | h
      · rw [h] at hmode
        exact absurd hmode (by simp)
      · exact absurd hbelow (not_lt.mpr h)
    unfold CMasternodePaymentVote.IsValid
    simp only [hinfo, if_neg hproto, if_neg hnoskip]
    cases hrank : env.GetMasternodeRank vote.masternodeOutpoint (vote.nBlockHeight - 101)
        (GetMinMasternodePaymentsProto env) with
    | none => simp
    | some nRank =>
      simp only []
      by_cases hover : nRank > env.MNPAYMENTS_SIGNATURES_TOTAL
      · have hnle : ¬ nRank ≤ env.MNPAYMENTS_SIGNATURES_TOTAL := not_le.mpr hover
        rw [if_pos hover]
        split_ifs <;> simp [hnle]
      · have hle : nRank ≤ env.MNPAYMENTS_SIGNATURES_TOTAL := not_lt.mp hover
        rw [if_neg hover]
        simp [hle]

/-- Witness for C15 as amended: on the scenario node, which is not a
masternode, the voter ranked 11th of 10 is accepted for height 999 at
validation height 1000. -/
theorem isValid_skips_rank_below_validation_height_witness :
    Scenario.envRank11.fMasternodeMode = false ∧
    (Scenario.voteAt 1 999 Scenario.S1).nBlockHeight < 1000 ∧
    (Scenario.voteAt 1 999 Scenario.S1).IsValid Scenario.envRank11 Scenario.peer 1000 =
      (true, []) :=
  ⟨rfl, by decide,
   (isValid_skips_rank_below_validation_height Scenario.envRank11
      (Scenario.voteAt 1 999 Scenario.S1) Scenario.peer 1000
      { outpoint := { hash := 1, n := 0 }, nProtocolVersion := 70208, pubKeyMasternode := [1],
        pubKeyCollateralAddress := [2] } rfl (by decide)).1 rfl (by decide)⟩

/-! ## The order of the checks -/

/-- C16, the claim as stated fails: with the tip at 1000 and the masternode list
synced, a vote for height 2000 from an outpoint the registry does not know is
dropped by the window check, which comes first: the only effect is the removal
of the hash from the peer's ask-for set, and no registry refresh is
requested. -/
theorem processMessage_unknown_voter_out_of_window :
    Scenario.envUnknown.IsMasternodeListSynced = true ∧
    Scenario.envUnknown.GetMasternodeInfo
      (Scenario.voteAt 1 2000 Scenario.S1).masternodeOutpoint = none ∧
    (ProcessMessage Scenario.envUnknown (Scenario.storeAt 1000) Scenario.peer
      (Command.MASTERNODEPAYMENTVOTE (Scenario.voteAt 1 2000 Scenario.S1))).2 =
      [Effect.EraseAskFor Scenario.peer.id
        ((Scenario.voteAt 1 2000 Scenario.S1).GetHash Scenario.envUnknown)] := by
  refine ⟨rfl, rfl, by decide⟩

/-- C16 as amended: the checks run in the order window, existence, protocol
floor, rank, signature, and each one that fails ends the handling whatever the
later ones would find.  For a vote message that reaches the checks (node not in
lite mode, peer version sufficient, masternode list synced, hash not stored as
verified):

* a height outside `[nCachedBlockHeight - GetStorageLimit(), nCachedBlockHeight + 20]`
  rejects the vote with no effect but the removal of the hash from the peer's
  ask-for set, whatever the registry holds: no registry refresh is requested;
* inside the window, an outpoint the registry does not resolve rejects the vote
  and requests a registry refresh for the outpoint from the origin peer;
* for a resolved outpoint, a protocol version below the minimum rejects the
  vote without penalty or request, whatever rank and signature are;
* for a sufficient protocol version, when the rank check is not skipped, a rank
  that is unavailable or above `MNPAYMENTS_SIGNATURES_TOTAL` rejects the vote,
  with `Misbehaving(peer, 20)` exactly for a rank above twice that total at a
  height above the tip, and without a refresh request, whatever the signature
  is;
* when the rank check is skipped or passed, a signature that `CheckSignature`
  refuses rejects the vote, with the penalty `nDos` when that is not zero and a
  registry refresh request.

In every one of these cases the store is left with the unverified record only:
tallies and last-vote index are unchanged. -/
theorem processMessage_check_order (env : Env) (s : CMasternodePayments) (pfrom : CNode)
    (vote : CMasternodePaymentVote) (hlite : env.fLiteMode = false)
    (hver : ¬ pfrom.nVersion < GetMinMasternodePaymentsProto env)
    (hsync : env.IsMasternodeListSynced = true)
    (hnew : HasVerifiedPaymentVote s (vote.GetHash env) = false) :
    ((vote.nBlockHeight < s.nCachedBlockHeight - GetStorageLimit env ∨
        vote.nBlockHeight > s.nCachedBlockHeight + 20) →
      ProcessMessage env s pfrom (Command.MASTERNODEPAYMENTVOTE vote) =
        (ProcessMessage.seen env s vote, [Effect.EraseAskFor pfrom.id (vote.GetHash env)])) ∧
    (¬ (vote.nBlockHeight < s.nCachedBlockHeight - GetStorageLimit env ∨
        vote.nBlockHeight > s.nCachedBlockHeight + 20) →
      (env.GetMasternodeInfo vote.masternodeOutpoint = none →
        ProcessMessage env s pfrom (Command.MASTERNODEPAYMENTVOTE vote) =
          (ProcessMessage.seen env s vote,
            [Effect.EraseAskFor pfrom.id (vote.GetHash env),
             Effect.AskForMN pfrom.id vote.masternodeOutpoint])) ∧
      (∀ mnInfo, env.GetMasternodeInfo vote.masternodeOutpoint = some mnInfo →
        (mnInfo.nProtocolVersion < GetMinMasternodePaymentsProto env →
          ProcessMessage env s pfrom (Command.MASTERNODEPAYMENTVOTE vote) =
            (ProcessMessage.seen env s vote,
              [Effect.EraseAskFor pfrom.id (vote.GetHash env)])) ∧
        (¬ mnInfo.nProtocolVersion < GetMinMasternodePaymentsProto env →
          (¬ ((!env.fMasternodeMode) = true ∧ vote.nBlockHeight < s.nCachedBlockHeight) →
            (env.GetMasternodeRank vote.masternodeOutpoint (vote.nBlockHeight - 101)
                (GetMinMasternodePaymentsProto env) = none →
              ProcessMessage env s pfrom (Command.MASTERNODEPAYMENTVOTE vote) =
                (ProcessMessage.seen env s vote,
                  [Effect.EraseAskFor pfrom.id (vote.GetHash env)])) ∧
            (∀ nRank, env.GetMasternodeRank vote.masternodeOutpoint (vote.nBlockHeight - 101)
                (GetMinMasternodePaymentsProto env) = some nRank →
              nRank > env.MNPAYMENTS_SIGNATURES_TOTAL →
              ProcessMessage env s pfrom (Command.MASTERNODEPAYMENTVOTE vote) =
                (ProcessMessage.seen env s vote,
                  Effect.EraseAskFor pfrom.id (vote.GetHash env) ::
                    if nRank > env.MNPAYMENTS_SIGNATURES_TOTAL * 2 ∧
                        vote.nBlockHeight > s.nCachedBlockHeight then
                      [Effect.Misbehaving pfrom.id 20]
                    else []))) ∧
          ((((!env.fMasternodeMode) = true ∧ vote.nBlockHeight < s.nCachedBlockHeight) ∨
              ∃ nRank, env.GetMasternodeRank vote.masternodeOutpoint (vote.nBlockHeight - 101)
                (GetMinMasternodePaymentsProto env) = some nRank ∧
                nRank ≤ env.MNPAYMENTS_SIGNATURES_TOTAL) →
            (vote.CheckSignature env mnInfo.pubKeyMasternode s.nCachedBlockHeight).1 = false →
            ProcessMessage env s pfrom (Command.MASTERNODEPAYMENTVOTE vote) =
              (ProcessMessage.seen env s vote,
                Effect.EraseAskFor pfrom.id (vote.GetHash env) ::
                  ((if (vote.CheckSignature env mnInfo.pubKeyMasternode
                        s.nCachedBlockHeight).2 ≠ 0 then
                      [Effect.Misbehaving pfrom.id
                        (vote.CheckSignature env mnInfo.pubKeyMasternode s.nCachedBlockHeight).2]
                    else []) ++ [Effect.AskForMN pfrom.id vote.masternodeOutpoint])))))) ∧
    (ProcessMessage.seen env s vote).mapMasternodeBlocks = s.mapMasternodeBlocks ∧
    (ProcessMessage.seen env s vote).mapMasternodesLastVote = s.mapMasternodesLastVote := by
  have hseen := ProcessMessage.seen_fields env s vote
  have hrun := ProcessMessage_vote_checks env s pfrom vote hlite hver hsync hnew
  refine ⟨?_, ?_, hseen.1, hseen.2.1⟩
  · intro hout
    rw [hrun, if_pos hout]
  intro hwin
  refine ⟨?_, ?_⟩
  · intro hunknown
    rw [hrun, if_neg hwin]
    simp [ProcessMessage.afterWindow, CMasternodePaymentVote.IsValid, hunknown, hsync]
  intro mnInfo hinfo
  refine ⟨?_, ?_⟩
  · intro hold
    have hvalid : vote.IsValid env pfrom s.nCachedBlockHeight = (false, []) := by
      unfold CMasternodePaymentVote.IsValid
      simp only [hinfo, if_pos hold]
    rw [hrun, if_neg hwin, ProcessMessage.afterWindow_known env _ pfrom vote mnInfo hinfo,
      hseen.2.2, hvalid]
    simp
  intro hproto
  refine ⟨?_, ?_⟩
  · intro hnoskip
    refine ⟨?_, ?_⟩
    · intro hrank
      have hvalid : vote.IsValid env pfrom s.nCachedBlockHeight = (false, []) := by
        unfold CMasternodePaymentVote.IsValid
        simp only [hinfo, if_neg hproto, if_neg hnoskip, hrank]
      rw [hrun, if_neg hwin, ProcessMessage.afterWindow_known env _ pfrom vote mnInfo hinfo,
        hseen.2.2, hvalid]
      simp
    · intro nRank hrank hover
      have hvalid : vote.IsValid env pfrom s.nCachedBlockHeight =
          (false, if nRank > env.MNPAYMENTS_SIGNATURES_TOTAL * 2 ∧
              vote.nBlockHeight > s.nCachedBlockHeight then [Effect.Misbehaving pfrom.id 20]
            else []) := by
        unfold CMasternodePaymentVote.IsValid
        simp only [hinfo, if_neg hproto, if_neg hnoskip, hrank, if_pos hover]
        split_ifs <;> rfl
      rw [hrun, if_neg hwin, ProcessMessage.afterWindow_known env _ pfrom vote mnInfo hinfo,
        hseen.2.2, hvalid]
      simp
  · intro hpass hsig
    have hvalid : vote.IsValid env pfrom s.nCachedBlockHeight = (true, []) := by
      unfold CMasternodePaymentVote.IsValid
      simp only [hinfo, if_neg hproto]
      rcases hpass with hskip | ⟨nRank, hrank, hle⟩
      · rw [if_pos hskip]
      · by_cases hskip : (!env.fMasternodeMode) = true ∧
            vote.nBlockHeight < s.nCachedBlockHeight
        · rw [if_pos hskip]
        · rw [if_neg hskip]
          simp only [hrank, if_neg (not_lt.mpr hle)]
    rw [hrun, if_neg hwin, ProcessMessage.afterWindow_known env _ pfrom vote mnInfo hinfo,
      hseen.2.2, hvalid, hsig]
    simp

/-- Witness for C16 as amended, at the tip 1000 with a vote for height 1001,
inside the window: from the unknown voter of the scenario the vote is rejected
with a registry refresh request; from a known voter ranked 11th of 10 it is
rejected at the rank check without penalty or request; from a known voter of
rank 1 with a signature that does not verify it is rejected at the signature
check with a penalty of 20 and a refresh request. -/
theorem processMessage_check_order_witness :
    HasVerifiedPaymentVote (Scenario.storeAt 1000)
      ((Scenario.voteAt 1 1001 Scenario.S1).GetHash Scenario.envUnknown) = false ∧
    ¬ ((Scenario.voteAt 1 1001 Scenario.S1).nBlockHeight <
        (Scenario.storeAt 1000).nCachedBlockHeight - GetStorageLimit Scenario.envUnknown ∨
      (Scenario.voteAt 1 1001 Scenario.S1).nBlockHeight >
        (Scenario.storeAt 1000).nCachedBlockHeight + 20) ∧
    ProcessMessage Scenario.envUnknown (Scenario.storeAt 1000) Scenario.peer
        (Command.MASTERNODEPAYMENTVOTE (Scenario.voteAt 1 1001 Scenario.S1)) =
      (ProcessMessage.seen Scenario.envUnknown (Scenario.storeAt 1000)
          (Scenario.voteAt 1 1001 Scenario.S1),
        [Effect.EraseAskFor Scenario.peer.id
            ((Scenario.voteAt 1 1001 Scenario.S1).GetHash Scenario.envUnknown),
         Effect.AskForMN Scenario.peer.id
            (Scenario.voteAt 1 1001 Scenario.S1).masternodeOutpoint]) ∧
    ProcessMessage Scenario.envRank11 (Scenario.storeAt 1000) Scenario.peer
        (Command.MASTERNODEPAYMENTVOTE (Scenario.voteAt 1 1001 Scenario.S1)) =
      (ProcessMessage.seen Scenario.envRank11 (Scenario.storeAt 1000)
          (Scenario.voteAt 1 1001 Scenario.S1),
        [Effect.EraseAskFor Scenario.peer.id
            ((Scenario.voteAt 1 1001 Scenario.S1).GetHash Scenario.envRank11)]) ∧
    ProcessMessage Scenario.env (Scenario.storeAt 1000) Scenario.peer
        (Command.MASTERNODEPAYMENTVOTE (Scenario.unsignedVoteAt 1 1001 Scenario.S1)) =
      (ProcessMessage.seen Scenario.env (Scenario.storeAt 1000)
          (Scenario.unsignedVoteAt 1 1001 Scenario.S1),
        [Effect.EraseAskFor Scenario.peer.id
            ((Scenario.unsignedVoteAt 1 1001 Scenario.S1).GetHash Scenario.env),
         Effect.Misbehaving Scenario.peer.id 20,
         Effect.AskForMN Scenario.peer.id
            (Scenario.unsignedVoteAt 1 1001 Scenario.S1).masternodeOutpoint]) :=
  ⟨by decide, by decide,
   ((processMessage_check_order Scenario.envUnknown (Scenario.storeAt 1000) Scenario.peer
      (Scenario.voteAt 1 1001 Scenario.S1) rfl (by decide) rfl (by decide)).2.1 (by decide)).1
     rfl,
   ((((((processMessage_check_order Scenario.envRank11 (Scenario.storeAt 1000) Scenario.peer
      (Scenario.voteAt 1 1001 Scenario.S1) rfl (by decide) rfl (by decide)).2.1 (by decide)).2
        { outpoint := { hash := 1, n := 0 }, nProtocolVersion := 70208, pubKeyMasternode := [1],
          pubKeyCollateralAddress := [2] } rfl).2 (by decide)).1 (by decide)).2 11 rfl
        (by decide)),
   (((((processMessage_check_order Scenario.env (Scenario.storeAt 1000) Scenario.peer
      (Scenario.unsignedVoteAt 1 1001 Scenario.S1) rfl (by decide) rfl (by decide)).2.1
        (by decide)).2
        { outpoint := { hash := 1, n := 0 }, nProtocolVersion := 70208, pubKeyMasternode := [1],
          pubKeyCollateralAddress := [2] } rfl).2 (by decide)).2
        (Or.inr ⟨1, rfl, by decide⟩) (by decide))⟩

/-! ## Synchronisation with a peer -/

theorem HasVerifiedPaymentVote_iff (s : CMasternodePayments) (hashIn : uint256) :
    HasVerifiedPaymentVote s hashIn = true ↔
      ∃ v, StdMap.find s.mapMasternodePaymentVotes hashIn = some v ∧ v.IsVerified = true := by
  unfold HasVerifiedPaymentVote
  cases StdMap.find s.mapMasternodePaymentVotes hashIn with
  | none => simp
  | some v => simp

theorem Sync.mem_tallyHashes (s : CMasternodePayments) (t : CMasternodeBlockPayees)
    (hash : uint256) :
    hash ∈ Sync.tallyHashes s t ↔
      ∃ payee ∈ t.vecPayees, hash ∈ payee.GetVoteHashes ∧
        HasVerifiedPaymentVote s hash = true := by
  unfold Sync.tallyHashes
  simp only [List.mem_flatten, List.mem_map]
  constructor
  · rintro ⟨l, ⟨payee, hp, rfl⟩, hmem⟩
    obtain ⟨h1, h2⟩ := List.mem_filter.mp hmem
    exact ⟨payee, hp, h1, h2⟩
  · rintro ⟨payee, hp, h1, h2⟩
    exact ⟨_, ⟨payee, hp, rfl⟩, List.mem_filter.mpr ⟨h1, h2⟩⟩

theorem Sync.mem_hashes (s : CMasternodePayments) (hash : uint256) :
    hash ∈ Sync.hashes s ↔
      ∃ h t, s.nCachedBlockHeight ≤ h ∧ h < s.nCachedBlockHeight + 20 ∧
        StdMap.find s.mapMasternodeBlocks h = some t ∧ hash ∈ Sync.tallyHashes s t := by
  unfold Sync.hashes
  simp only [List.mem_flatten, List.mem_map, List.mem_range]
  constructor
  · rintro ⟨l, ⟨i, hi, rfl⟩, hmem⟩
    cases hfind : StdMap.find s.mapMasternodeBlocks (s.nCachedBlockHeight + (i : Int)) with
    | none =>
      rw [hfind] at hmem
      simp at hmem
    | some t =>
      rw [hfind] at hmem
      exact ⟨_, t, by omega, by omega, hfind, hmem⟩
  · rintro ⟨h, t, hlo, hhi, hfind, hmem⟩
    refine ⟨_, ⟨(h - s.nCachedBlockHeight).toNat, by omega, rfl⟩, ?_⟩
    have hh : s.nCachedBlockHeight + ((h - s.nCachedBlockHeight).toNat : Int) = h := by omega
    rw [hh, hfind]
    exact hmem

/-- C17: when the winners list is synced, `Sync` pushes one inventory item per
entry of a list of hashes and then one `SYNCSTATUSCOUNT` message whose count is
the length of that list; a hash is in the list exactly when it is a vote hash
of some payee in the tally of a height `h` with
`nCachedBlockHeight ≤ h < nCachedBlockHeight + 20` and the vote map holds a
verified record under it. -/
theorem sync_advertises_verified_window (env : Env) (s : CMasternodePayments) (pnode : CNode)
    (hsynced : env.IsWinnersListSynced = true) :
    ∃ advertised : List uint256,
      Sync env s pnode =
        advertised.map (fun hash => Effect.PushInventory pnode.id hash) ++
          [Effect.PushSyncStatusCount pnode.id (advertised.length : Int)] ∧
      ∀ hash, hash ∈ advertised ↔
        ∃ h t payee, s.nCachedBlockHeight ≤ h ∧ h < s.nCachedBlockHeight + 20 ∧
          StdMap.find s.mapMasternodeBlocks h = some t ∧ payee ∈ t.vecPayees ∧
          hash ∈ payee.GetVoteHashes ∧
          ∃ v, StdMap.find s.mapMasternodePaymentVotes hash = some v ∧ v.IsVerified = true := by
  refine ⟨Sync.hashes s, ?_, ?_⟩
  · unfold Sync
    rw [hsynced]
    rfl
  · intro hash
    rw [Sync.mem_hashes]
    constructor
    · rintro ⟨h, t, hlo, hhi, hfind, hmem⟩
      obtain ⟨payee, hp, hin, hver⟩ := (Sync.mem_tallyHashes s t hash).mp hmem
      exact ⟨h, t, payee, hlo, hhi, hfind, hp, hin, (HasVerifiedPaymentVote_iff s hash).mp hver⟩
    · rintro ⟨h, t, payee, hlo, hhi, hfind, hp, hin, hver⟩
      exact ⟨h, t, hlo, hhi, hfind, (Sync.mem_tallyHashes s t hash).mpr
        ⟨payee, hp, hin, (HasVerifiedPaymentVote_iff s hash).mpr hver⟩⟩

/-- Witness for C17: the scenario store (five verified votes at height 1000)
seen from the tip 990. -/
theorem sync_advertises_verified_window_witness :
    Scenario.env.IsWinnersListSynced = true ∧
    ∃ advertised : List uint256,
      Sync Scenario.env (Scenario.store5At 990) Scenario.peer =
        advertised.map (fun hash => Effect.PushInventory Scenario.peer.id hash) ++
          [Effect.PushSyncStatusCount Scenario.peer.id (advertised.length : Int)] ∧
      ∀ hash, hash ∈ advertised ↔
        ∃ h t payee, (Scenario.store5At 990).nCachedBlockHeight ≤ h ∧
          h < (Scenario.store5At 990).nCachedBlockHeight + 20 ∧
          StdMap.find (Scenario.store5At 990).mapMasternodeBlocks h = some t ∧
          payee ∈ t.vecPayees ∧ hash ∈ payee.GetVoteHashes ∧
          ∃ v, StdMap.find (Scenario.store5At 990).mapMasternodePaymentVotes hash = some v ∧
            v.IsVerified = true :=
  ⟨rfl, sync_advertises_verified_window Scenario.env (Scenario.store5At 990) Scenario.peer rfl⟩

/-! ## Scheduling and block production -/

theorem GetBestPayee.loop_ge (payees : List CMasternodePayee) (payeeRet : CScript)
    (nVotes : Int) : nVotes ≤ (GetBestPayee.loop payees payeeRet nVotes).2 := by
  induction payees generalizing payeeRet nVotes with
  | nil => exact le_refl _
  | cons p rest ih =>
    by_cases h : p.GetVoteCount > nVotes
    · rw [GetBestPayee.loop, if_pos h]
      exact le_trans (le_of_lt h) (ih _ _)
    · rw [GetBestPayee.loop, if_neg h]
      exact ih _ _

theorem GetBestPayee.loop_start (payees : List CMasternodePayee) (payeeRet other : CScript)
    (nVotes : Int) :
    GetBestPayee.loop payees payeeRet nVotes =
      if (GetBestPayee.loop payees other nVotes).2 > nVotes then
        GetBestPayee.loop payees other nVotes
      else (payeeRet, nVotes) := by
  induction payees generalizing payeeRet other nVotes with
  | nil => simp [GetBestPayee.loop]
  | cons p rest ih =>
    by_cases h : p.GetVoteCount > nVotes
    · have hge := GetBestPayee.loop_ge rest p.GetPayee p.GetVoteCount
      have hgt : (GetBestPayee.loop rest p.GetPayee p.GetVoteCount).2 > nVotes :=
        lt_of_lt_of_le h hge
      simp only [GetBestPayee.loop, if_pos h, if_pos hgt]
    · simp only [GetBestPayee.loop, if_neg h]
      exact ih payeeRet other nVotes

/-- A successful `GetBlockPayee` does not depend on the initial value of its
out-parameter. -/
theorem GetBlockPayee_start (s : CMasternodePayments) (nBlockHeight : Int)
    (payeeRet other : CScript) :
    (GetBlockPayee s nBlockHeight payeeRet).1 = (GetBlockPayee s nBlockHeight other).1 ∧
    ((GetBlockPayee s nBlockHeight payeeRet).1 = true →
      (GetBlockPayee s nBlockHeight payeeRet).2 = (GetBlockPayee s nBlockHeight other).2) ∧
    ((GetBlockPayee s nBlockHeight payeeRet).1 = false →
      (GetBlockPayee s nBlockHeight payeeRet).2 = payeeRet) := by
  unfold GetBlockPayee
  cases StdMap.find s.mapMasternodeBlocks nBlockHeight with
  | none => simp
  | some t =>
    simp only [CMasternodeBlockPayees.GetBestPayee]
    cases hemp : t.vecPayees.isEmpty with
    | true => simp
    | false =>
      simp only [Bool.false_eq_true, if_false]
      rw [GetBestPayee.loop_start t.vecPayees payeeRet other (-1)]
      by_cases hgt : (GetBestPayee.loop t.vecPayees other (-1)).2 > -1
      · simp [hgt]
      · simp [hgt]

theorem IsScheduled.loop_iff (s : CMasternodePayments) (mnpayee : CScript)
    (nNotBlockHeight : Int) (heights : List Int) (payee : CScript) :
    IsScheduled.loop s mnpayee nNotBlockHeight heights payee = true ↔
      ∃ h ∈ heights, h ≠ nNotBlockHeight ∧ GetBlockPayee s h [] = (true, mnpayee) := by
  induction heights generalizing payee with
  | nil => simp [IsScheduled.loop]
  | cons h rest ih =>
    by_cases hnot : h = nNotBlockHeight
    · rw [IsScheduled.loop, if_pos hnot, ih]
      constructor
      · rintro ⟨h', hmem, hne, hpay⟩
        exact ⟨h', List.mem_cons_of_mem _ hmem, hne, hpay⟩
      · rintro ⟨h', hmem, hne, hpay⟩
        rcases List.mem_cons.mp hmem with heq | hmem
        · exact absurd (heq ▸ hnot) hne
        · exact ⟨h', hmem, hne, hpay⟩
    · rw [IsScheduled.loop, if_neg hnot]
      obtain ⟨hsame, hsucc, _⟩ := GetBlockPayee_start s h payee []
      by_cases hfound : (GetBlockPayee s h payee).1 = true ∧ mnpayee = (GetBlockPayee s h payee).2
      · simp only [if_pos hfound, true_iff]
        refine ⟨h, List.mem_cons_self _ _, hnot, ?_⟩
        apply Prod.ext
        · rw [← hsame]
          exact hfound.1
        · rw [← hsucc hfound.1]
          exact hfound.2.symm
      · simp only [if_neg hfound]
        rw [ih]
        constructor
        · rintro ⟨h', hmem, hne, hpay⟩
          exact ⟨h', List.mem_cons_of_mem _ hmem, hne, hpay⟩
        · rintro ⟨h', hmem, hne, hpay⟩
          rcases List.mem_cons.mp hmem with heq | hmem
          · exfalso
            apply hfound
            subst heq
            have h1 : (GetBlockPayee s h' payee).1 = true := by rw [hsame, hpay]
            refine ⟨h1, ?_⟩
            rw [hsucc h1, hpay]
          · exact ⟨h', hmem, hne, hpay⟩

/-- C18, the claim as stated fails: on the synced scenario node with the tip at
1000 and no tally at all, the fallback payee of height 1000 (the output
`FillBlockPayee` builds from the registry's next masternode due payment) is the
collateral script of that masternode, yet `IsScheduled` returns false for it. -/
theorem isScheduled_ignores_fallback_payee :
    Scenario.env.IsMasternodeListSynced = true ∧
    payeeFor Scenario.env (Scenario.storeAt 1000) 1000 =
      some (Scenario.env.GetScriptForDestination Scenario.dueInfo.pubKeyCollateralAddress) ∧
    IsScheduled Scenario.env (Scenario.storeAt 1000) Scenario.dueInfo 0 = false := by
  refine ⟨rfl, by decide, by decide⟩

/-- C18 as amended: when the masternode list is synced, `IsScheduled` returns
true exactly when there is a height `h` with
`nCachedBlockHeight ≤ h ≤ nCachedBlockHeight + 8` and `h ≠ nNotBlockHeight`
whose tallied best payee (`GetBlockPayee` succeeds) is the collateral-address
script of `mnInfo`; fallback payees are not looked at.  When the list is not
synced it returns false. -/
theorem isScheduled_iff_tallied_payee (env : Env) (s : CMasternodePayments)
    (mnInfo : masternode_info_t) (nNotBlockHeight : Int) :
    (env.IsMasternodeListSynced = true →
      (IsScheduled env s mnInfo nNotBlockHeight = true ↔
        ∃ h, s.nCachedBlockHeight ≤ h ∧ h ≤ s.nCachedBlockHeight + 8 ∧ h ≠ nNotBlockHeight ∧
          GetBlockPayee s h [] =
            (true, env.GetScriptForDestination mnInfo.pubKeyCollateralAddress))) ∧
    (env.IsMasternodeListSynced = false → IsScheduled env s mnInfo nNotBlockHeight = false) := by
  constructor
  · intro hsync
    unfold IsScheduled
    simp only [hsync, Bool.not_true, Bool.false_eq_true, if_false]
    rw [IsScheduled.loop_iff]
    constructor
    · rintro ⟨h, hmem, hne, hpay⟩
      obtain ⟨i, hi, rfl⟩ := List.mem_map.mp hmem
      have hi9 := List.mem_range.mp hi
      exact ⟨_, by omega, by omega, hne, hpay⟩
    · rintro ⟨h, hlo, hhi, hne, hpay⟩
      refine ⟨h, List.mem_map.mpr ⟨(h - s.nCachedBlockHeight).toNat,
        List.mem_range.mpr (by omega), by omega⟩, hne, hpay⟩
  · intro hsync
    simp [IsScheduled, hsync]

/-- Witness for C18 as amended: with the tip at 995, the scenario store has S1
as tallied best payee at height 1000, and the masternode with collateral script
S1 is scheduled. -/
theorem isScheduled_iff_tallied_payee_witness :
    Scenario.env.IsMasternodeListSynced = true ∧
    IsScheduled Scenario.env (Scenario.store5At 995)
      { outpoint := { hash := 1, n := 0 }, nProtocolVersion := 70208, pubKeyMasternode := [1],
        pubKeyCollateralAddress := Scenario.S1 } 0 = true :=
  ⟨rfl,
   ((isScheduled_iff_tallied_payee Scenario.env (Scenario.store5At 995)
      { outpoint := { hash := 1, n := 0 }, nProtocolVersion := 70208, pubKeyMasternode := [1],
        pubKeyCollateralAddress := Scenario.S1 } 0).1 rfl).mpr
     ⟨1000, by decide, by decide, by decide, by decide⟩⟩

/-- C19: `FillBlockPayee` overwrites the out-parameter and then: if
`GetBlockPayee` yields a tallied best payee for the height, it returns true
with the output `(payment, best payee)`, whatever the registry would choose;
otherwise, if the registry names a next masternode due payment, it returns true
with the output `(payment, collateral script of that masternode)`; in both
cases the transaction's outputs are the previous ones followed by exactly that
output; if neither yields a payee it returns false, the out-parameter is the
null output `CTxOut()` and the transaction is unchanged. -/
theorem fillBlockPayee_spec (env : Env) (s : CMasternodePayments) (txNew : CTransaction)
    (nBlockHeight : Int) (payment : CAmount) :
    (∀ best, GetBlockPayee s nBlockHeight [] = (true, best) →
      FillBlockPayee env s txNew nBlockHeight payment =
        (true, { vout := txNew.vout ++ [{ nValue := payment, scriptPubKey := best }] },
          { nValue := payment, scriptPubKey := best })) ∧
    ((GetBlockPayee s nBlockHeight []).1 = false →
      ∀ mnInfo, env.GetNextMasternodeInQueueForPayment nBlockHeight = some mnInfo →
      FillBlockPayee env s txNew nBlockHeight payment =
        (true,
          { vout := txNew.vout ++
              [{ nValue := payment,
                 scriptPubKey := env.GetScriptForDestination mnInfo.pubKeyCollateralAddress }] },
          { nValue := payment,
            scriptPubKey := env.GetScriptForDestination mnInfo.pubKeyCollateralAddress })) ∧
    ((GetBlockPayee s nBlockHeight []).1 = false →
      env.GetNextMasternodeInQueueForPayment nBlockHeight = none →
      FillBlockPayee env s txNew nBlockHeight payment = (false, txNew, CTxOut.null)) := by
  refine ⟨?_, ?_, ?_⟩
  · intro best hbest
    unfold FillBlockPayee
    simp only [hbest, Bool.not_true, Bool.false_eq_true, if_false]
  · intro hnone mnInfo hdue
    unfold FillBlockPayee
    simp only [hnone, Bool.not_false, if_true, hdue]
  · intro hnone hdue
    unfold FillBlockPayee
    simp only [hnone, Bool.not_false, if_true, hdue]

/-- Witness for C19: on the scenario store the tallied payee S1 of height 1000
is paid although the registry names another masternode, and without a
masternode due payment an untallied height yields no output. -/
theorem fillBlockPayee_spec_witness :
    GetBlockPayee Scenario.store5 1000 [] = (true, Scenario.S1) ∧
    FillBlockPayee Scenario.env Scenario.store5 { vout := [] } 1000 500 =
      (true, { vout := [] ++ [{ nValue := 500, scriptPubKey := Scenario.S1 }] },
        { nValue := 500, scriptPubKey := Scenario.S1 }) ∧
    FillBlockPayee Scenario.envNoQueue Scenario.store5 { vout := [] } 1001 500 =
      (false, { vout := [] }, CTxOut.null) :=
  ⟨by decide,
   (fillBlockPayee_spec Scenario.env Scenario.store5 { vout := [] } 1000 500).1 Scenario.S1
     (by decide),
   (fillBlockPayee_spec Scenario.envNoQueue Scenario.store5 { vout := [] } 1001 500).2.2
     (by decide) rfl⟩

/-! ## The last-vote index and the tally are not updated together -/

/-- C20, the claim as stated fails: a node that is not a masternode, with the
tip at 1000, handles the valid, signed vote of masternode 1 for height 960 while
the chain index cannot resolve the anchor block 859.  Every check passes (the
rank check is skipped below the tip), `UpdateLastVote` records height 960 for
the masternode, and `AddOrUpdatePaymentVote` refuses the vote: the tallies stay
empty but the last-vote index has changed.  When the same vote is delivered
again after the chain resolves the anchor, it is turned down as already voted
and still not tallied, whereas the store before the first delivery would have
tallied it. -/
theorem processMessage_index_kept_without_tally :
    Scenario.envReorg.GetBlockHash ((Scenario.voteAt 1 960 Scenario.S1).nBlockHeight - 101) =
      none ∧
    (ProcessMessage Scenario.envReorg (Scenario.storeAt 1000) Scenario.peer
      (Command.MASTERNODEPAYMENTVOTE (Scenario.voteAt 1 960 Scenario.S1))).1.mapMasternodeBlocks =
      [] ∧
    (Scenario.storeAt 1000).mapMasternodesLastVote = [] ∧
    (ProcessMessage Scenario.envReorg (Scenario.storeAt 1000) Scenario.peer
      (Command.MASTERNODEPAYMENTVOTE
        (Scenario.voteAt 1 960 Scenario.S1))).1.mapMasternodesLastVote =
      [({ hash := 1, n := 0 }, 960)] ∧
    (ProcessMessage Scenario.env
      (ProcessMessage Scenario.envReorg (Scenario.storeAt 1000) Scenario.peer
        (Command.MASTERNODEPAYMENTVOTE (Scenario.voteAt 1 960 Scenario.S1))).1
      Scenario.peer
      (Command.MASTERNODEPAYMENTVOTE (Scenario.voteAt 1 960 Scenario.S1))).1.mapMasternodeBlocks =
      [] ∧
    (ProcessMessage Scenario.env (Scenario.storeAt 1000) Scenario.peer
      (Command.MASTERNODEPAYMENTVOTE (Scenario.voteAt 1 960 Scenario.S1))).1.mapMasternodeBlocks ≠
      [] := by
  refine ⟨by decide, by decide, by decide, by decide, by decide, by decide⟩

theorem AddOrUpdatePaymentVote_false_unchanged (env : Env) (s : CMasternodePayments)
    (vote : CMasternodePaymentVote) (h : (AddOrUpdatePaymentVote env s vote).1 = false) :
    (AddOrUpdatePaymentVote env s vote).2 = s := by
  by_cases hblock : env.GetBlockHash (vote.nBlockHeight - 101) = none
  · rw [AddOrUpdatePaymentVote_refuse env s vote (Or.inl hblock)]
  · cases hver : HasVerifiedPaymentVote s (vote.GetHash env) with
    | true => rw [AddOrUpdatePaymentVote_refuse env s vote (Or.inr hver)]
    | false =>
      rw [AddOrUpdatePaymentVote_accept env s vote hblock hver] at h
      exact absurd h (by simp)

/-- After `AddPayee`, the payee list has an entry for the vote's payee that
holds the vote's hash. -/
theorem AddPayee_loop_mem (vote : CMasternodePaymentVote) (nVoteHash : uint256)
    (payees : List CMasternodePayee) :
    ∃ entry ∈ AddPayee.loop vote nVoteHash payees,
      entry.GetPayee = vote.payee ∧ nVoteHash ∈ entry.GetVoteHashes := by
  rcases AddPayee_loop_spec vote nVoteHash payees with
    ⟨b, e, a, _, he, _, hloop⟩ | ⟨_, hloop⟩
  · refine ⟨e.AddVoteHash nVoteHash, ?_, (e.AddVoteHash_GetPayee nVoteHash).trans he,
      (e.mem_AddVoteHash nVoteHash nVoteHash).mpr (Or.inr rfl)⟩
    rw [hloop]
    simp
  · refine ⟨CMasternodePayee.create vote.payee nVoteHash vote.nStartHeight, ?_, rfl, ?_⟩
    · rw [hloop]
      simp
    · simp [CMasternodePayee.create, CMasternodePayee.GetVoteHashes]

/-- C20 as amended: handling a vote message is not atomic with respect to the
last-vote index and the tally; what it does to them is decided check by check.

* A vote turned down before the checks (lite mode, peer version too old,
  masternode list not synced, hash already stored as verified) leaves the whole
  store as it was.
* A vote that reaches the checks and is turned down by one of them (out of
  window, `IsValid` false, outpoint unknown to the registry, signature refused,
  or the last-vote index already holding the vote's height for the voter, which
  is when `UpdateLastVote` returns false) leaves tallies and last-vote index as
  they were.
* A vote that passes every check, so that `UpdateLastVote` accepts it, and whose
  anchor block hash for `nBlockHeight - 101` does not resolve is refused by
  `AddOrUpdatePaymentVote`: the tallies are unchanged, but the index now holds
  the vote's height for the voter (other outpoints as before), nothing is
  relayed, and handling the same vote again, in any environment and from any
  peer, changes neither tallies nor index: the vote is not accepted on
  redelivery.
* A vote that passes every check and whose anchor block hash resolves is
  ingested: the index holds its height, the tally of its height has an entry
  for its payee that holds its hash, and the vote is relayed. -/
theorem processMessage_index_and_tally_by_check (env : Env) (s : CMasternodePayments)
    (pfrom : CNode) (vote : CMasternodePaymentVote) :
    ((env.fLiteMode = true ∨ pfrom.nVersion < GetMinMasternodePaymentsProto env ∨
        env.IsMasternodeListSynced = false ∨
        HasVerifiedPaymentVote s (vote.GetHash env) = true) →
      (ProcessMessage env s pfrom (Command.MASTERNODEPAYMENTVOTE vote)).1 = s) ∧
    (env.fLiteMode = false → ¬ pfrom.nVersion < GetMinMasternodePaymentsProto env →
      env.IsMasternodeListSynced = true →
      HasVerifiedPaymentVote s (vote.GetHash env) = false →
      (((vote.nBlockHeight < s.nCachedBlockHeight - GetStorageLimit env ∨
            vote.nBlockHeight > s.nCachedBlockHeight + 20) ∨
          (vote.IsValid env pfrom s.nCachedBlockHeight).1 = false ∨
          env.GetMasternodeInfo vote.masternodeOutpoint = none ∨
          (∃ mnInfo, env.GetMasternodeInfo vote.masternodeOutpoint = some mnInfo ∧
            (vote.CheckSignature env mnInfo.pubKeyMasternode s.nCachedBlockHeight).1 = false) ∨
          StdMap.find s.mapMasternodesLastVote vote.masternodeOutpoint =
            some vote.nBlockHeight) →
        (ProcessMessage env s pfrom (Command.MASTERNODEPAYMENTVOTE vote)).1 =
          ProcessMessage.seen env s vote ∧
        (ProcessMessage env s pfrom (Command.MASTERNODEPAYMENTVOTE vote)).1.mapMasternodeBlocks =
          s.mapMasternodeBlocks ∧
        (ProcessMessage env s pfrom
          (Command.MASTERNODEPAYMENTVOTE vote)).1.mapMasternodesLastVote =
          s.mapMasternodesLastVote) ∧
      (¬ (vote.nBlockHeight < s.nCachedBlockHeight - GetStorageLimit env ∨
            vote.nBlockHeight > s.nCachedBlockHeight + 20) →
        (vote.IsValid env pfrom s.nCachedBlockHeight).1 = true →
        (∃ mnInfo, env.GetMasternodeInfo vote.masternodeOutpoint = some mnInfo ∧
          (vote.CheckSignature env mnInfo.pubKeyMasternode s.nCachedBlockHeight).1 = true) →
        StdMap.find s.mapMasternodesLastVote vote.masternodeOutpoint ≠
          some vote.nBlockHeight →
        (env.GetBlockHash (vote.nBlockHeight - 101) = none →
          ProcessMessage env s pfrom (Command.MASTERNODEPAYMENTVOTE vote) =
            ((UpdateLastVote (ProcessMessage.seen env s vote) vote).2,
              [Effect.EraseAskFor pfrom.id (vote.GetHash env)]) ∧
          (ProcessMessage env s pfrom
            (Command.MASTERNODEPAYMENTVOTE vote)).1.mapMasternodeBlocks =
            s.mapMasternodeBlocks ∧
          StdMap.find
            (ProcessMessage env s pfrom
              (Command.MASTERNODEPAYMENTVOTE vote)).1.mapMasternodesLastVote
            vote.masternodeOutpoint = some vote.nBlockHeight ∧
          (∀ outpoint, outpoint ≠ vote.masternodeOutpoint →
            StdMap.find
              (ProcessMessage env s pfrom
                (Command.MASTERNODEPAYMENTVOTE vote)).1.mapMasternodesLastVote outpoint =
              StdMap.find s.mapMasternodesLastVote outpoint) ∧
          ∀ (env2 : Env) (pfrom2 : CNode),
            (ProcessMessage env2
              (ProcessMessage env s pfrom (Command.MASTERNODEPAYMENTVOTE vote)).1 pfrom2
              (Command.MASTERNODEPAYMENTVOTE vote)).1.mapMasternodeBlocks =
              s.mapMasternodeBlocks ∧
            (ProcessMessage env2
              (ProcessMessage env s pfrom (Command.MASTERNODEPAYMENTVOTE vote)).1 pfrom2
              (Command.MASTERNODEPAYMENTVOTE vote)).1.mapMasternodesLastVote =
              (ProcessMessage env s pfrom
                (Command.MASTERNODEPAYMENTVOTE vote)).1.mapMasternodesLastVote) ∧
        (env.GetBlockHash (vote.nBlockHeight - 101) ≠ none →
          ProcessMessage env s pfrom (Command.MASTERNODEPAYMENTVOTE vote) =
            ((AddOrUpdatePaymentVote env
                (UpdateLastVote (ProcessMessage.seen env s vote) vote).2 vote).2,
              Effect.EraseAskFor pfrom.id (vote.GetHash env) ::
                (vote.Relay env ++ [Effect.BumpAssetLastTime])) ∧
          StdMap.find
            (ProcessMessage env s pfrom
              (Command.MASTERNODEPAYMENTVOTE vote)).1.mapMasternodesLastVote
            vote.masternodeOutpoint = some vote.nBlockHeight ∧
          ∃ t entry,
            StdMap.find
              (ProcessMessage env s pfrom
                (Command.MASTERNODEPAYMENTVOTE vote)).1.mapMasternodeBlocks
              vote.nBlockHeight = some t ∧
            entry ∈ t.vecPayees ∧ entry.GetPayee = vote.payee ∧
            vote.GetHash env ∈ entry.GetVoteHashes))) := by
  have hseen := ProcessMessage.seen_fields env s vote
  constructor
  · intro hearly
    unfold ProcessMessage
    cases hlite : env.fLiteMode with
    | true => rfl
    | false =>
      simp only [Bool.false_eq_true, if_false]
      rw [ProcessMessage.vote_eq]
      by_cases hver : pfrom.nVersion < GetMinMasternodePaymentsProto env
      · rw [if_pos hver]
      · rw [if_neg hver]
        cases hsync : env.IsMasternodeListSynced with
        | false => rfl
        | true =>
          simp only [Bool.true_eq_false, if_false]
          cases hknown : HasVerifiedPaymentVote s (vote.GetHash env) with
          | true => rfl
          | false =>
            exfalso
            rcases hearly with h | h | h | h
            · rw [hlite] at h
              exact absurd h (by simp)
            · exact hver h
            · rw [hsync] at h
              exact absurd h (by simp)
            · rw [hknown] at h
              exact absurd h (by simp)
  · intro hlite hver hsync hnew
    have hrun := ProcessMessage_vote_checks env s pfrom vote hlite hver hsync hnew
    constructor
    · intro hrejected
      have hstore : (ProcessMessage env s pfrom (Command.MASTERNODEPAYMENTVOTE vote)).1 =
          ProcessMessage.seen env s vote := by
        rw [hrun]
        by_cases hout : vote.nBlockHeight < s.nCachedBlockHeight - GetStorageLimit env ∨
            vote.nBlockHeight > s.nCachedBlockHeight + 20
        · rw [if_pos hout]
        · rw [if_neg hout]
          rcases ProcessMessage.afterWindow_cases env (ProcessMessage.seen env s vote) pfrom
              vote with ⟨h, _⟩ | ⟨hvalid, ⟨mnInfo, hinfo, hsig⟩, hlast, _⟩
          · exact h
          · exfalso
            rw [hseen.2.2] at hvalid hsig
            rcases hrejected with h | h | h | ⟨mn, hmn, h⟩ | h
            · exact hout h
            · rw [hvalid] at h
              exact absurd h (by simp)
            · rw [hinfo] at h
              exact absurd h (by simp)
            · rw [hinfo] at hmn
              rw [← Option.some.inj hmn, hsig] at h
              exact absurd h (by simp)
            · rw [← hseen.2.1] at h
              have := (UpdateLastVote_false_iff (ProcessMessage.seen env s vote) vote).mpr h
              rw [hlast] at this
              exact absurd this (by simp)
      rw [hstore]
      exact ⟨rfl, hseen.1, hseen.2.1⟩
    · intro hwin hvalid hsigned hfresh
      obtain ⟨mnInfo, hinfo, hsig⟩ := hsigned
      have hlast : (UpdateLastVote (ProcessMessage.seen env s vote) vote).1 = true := by
        cases hl : (UpdateLastVote (ProcessMessage.seen env s vote) vote).1 with
        | true => rfl
        | false =>
          have := (UpdateLastVote_false_iff (ProcessMessage.seen env s vote) vote).mp hl
          rw [hseen.2.1] at this
          exact absurd this hfresh
      have hPM : ProcessMessage env s pfrom (Command.MASTERNODEPAYMENTVOTE vote) =
          ((AddOrUpdatePaymentVote env
              (UpdateLastVote (ProcessMessage.seen env s vote) vote).2 vote).2,
            Effect.EraseAskFor pfrom.id (vote.GetHash env) ::
              if (AddOrUpdatePaymentVote env
                  (UpdateLastVote (ProcessMessage.seen env s vote) vote).2 vote).1 = true then
                vote.Relay env ++ [Effect.BumpAssetLastTime]
              else []) := by
        rw [hrun, if_neg hwin, ProcessMessage.afterWindow_known env _ pfrom vote mnInfo hinfo,
          hseen.2.2, hvalid, hsig, hlast]
        simp
      have hself : StdMap.find
          (UpdateLastVote (ProcessMessage.seen env s vote) vote).2.mapMasternodesLastVote
          vote.masternodeOutpoint = some vote.nBlockHeight :=
        UpdateLastVote_find_self _ vote
      constructor
      · intro hblock
        have hadd := AddOrUpdatePaymentVote_refuse env
          (UpdateLastVote (ProcessMessage.seen env s vote) vote).2 vote (Or.inl hblock)
        have hPM1 : ProcessMessage env s pfrom (Command.MASTERNODEPAYMENTVOTE vote) =
            ((UpdateLastVote (ProcessMessage.seen env s vote) vote).2,
              [Effect.EraseAskFor pfrom.id (vote.GetHash env)]) := by
          rw [hPM, hadd]
          simp
        rw [hPM1]
        refine ⟨rfl, ?_, hself, ?_, ?_⟩
        · simp only []
          rw [(UpdateLastVote_maps _ vote).2]
          exact hseen.1
        · intro outpoint hne
          simp only []
          rw [UpdateLastVote_find_ne _ vote outpoint hne, hseen.2.1]
        · intro env2 pfrom2
          simp only []
          rcases ProcessMessage_vote_cases env2
              (UpdateLastVote (ProcessMessage.seen env s vote) vote).2 pfrom2 vote with
            ⟨hblocks2, hindex2, _, _⟩ | ⟨_, _, _, _, _, _, _, hlast2, _⟩
          · refine ⟨?_, hindex2⟩
            rw [hblocks2, (UpdateLastVote_maps _ vote).2]
            exact hseen.1
          · exfalso
            have hfind2 : StdMap.find
                (ProcessMessage.seen env2
                  (UpdateLastVote (ProcessMessage.seen env s vote) vote).2
                  vote).mapMasternodesLastVote vote.masternodeOutpoint =
                some vote.nBlockHeight := by
              rw [(ProcessMessage.seen_fields env2 _ vote).2.1]
              exact hself
            have := (UpdateLastVote_false_iff _ vote).mpr hfind2
            rw [hlast2] at this
            exact absurd this (by simp)
      · intro hblock
        have hunverified : HasVerifiedPaymentVote
            (UpdateLastVote (ProcessMessage.seen env s vote) vote).2 (vote.GetHash env) =
            false := by
          obtain ⟨record, hfind, hflag, _⟩ := (ProcessMessage.seen_find env s vote).1
          unfold HasVerifiedPaymentVote
          rw [(UpdateLastVote_maps _ vote).1, hfind]
          exact hflag
        have hacc := AddOrUpdatePaymentVote_accept env
          (UpdateLastVote (ProcessMessage.seen env s vote) vote).2 vote hblock hunverified
        obtain ⟨t, ht, hvec⟩ := AddOrUpdatePaymentVote_payeesAt env
          (UpdateLastVote (ProcessMessage.seen env s vote) vote).2 vote hblock hunverified
        obtain ⟨entry, hentry, hpayee, hhash⟩ := AddPayee_loop_mem vote (vote.GetHash env)
          (payeesAt (UpdateLastVote (ProcessMessage.seen env s vote) vote).2 vote.nBlockHeight)
        have hadded : (AddOrUpdatePaymentVote env
            (UpdateLastVote (ProcessMessage.seen env s vote) vote).2 vote).1 = true := by
          rw [hacc]
        refine ⟨?_, ?_, t, entry, ?_, ?_, hpayee, hhash⟩
        · rw [hPM, if_pos hadded]
        · rw [hPM]
          simp only []
          rw [hacc]
          exact hself
        · rw [hPM]
          exact ht
        · rw [hvec]
          exact hentry

/-- Witness for C20 as amended: the scenario of the reorganising chain.  The
vote of masternode 1 for height 960 passes every check at the tip 1000, its
anchor block 859 does not resolve, and handling leaves the tallies as they were
while the index takes height 960. -/
theorem processMessage_index_and_tally_by_check_witness :
    Scenario.envReorg.GetBlockHash ((Scenario.voteAt 1 960 Scenario.S1).nBlockHeight - 101) =
      none ∧
    (ProcessMessage Scenario.envReorg (Scenario.storeAt 1000) Scenario.peer
      (Command.MASTERNODEPAYMENTVOTE (Scenario.voteAt 1 960 Scenario.S1))).1.mapMasternodeBlocks =
      (Scenario.storeAt 1000).mapMasternodeBlocks ∧
    StdMap.find
      (ProcessMessage Scenario.envReorg (Scenario.storeAt 1000) Scenario.peer
        (Command.MASTERNODEPAYMENTVOTE
          (Scenario.voteAt 1 960 Scenario.S1))).1.mapMasternodesLastVote
      (Scenario.voteAt 1 960 Scenario.S1).masternodeOutpoint =
      some (Scenario.voteAt 1 960 Scenario.S1).nBlockHeight :=
  ⟨by decide,
   (((processMessage_index_and_tally_by_check Scenario.envReorg (Scenario.storeAt 1000)
      Scenario.peer (Scenario.voteAt 1 960 Scenario.S1)).2 rfl (by decide) rfl (by decide)).2
      (by decide) (by decide) ⟨_, rfl, by decide⟩ (by decide)).1 (by decide) |>.2.1,
   (((processMessage_index_and_tally_by_check Scenario.envReorg (Scenario.storeAt 1000)
      Scenario.peer (Scenario.voteAt 1 960 Scenario.S1)).2 rfl (by decide) rfl (by decide)).2
      (by decide) (by decide) ⟨_, rfl, by decide⟩ (by decide)).1 (by decide) |>.2.2.1⟩

/-! ## What message handling leaves in the vote map -/

/-- C21, the claim as stated fails: with the tip at 1000, the vote of masternode
1 for height 2000 is rejected as out of window, yet the vote map, which had no
entry under its hash, afterwards holds a copy of the vote marked as not
verified. -/
theorem processMessage_stores_rejected_vote :
    StdMap.find (Scenario.storeAt 1000).mapMasternodePaymentVotes
      ((Scenario.voteAt 1 2000 Scenario.S1).GetHash Scenario.env) = none ∧
    StdMap.find
      (ProcessMessage Scenario.env (Scenario.storeAt 1000) Scenario.peer
        (Command.MASTERNODEPAYMENTVOTE
          (Scenario.voteAt 1 2000 Scenario.S1))).1.mapMasternodePaymentVotes
      ((Scenario.voteAt 1 2000 Scenario.S1).GetHash Scenario.env) =
      some (Scenario.voteAt 1 2000 Scenario.S1).MarkAsNotVerified ∧
    (ProcessMessage Scenario.env (Scenario.storeAt 1000) Scenario.peer
      (Command.MASTERNODEPAYMENTVOTE (Scenario.voteAt 1 2000 Scenario.S1))).1.mapMasternodeBlocks =
      [] := by
  refine ⟨by decide, by decide, by decide⟩

/-- C21 as amended: a vote whose message reaches the checks (node not in lite
mode, peer version sufficient, masternode list synced, hash not stored as
verified) and is then rejected (out of window, invalid per `IsValid`, unknown
masternode, bad signature, or already voted) is never tallied, but it is stored:
afterwards the vote map holds under the vote's identity hash a record marked as
not verified, which is the vote itself with the flag cleared when no record was
there before and the earlier record with the flag cleared otherwise; all other
keys of the vote map, the tallies and the last-vote index are unchanged. -/
theorem processMessage_rejected_vote_stored_unverified (env : Env) (s : CMasternodePayments)
    (pfrom : CNode) (vote : CMasternodePaymentVote) (hlite : env.fLiteMode = false)
    (hver : ¬ pfrom.nVersion < GetMinMasternodePaymentsProto env)
    (hsync : env.IsMasternodeListSynced = true)
    (hnew : HasVerifiedPaymentVote s (vote.GetHash env) = false)
    (hrejected :
      (vote.nBlockHeight < s.nCachedBlockHeight - GetStorageLimit env ∨
        vote.nBlockHeight > s.nCachedBlockHeight + 20) ∨
      (vote.IsValid env pfrom s.nCachedBlockHeight).1 = false ∨
      env.GetMasternodeInfo vote.masternodeOutpoint = none ∨
      (∃ mnInfo, env.GetMasternodeInfo vote.masternodeOutpoint = some mnInfo ∧
        (vote.CheckSignature env mnInfo.pubKeyMasternode s.nCachedBlockHeight).1 = false) ∨
      (UpdateLastVote (ProcessMessage.seen env s vote) vote).1 = false) :
    (ProcessMessage env s pfrom (Command.MASTERNODEPAYMENTVOTE vote)).1 =
      ProcessMessage.seen env s vote ∧
    (∃ record,
      StdMap.find
        (ProcessMessage env s pfrom
          (Command.MASTERNODEPAYMENTVOTE vote)).1.mapMasternodePaymentVotes
        (vote.GetHash env) = some record ∧
      record.IsVerified = false ∧
      (StdMap.find s.mapMasternodePaymentVotes (vote.GetHash env) = none →
        record = vote.MarkAsNotVerified) ∧
      (∀ first, StdMap.find s.mapMasternodePaymentVotes (vote.GetHash env) = some first →
        record = first.MarkAsNotVerified)) ∧
    (∀ k, k ≠ vote.GetHash env →
      StdMap.find
        (ProcessMessage env s pfrom
          (Command.MASTERNODEPAYMENTVOTE vote)).1.mapMasternodePaymentVotes k =
        StdMap.find s.mapMasternodePaymentVotes k) ∧
    (ProcessMessage env s pfrom (Command.MASTERNODEPAYMENTVOTE vote)).1.mapMasternodeBlocks =
      s.mapMasternodeBlocks ∧
    (ProcessMessage env s pfrom (Command.MASTERNODEPAYMENTVOTE vote)).1.mapMasternodesLastVote =
      s.mapMasternodesLastVote := by
  have hseen := ProcessMessage.seen_fields env s vote
  have hrun : (ProcessMessage env s pfrom (Command.MASTERNODEPAYMENTVOTE vote)).1 =
      (ProcessMessage.voteChecks env (ProcessMessage.seen env s vote) pfrom vote).1 := by
    unfold ProcessMessage
    simp only [hlite, Bool.false_eq_true, if_false]
    rw [ProcessMessage.vote_eq, if_neg hver, hsync, hnew]
    simp
  have hstore : (ProcessMessage env s pfrom (Command.MASTERNODEPAYMENTVOTE vote)).1 =
      ProcessMessage.seen env s vote := by
    rw [hrun, ProcessMessage.voteChecks_eq, hseen.2.2]
    by_cases hout : vote.nBlockHeight < s.nCachedBlockHeight - GetStorageLimit env ∨
        vote.nBlockHeight > s.nCachedBlockHeight + 20
    · rw [if_pos hout]
    · rw [if_neg hout]
      rcases ProcessMessage.afterWindow_cases env (ProcessMessage.seen env s vote) pfrom vote with
        ⟨h, _⟩ | ⟨hvalid, ⟨mnInfo, hinfo, hsig⟩, hlast, _⟩
      · exact h
      · exfalso
        rw [hseen.2.2] at hvalid hsig
        rcases hrejected with h | h | h | ⟨mn, hmn, h⟩ | h
        · exact hout h
        · rw [hvalid] at h
          exact absurd h (by simp)
        · rw [hinfo] at h
          exact absurd h (by simp)
        · rw [hinfo] at hmn
          rw [← Option.some.inj hmn, hsig] at h
          exact absurd h (by simp)
        · rw [hlast] at h
          exact absurd h (by simp)
  rw [hstore]
  exact ⟨rfl, (ProcessMessage.seen_find env s vote).1, (ProcessMessage.seen_find env s vote).2,
    hseen.1, hseen.2.1⟩

/-- Witness for C21 as amended: the out-of-window vote for height 2000 at tip
1000 on the scenario node. -/
theorem processMessage_rejected_vote_stored_unverified_witness :
    HasVerifiedPaymentVote (Scenario.storeAt 1000)
      ((Scenario.voteAt 1 2000 Scenario.S1).GetHash Scenario.env) = false ∧
    (ProcessMessage Scenario.env (Scenario.storeAt 1000) Scenario.peer
      (Command.MASTERNODEPAYMENTVOTE (Scenario.voteAt 1 2000 Scenario.S1))).1 =
      ProcessMessage.seen Scenario.env (Scenario.storeAt 1000)
        (Scenario.voteAt 1 2000 Scenario.S1) :=
  ⟨by decide,
   (processMessage_rejected_vote_stored_unverified Scenario.env (Scenario.storeAt 1000)
      Scenario.peer (Scenario.voteAt 1 2000 Scenario.S1) rfl (by decide) rfl (by decide)
      (Or.inl (by decide))).1⟩

/-! ## The last-vote index holds the last accepted height -/

/-- C22, the claim as stated fails: from the empty index, masternode 1 votes
for height 1001 and then for height 1000; both calls return true, the highest
accepted height is 1001, and the index holds 1000. -/
theorem updateLastVote_index_not_highest :
    (UpdateLastVote.run CMasternodePayments.empty
      [Scenario.voteAt 1 1001 Scenario.S1, Scenario.voteAt 1 1000 Scenario.S1]).1 =
      [true, true] ∧
    UpdateLastVote.acceptedHeights { hash := 1, n := 0 } CMasternodePayments.empty
      [Scenario.voteAt 1 1001 Scenario.S1, Scenario.voteAt 1 1000 Scenario.S1] =
      [1001, 1000] ∧
    StdMap.find
      (UpdateLastVote.run CMasternodePayments.empty
        [Scenario.voteAt 1 1001 Scenario.S1,
         Scenario.voteAt 1 1000 Scenario.S1]).2.mapMasternodesLastVote
      { hash := 1, n := 0 } = some 1000 := by
  refine ⟨by decide, by decide, by decide⟩

theorem UpdateLastVote_find_step (s : CMasternodePayments) (vote : CMasternodePaymentVote)
    (outpoint : COutPoint) :
    StdMap.find (UpdateLastVote s vote).2.mapMasternodesLastVote outpoint =
      if vote.masternodeOutpoint = outpoint ∧ (UpdateLastVote s vote).1 = true then
        some vote.nBlockHeight
      else StdMap.find s.mapMasternodesLastVote outpoint := by
  by_cases ho : vote.masternodeOutpoint = outpoint
  · cases hres : (UpdateLastVote s vote).1 with
    | true =>
      simp only [ho, true_and, if_true]
      rw [← ho]
      exact UpdateLastVote_find_self s vote
    | false =>
      simp only [ho, Bool.false_eq_true, and_false, if_false]
      rw [UpdateLastVote_false_unchanged s vote hres]
  · simp only [ho, false_and, if_false]
    exact UpdateLastVote_find_ne s vote outpoint (fun h => ho h.symm)

/-- C22 as amended: after any sequence of `UpdateLastVote` calls, from the
empty index or any other store, the value the last-vote index holds for a
masternode outpoint is the block height of the last vote of that masternode for
which `UpdateLastVote` returned true in the sequence (the most recent accepted
one, not the highest); when no call of the masternode returned true, the entry
is as it was before the sequence. -/
theorem updateLastVote_index_is_last_accepted (outpoint : COutPoint) (s : CMasternodePayments)
    (calls : List CMasternodePaymentVote) :
    StdMap.find (UpdateLastVote.run s calls).2.mapMasternodesLastVote outpoint =
      match (UpdateLastVote.acceptedHeights outpoint s calls).getLast? with
      | some nBlockHeight => some nBlockHeight
      | none => StdMap.find s.mapMasternodesLastVote outpoint := by
  induction calls generalizing s with
  | nil => simp [UpdateLastVote.run, UpdateLastVote.acceptedHeights]
  | cons vote rest ih =>
    have hrun : (UpdateLastVote.run s (vote :: rest)).2 =
        (UpdateLastVote.run (UpdateLastVote s vote).2 rest).2 := rfl
    rw [hrun, ih (UpdateLastVote s vote).2, UpdateLastVote_find_step s vote outpoint]
    by_cases hacc : vote.masternodeOutpoint = outpoint ∧ (UpdateLastVote s vote).1 = true
    · simp only [UpdateLastVote.acceptedHeights, if_pos hacc]
      cases hrest : UpdateLastVote.acceptedHeights outpoint (UpdateLastVote s vote).2 rest with
      | nil => simp
      | cons h tail =>
        rw [List.getLast?_cons_cons,
          List.getLast?_eq_getLast (h :: tail) (List.cons_ne_nil h tail)]
    · simp only [UpdateLastVote.acceptedHeights, if_neg hacc]

/-! ## Payee uniqueness in a tally -/

/-- C23: if no two entries of a tally have the same payee script, then after
`AddPayee` of any vote still no two entries have the same payee script; the
sequence of payee scripts is the previous one, or the previous one followed by
the vote's payee, so the earlier entries keep their relative order; and a newly
constructed tally, which has no entries, satisfies the invariant. -/
theorem addPayee_keeps_payees_unique (env : Env) (t : CMasternodeBlockPayees)
    (vote : CMasternodePaymentVote)
    (hunique : (t.vecPayees.map (fun payee => payee.GetPayee)).Nodup) :
    ((t.AddPayee env vote).vecPayees.map (fun payee => payee.GetPayee)).Nodup ∧
    ((t.AddPayee env vote).vecPayees.map (fun payee => payee.GetPayee) =
        t.vecPayees.map (fun payee => payee.GetPayee) ∨
      (t.AddPayee env vote).vecPayees.map (fun payee => payee.GetPayee) =
        t.vecPayees.map (fun payee => payee.GetPayee) ++ [vote.payee]) ∧
    (∀ nBlockHeight, ((CMasternodeBlockPayees.create nBlockHeight).vecPayees.map
      (fun payee => payee.GetPayee)).Nodup) := by
  have hloop := AddPayee_loop_spec vote (vote.GetHash env) t.vecPayees
  have hadd : (t.AddPayee env vote).vecPayees =
      AddPayee.loop vote (vote.GetHash env) t.vecPayees := rfl
  refine ⟨?_, ?_, fun _ => List.nodup_nil⟩
  · rcases hloop with ⟨b, e, a, hsplit, _, _, heq⟩ | ⟨hall, heq⟩
    · rw [hadd, heq]
      rw [hsplit] at hunique
      simpa [CMasternodePayee.AddVoteHash_GetPayee] using hunique
    · rw [hadd, heq, List.map_append]
      apply List.Nodup.append hunique
      · simp
      · intro script h1 h2
        obtain ⟨q, hq, hqs⟩ := List.mem_map.mp h1
        simp only [List.map_cons, List.map_nil, List.mem_singleton] at h2
        have : script = vote.payee := by
          simpa [CMasternodePayee.create, CMasternodePayee.GetPayee] using h2
        exact hall q hq (hqs.trans this)
  · rcases hloop with ⟨b, e, a, hsplit, _, _, heq⟩ | ⟨_, heq⟩
    · left
      rw [hadd, heq, hsplit]
      simp [CMasternodePayee.AddVoteHash_GetPayee]
    · right
      rw [hadd, heq]
      simp [CMasternodePayee.create, CMasternodePayee.GetPayee]

/-- Witness for C23: the scenario tally (S2 then S1) takes a vote for S1 and
keeps its two distinct payees in order. -/
theorem addPayee_keeps_payees_unique_witness :
    (Scenario.tally.vecPayees.map (fun payee => payee.GetPayee)).Nodup ∧
    ((Scenario.tally.AddPayee Scenario.env (Scenario.vote 6 Scenario.S1)).vecPayees.map
      (fun payee => payee.GetPayee)).Nodup :=
  ⟨by decide,
   (addPayee_keeps_payees_unique Scenario.env Scenario.tally (Scenario.vote 6 Scenario.S1)
      (by decide)).1⟩

/-! ## A verified record stays -/

theorem AddOrUpdatePaymentVote_find_other (env : Env) (s : CMasternodePayments)
    (vote : CMasternodePaymentVote) (k : uint256) (hk : k ≠ vote.GetHash env) :
    StdMap.find (AddOrUpdatePaymentVote env s vote).2.mapMasternodePaymentVotes k =
      StdMap.find s.mapMasternodePaymentVotes k := by
  by_cases hblock : env.GetBlockHash (vote.nBlockHeight - 101) = none
  · rw [AddOrUpdatePaymentVote_refuse env s vote (Or.inl hblock)]
  · cases hver : HasVerifiedPaymentVote s (vote.GetHash env) with
    | true => rw [AddOrUpdatePaymentVote_refuse env s vote (Or.inr hver)]
    | false =>
      rw [AddOrUpdatePaymentVote_accept env s vote hblock hver]
      exact StdMap.find_assign_ne _ _ _ _ hk

/-- C24: once the vote map holds a verified record under an identity hash,
neither the handling of any message (from any peer, in any environment) nor
any `AddOrUpdatePaymentVote` call changes what is stored under that hash: the
same record is found afterwards, still verified. -/
theorem verified_record_is_kept (s : CMasternodePayments) (k : uint256)
    (record : CMasternodePaymentVote)
    (hstored : StdMap.find s.mapMasternodePaymentVotes k = some record)
    (hverified : record.IsVerified = true) :
    (∀ (env : Env) (pfrom : CNode) (cmd : Command),
      StdMap.find (ProcessMessage env s pfrom cmd).1.mapMasternodePaymentVotes k =
        some record) ∧
    (∀ (env : Env) (vote : CMasternodePaymentVote),
      StdMap.find (AddOrUpdatePaymentVote env s vote).2.mapMasternodePaymentVotes k =
        some record) := by
  have hhas : HasVerifiedPaymentVote s k = true :=
    (HasVerifiedPaymentVote_iff s k).mpr ⟨record, hstored, hverified⟩
  constructor
  · intro env pfrom cmd
    unfold ProcessMessage
    cases hlite : env.fLiteMode with
    | true => exact hstored
    | false =>
      simp only [Bool.false_eq_true, if_false]
      cases cmd with
      | MASTERNODEPAYMENTSYNC => exact hstored
      | other => exact hstored
      | MASTERNODEPAYMENTVOTE vote =>
        simp only []
        rw [ProcessMessage.vote_eq]
        split_ifs with h1 h2 h3
        · exact hstored
        · exact hstored
        · exact hstored
        · have hk : k ≠ vote.GetHash env := by
            intro heq
            rw [heq] at hhas
            exact h3 hhas
          have hseen : StdMap.find
              (ProcessMessage.seen env s vote).mapMasternodePaymentVotes k = some record := by
            rw [(ProcessMessage.seen_find env s vote).2 k hk]
            exact hstored
          rcases ProcessMessage.voteChecks_store env (ProcessMessage.seen env s vote) pfrom
              vote with h | ⟨_, h⟩
          · simp only []
            rw [h]
            exact hseen
          · simp only []
            rw [h, AddOrUpdatePaymentVote_find_other env _ vote k hk,
              (UpdateLastVote_maps _ vote).1]
            exact hseen
  · intro env vote
    by_cases hk : k = vote.GetHash env
    · rw [hk] at hhas
      rw [AddOrUpdatePaymentVote_refuse env s vote (Or.inr hhas)]
      exact hstored
    · rw [AddOrUpdatePaymentVote_find_other env s vote k hk]
      exact hstored

/-- Witness for C24: the verified vote of masternode 1 in the scenario store
survives the redelivery of its own message. -/
theorem verified_record_is_kept_witness :
    StdMap.find Scenario.store5.mapMasternodePaymentVotes
      ((Scenario.vote 1 Scenario.S1).GetHash Scenario.env) = some (Scenario.vote 1 Scenario.S1) ∧
    (Scenario.vote 1 Scenario.S1).IsVerified = true ∧
    StdMap.find
      (ProcessMessage Scenario.env Scenario.store5 Scenario.peer
        (Command.MASTERNODEPAYMENTVOTE
          (Scenario.vote 1 Scenario.S1))).1.mapMasternodePaymentVotes
      ((Scenario.vote 1 Scenario.S1).GetHash Scenario.env) = some (Scenario.vote 1 Scenario.S1) :=
  ⟨by decide, rfl,
   (verified_record_is_kept Scenario.store5
      ((Scenario.vote 1 Scenario.S1).GetHash Scenario.env) (Scenario.vote 1 Scenario.S1)
      (by decide) rfl).1 Scenario.env Scenario.peer
     (Command.MASTERNODEPAYMENTVOTE (Scenario.vote 1 Scenario.S1))⟩

/-! ## Requests for missing payment blocks -/

theorem RequestLowDataPaymentBlocks.flush_append (env : Env)
    (st : List uint256 × List (List uint256)) (hash : uint256) (hmax : 0 < env.MAX_INV_SZ)
    (hst : RequestLowDataPaymentBlocks.wellBatched env st) :
    RequestLowDataPaymentBlocks.wellBatched env
        (RequestLowDataPaymentBlocks.flush env (st.1 ++ [hash], st.2)) ∧
      (RequestLowDataPaymentBlocks.flush env (st.1 ++ [hash], st.2)).2.flatten ++
          (RequestLowDataPaymentBlocks.flush env (st.1 ++ [hash], st.2)).1 =
        st.2.flatten ++ st.1 ++ [hash] := by
  unfold RequestLowDataPaymentBlocks.flush
  by_cases hfull : (st.1 ++ [hash]).length = env.MAX_INV_SZ
  · simp only [if_pos hfull]
    refine ⟨⟨by simpa using hmax, ?_⟩, by simp⟩
    intro batch hb
    rcases List.mem_append.mp hb with hb | hb
    · exact hst.2 batch hb
    · rw [List.mem_singleton] at hb
      rw [hb]
      exact hfull
  · simp only [if_neg hfull]
    refine ⟨⟨?_, hst.2⟩, by simp⟩
    have h1 := hst.1
    simp only [List.length_append, List.length_cons, List.length_nil] at hfull ⊢
    omega

theorem RequestLowDataPaymentBlocks.flush_same (env : Env)
    (st : List uint256 × List (List uint256))
    (hst : RequestLowDataPaymentBlocks.wellBatched env st) :
    RequestLowDataPaymentBlocks.flush env st = st := by
  unfold RequestLowDataPaymentBlocks.flush
  rw [if_neg (Nat.ne_of_lt hst.1)]

theorem RequestLowDataPaymentBlocks.chainLoop_spec (env : Env) (s : CMasternodePayments)
    (nLimit : Int) (hmax : 0 < env.MAX_INV_SZ) (chain : List CBlockIndex)
    (st : List uint256 × List (List uint256))
    (hst : RequestLowDataPaymentBlocks.wellBatched env st) :
    RequestLowDataPaymentBlocks.wellBatched env
        (RequestLowDataPaymentBlocks.chainLoop env s nLimit chain st) ∧
      (RequestLowDataPaymentBlocks.chainLoop env s nLimit chain st).2.flatten ++
          (RequestLowDataPaymentBlocks.chainLoop env s nLimit chain st).1 =
        st.2.flatten ++ st.1 ++
          ((chain.takeWhile
              (fun pindex => decide (s.nCachedBlockHeight - pindex.nHeight < nLimit))).filter
            (fun pindex => (StdMap.find s.mapMasternodeBlocks pindex.nHeight).isNone)).map
            (fun pindex => pindex.hashBlock) := by
  induction chain generalizing st with
  | nil => exact ⟨hst, by simp [RequestLowDataPaymentBlocks.chainLoop]⟩
  | cons pindex pprev ih =>
    by_cases hin : s.nCachedBlockHeight - pindex.nHeight < nLimit
    · have htake : (pindex :: pprev).takeWhile
          (fun pindex => decide (s.nCachedBlockHeight - pindex.nHeight < nLimit)) =
          pindex :: pprev.takeWhile
            (fun pindex => decide (s.nCachedBlockHeight - pindex.nHeight < nLimit)) := by
        rw [List.takeWhile_cons]
        simp [hin]
      rw [RequestLowDataPaymentBlocks.chainLoop, if_pos hin, htake]
      cases hfind : StdMap.find s.mapMasternodeBlocks pindex.nHeight with
      | none =>
        obtain ⟨h1, h2⟩ := RequestLowDataPaymentBlocks.flush_append env st pindex.hashBlock
          hmax hst
        obtain ⟨h3, h4⟩ := ih _ h1
        refine ⟨h3, ?_⟩
        simp only []
        rw [h4, h2, List.filter_cons]
        simp [hfind]
      | some t =>
        obtain ⟨h3, h4⟩ := ih st hst
        refine ⟨h3, ?_⟩
        simp only []
        rw [h4, List.filter_cons]
        simp [hfind]
    · have htake : (pindex :: pprev).takeWhile
          (fun pindex => decide (s.nCachedBlockHeight - pindex.nHeight < nLimit)) = [] := by
        rw [List.takeWhile_cons]
        simp [hin]
      rw [RequestLowDataPaymentBlocks.chainLoop, if_neg hin, htake]
      exact ⟨hst, by simp⟩

theorem RequestLowDataPaymentBlocks.tallyLoop_spec (env : Env) (hmax : 0 < env.MAX_INV_SZ)
    (blocks : List (Int × CMasternodeBlockPayees)) (st : List uint256 × List (List uint256))
    (hst : RequestLowDataPaymentBlocks.wellBatched env st) :
    RequestLowDataPaymentBlocks.wellBatched env
        (RequestLowDataPaymentBlocks.tallyLoop env blocks st) ∧
      (RequestLowDataPaymentBlocks.tallyLoop env blocks st).2.flatten ++
          (RequestLowDataPaymentBlocks.tallyLoop env blocks st).1 =
        st.2.flatten ++ st.1 ++
          blocks.filterMap (fun mnBlockPayees =>
            if RequestLowDataPaymentBlocks.enoughData env mnBlockPayees.2 then none
            else env.GetBlockHash mnBlockPayees.1) := by
  induction blocks generalizing st with
  | nil => exact ⟨hst, by simp [RequestLowDataPaymentBlocks.tallyLoop]⟩
  | cons e rest ih =>
    cases henough : RequestLowDataPaymentBlocks.enoughData env e.2 with
    | true =>
      rw [RequestLowDataPaymentBlocks.tallyLoop]
      simp only [henough, if_true]
      obtain ⟨h3, h4⟩ := ih st hst
      refine ⟨h3, ?_⟩
      rw [h4, List.filterMap_cons]
      simp [henough]
    | false =>
      rw [RequestLowDataPaymentBlocks.tallyLoop]
      simp only [henough, Bool.false_eq_true, if_false]
      cases hhash : env.GetBlockHash e.1 with
      | none =>
        simp only []
        rw [RequestLowDataPaymentBlocks.flush_same env st hst]
        obtain ⟨h3, h4⟩ := ih st hst
        refine ⟨h3, ?_⟩
        rw [h4, List.filterMap_cons]
        simp [henough, hhash]
      | some hash =>
        simp only []
        obtain ⟨h1, h2⟩ := RequestLowDataPaymentBlocks.flush_append env st hash hmax hst
        obtain ⟨h3, h4⟩ := ih _ h1
        refine ⟨h3, ?_⟩
        rw [h4, h2, List.filterMap_cons]
        simp [henough, hhash]

/-- The batches sent: each has between one and `MAX_INV_SZ` items, and
together, in order, they are the hashes the chain loop and the tally loop
decide to request. -/
theorem RequestLowDataPaymentBlocks.batches_spec (env : Env) (s : CMasternodePayments)
    (hmax : 0 < env.MAX_INV_SZ) :
    (∀ batch ∈ RequestLowDataPaymentBlocks.batches env s,
      1 ≤ batch.length ∧ batch.length ≤ env.MAX_INV_SZ) ∧
    (RequestLowDataPaymentBlocks.batches env s).flatten =
      RequestLowDataPaymentBlocks.missing env s ++
        RequestLowDataPaymentBlocks.lowData env s := by
  have hstart : RequestLowDataPaymentBlocks.wellBatched env ([], []) := ⟨hmax, by simp⟩
  obtain ⟨h1, h2⟩ := RequestLowDataPaymentBlocks.chainLoop_spec env s (GetStorageLimit env)
    hmax env.chainActive ([], []) hstart
  obtain ⟨h3, h4⟩ := RequestLowDataPaymentBlocks.tallyLoop_spec env hmax
    s.mapMasternodeBlocks _ h1
  rw [h2] at h4
  simp only [List.flatten_nil, List.nil_append, List.append_nil] at h4
  unfold RequestLowDataPaymentBlocks.batches RequestLowDataPaymentBlocks.missing
    RequestLowDataPaymentBlocks.lowData
  simp only []
  cases hcur : (RequestLowDataPaymentBlocks.tallyLoop env s.mapMasternodeBlocks
      (RequestLowDataPaymentBlocks.chainLoop env s (GetStorageLimit env) env.chainActive
        ([], []))).1 with
  | nil =>
    rw [hcur] at h4
    simp only [List.isEmpty_nil, Bool.not_true, Bool.false_eq_true, if_false]
    refine ⟨?_, by simpa using h4⟩
    intro batch hb
    have := h3.2 batch hb
    omega
  | cons x rest =>
    rw [hcur] at h4
    have hlen := h3.1
    rw [hcur] at hlen
    simp only [List.isEmpty_cons, Bool.not_false, if_true]
    refine ⟨?_, by simpa using h4⟩
    intro batch hb
    rcases List.mem_append.mp hb with hb | hb
    · have := h3.2 batch hb
      omega
    · rw [List.mem_singleton] at hb
      rw [hb]
      simp only [List.length_cons] at hlen ⊢
      omega

theorem RequestLowDataPaymentBlocks.countLoop_spec (env : Env) (payees : List CMasternodePayee)
    (nTotalVotes : Int) :
    ((∃ payee ∈ payees, env.MNPAYMENTS_SIGNATURES_REQUIRED ≤ payee.GetVoteCount) ∧
        (RequestLowDataPaymentBlocks.countLoop env payees nTotalVotes).1 = true) ∨
      ((∀ payee ∈ payees, payee.GetVoteCount < env.MNPAYMENTS_SIGNATURES_REQUIRED) ∧
        RequestLowDataPaymentBlocks.countLoop env payees nTotalVotes =
          (false, nTotalVotes + (payees.map (fun payee => payee.GetVoteCount)).sum)) := by
  induction payees generalizing nTotalVotes with
  | nil => exact Or.inr ⟨by simp, by simp [RequestLowDataPaymentBlocks.countLoop]⟩
  | cons p rest ih =>
    by_cases h : p.GetVoteCount ≥ env.MNPAYMENTS_SIGNATURES_REQUIRED
    · left
      refine ⟨⟨p, List.mem_cons_self _ _, h⟩, ?_⟩
      rw [RequestLowDataPaymentBlocks.countLoop, if_pos h]
    · rw [RequestLowDataPaymentBlocks.countLoop, if_neg h]
      rcases ih (nTotalVotes + p.GetVoteCount) with ⟨⟨q, hq, hcount⟩, hres⟩ | ⟨hall, hres⟩
      · exact Or.inl ⟨⟨q, List.mem_cons_of_mem _ hq, hcount⟩, hres⟩
      · right
        refine ⟨?_, ?_⟩
        · intro q hq
          rcases List.mem_cons.mp hq with hq | hq
          · rw [hq]
            exact not_le.mp h
          · exact hall q hq
        · rw [hres, List.map_cons, List.sum_cons, add_assoc]

theorem RequestLowDataPaymentBlocks.enoughData_false_iff (env : Env)
    (t : CMasternodeBlockPayees) :
    RequestLowDataPaymentBlocks.enoughData env t = false ↔ underSupported env t := by
  unfold RequestLowDataPaymentBlocks.enoughData underSupported
  simp only []
  rcases RequestLowDataPaymentBlocks.countLoop_spec env t.vecPayees 0 with
    ⟨⟨q, hq, hcount⟩, hres⟩ | ⟨hall, hres⟩
  · rw [hres]
    simp only [Bool.true_or, Bool.true_eq_false, false_iff]
    intro hunder
    exact absurd (hunder.1 q hq) (not_lt.mpr hcount)
  · rw [hres]
    simp only [Bool.false_or, zero_add, decide_eq_false_iff_not, not_le]
    exact ⟨fun h => ⟨hall, h⟩, fun h => h.2⟩

theorem RequestLowDataPaymentBlocks.mem_lowData (env : Env) (s : CMasternodePayments)
    (hash : uint256) :
    hash ∈ RequestLowDataPaymentBlocks.lowData env s ↔
      ∃ e ∈ s.mapMasternodeBlocks, underSupported env e.2 ∧ env.GetBlockHash e.1 = some hash := by
  unfold RequestLowDataPaymentBlocks.lowData
  rw [List.mem_filterMap]
  constructor
  · rintro ⟨e, he, hreq⟩
    cases henough : RequestLowDataPaymentBlocks.enoughData env e.2 with
    | true =>
      rw [henough] at hreq
      simp at hreq
    | false =>
      rw [henough] at hreq
      exact ⟨e, he, (RequestLowDataPaymentBlocks.enoughData_false_iff env e.2).mp henough,
        by simpa using hreq⟩
  · rintro ⟨e, he, hunder, hhash⟩
    refine ⟨e, he, ?_⟩
    rw [(RequestLowDataPaymentBlocks.enoughData_false_iff env e.2).mpr hunder]
    simpa using hhash

/-- C25, the claim as stated fails: with `REQUIRED = 5` and `TOTAL = 10`, a
tallied height with a resolvable block hash whose payees have four and three
votes (seven in all, below the exact midpoint 15/2, no payee at five) is not
requested: no `GETDATA` is sent at all, because the code compares with the
integer `(10 + 5)/2 = 7`.  With six votes the height is requested. -/
theorem requestLowData_seven_votes_not_requested :
    Scenario.env.MNPAYMENTS_SIGNATURES_REQUIRED = 5 ∧
    Scenario.env.MNPAYMENTS_SIGNATURES_TOTAL = 10 ∧
    payeesAt Scenario.storeSeven 1000 =
      [{ scriptPubKey := Scenario.S1, vecVoteHashes := [1, 2, 3, 4], nStartHeight := 900 },
       { scriptPubKey := Scenario.S2, vecVoteHashes := [11, 12, 13], nStartHeight := 900 }] ∧
    ((7 : ℚ) < ((5 : ℚ) + 10) / 2) ∧
    Scenario.env.GetBlockHash 1000 = some 1000 ∧
    RequestLowDataPaymentBlocks Scenario.env Scenario.storeSeven Scenario.peer = [] ∧
    RequestLowDataPaymentBlocks Scenario.env Scenario.storeSix Scenario.peer =
      [Effect.PushGetData Scenario.peer.id [1000]] := by
  refine ⟨rfl, rfl, by decide, by norm_num, by decide, by decide, by decide⟩

/-- C25 as amended: the loop over the tallies moves on without a request
exactly when the tally is not under-supported, where a tally is under-supported
when every payee has fewer than `MNPAYMENTS_SIGNATURES_REQUIRED` votes and the
votes of all its payees together are fewer than the integer
`(TOTAL + REQUIRED)/2` (truncating division, 7 for 10 and 5); and with the
masternode list synced the hashes sent in `GETDATA` messages are exactly the
hashes of the missing heights of the chain loop and the resolvable block hashes
of the tallied heights that are under-supported in this sense. -/
theorem requestLowData_requests_under_supported (env : Env) (s : CMasternodePayments)
    (pnode : CNode) (hsync : env.IsMasternodeListSynced = true) (hmax : 0 < env.MAX_INV_SZ) :
    (∀ t, RequestLowDataPaymentBlocks.enoughData env t = false ↔ underSupported env t) ∧
    (∀ hash,
      (∃ vToFetch, Effect.PushGetData pnode.id vToFetch ∈
          RequestLowDataPaymentBlocks env s pnode ∧ hash ∈ vToFetch) ↔
        (hash ∈ RequestLowDataPaymentBlocks.missing env s ∨
          ∃ e ∈ s.mapMasternodeBlocks,
            underSupported env e.2 ∧ env.GetBlockHash e.1 = some hash)) := by
  refine ⟨RequestLowDataPaymentBlocks.enoughData_false_iff env, ?_⟩
  intro hash
  have hflat := (RequestLowDataPaymentBlocks.batches_spec env s hmax).2
  have hmem : (∃ vToFetch, Effect.PushGetData pnode.id vToFetch ∈
        RequestLowDataPaymentBlocks env s pnode ∧ hash ∈ vToFetch) ↔
      hash ∈ (RequestLowDataPaymentBlocks.batches env s).flatten := by
    unfold RequestLowDataPaymentBlocks
    simp only [hsync, Bool.not_true, Bool.false_eq_true, if_false, List.mem_map,
      List.mem_flatten]
    constructor
    · rintro ⟨v, ⟨b, hb, heq⟩, hin⟩
      have hbv : b = v := by simpa using heq
      exact ⟨b, hb, hbv ▸ hin⟩
    · rintro ⟨b, hb, hin⟩
      exact ⟨b, ⟨b, hb, rfl⟩, hin⟩
  rw [hmem, hflat, List.mem_append, RequestLowDataPaymentBlocks.mem_lowData]

/-- Witness for C25 as amended: on the scenario node the height 1000 of the
six-vote store is under-supported and its block hash is requested. -/
theorem requestLowData_requests_under_supported_witness :
    Scenario.env.IsMasternodeListSynced = true ∧ 0 < Scenario.env.MAX_INV_SZ ∧
    ∃ vToFetch, Effect.PushGetData Scenario.peer.id vToFetch ∈
      RequestLowDataPaymentBlocks Scenario.env Scenario.storeSix Scenario.peer ∧
      1000 ∈ vToFetch :=
  ⟨rfl, by decide,
   ((requestLowData_requests_under_supported Scenario.env Scenario.storeSix Scenario.peer rfl
      (by decide)).2 1000).mpr
     (Or.inr ⟨_, List.mem_cons_self _ _,
       (RequestLowDataPaymentBlocks.enoughData_false_iff Scenario.env _).mp (by decide),
       by decide⟩)⟩

/-- C26: with `MAX_INV_SZ` positive, every `GETDATA` message
`RequestLowDataPaymentBlocks` pushes carries at least one and at most
`MAX_INV_SZ` items, for every chain, store and storage limit; with the
masternode list synced the messages, read in order, are a splitting into
batches of exactly the hashes the two loops decide to request (the missing
heights of the chain, then the under-supported tallied heights with a
resolvable hash), so each request is in exactly one message; without sync
nothing is sent. -/
theorem requestLowData_batches_bounded (env : Env) (s : CMasternodePayments) (pnode : CNode)
    (hmax : 0 < env.MAX_INV_SZ) :
    (∀ peer vToFetch,
      Effect.PushGetData peer vToFetch ∈ RequestLowDataPaymentBlocks env s pnode →
      1 ≤ vToFetch.length ∧ vToFetch.length ≤ env.MAX_INV_SZ) ∧
    (env.IsMasternodeListSynced = true →
      ∃ batches : List (List uint256),
        RequestLowDataPaymentBlocks env s pnode =
          batches.map (fun vToFetch => Effect.PushGetData pnode.id vToFetch) ∧
        batches.flatten =
          RequestLowDataPaymentBlocks.missing env s ++
            RequestLowDataPaymentBlocks.lowData env s) ∧
    (env.IsMasternodeListSynced = false → RequestLowDataPaymentBlocks env s pnode = []) := by
  obtain ⟨hsize, hflat⟩ := RequestLowDataPaymentBlocks.batches_spec env s hmax
  refine ⟨?_, ?_, ?_⟩
  · intro peer vToFetch hmem
    unfold RequestLowDataPaymentBlocks at hmem
    cases hsync : env.IsMasternodeListSynced with
    | false =>
      rw [hsync] at hmem
      simp at hmem
    | true =>
      rw [hsync] at hmem
      simp only [Bool.not_true, Bool.false_eq_true, if_false, List.mem_map] at hmem
      obtain ⟨b, hb, heq⟩ := hmem
      have hbv : b = vToFetch := by
        have := Effect.PushGetData.inj heq
        exact this.2
      rw [← hbv]
      exact hsize b hb
  · intro hsync
    refine ⟨RequestLowDataPaymentBlocks.batches env s, ?_, hflat⟩
    unfold RequestLowDataPaymentBlocks
    simp [hsync]
  · intro hsync
    unfold RequestLowDataPaymentBlocks
    simp [hsync]

/-- Witness for C26: on the scenario node (`MAX_INV_SZ = 2`, chain 1002 down to
998, a sufficient tally at 1000) the four missing heights go out in two full
batches. -/
theorem requestLowData_batches_bounded_witness :
    0 < Scenario.env.MAX_INV_SZ ∧
    RequestLowDataPaymentBlocks Scenario.env (Scenario.store5At 1002) Scenario.peer =
      [Effect.PushGetData Scenario.peer.id [1002, 1001],
       Effect.PushGetData Scenario.peer.id [999, 998]] ∧
    (1 ≤ [1002, 1001].length ∧ [1002, 1001].length ≤ Scenario.env.MAX_INV_SZ) :=
  ⟨by decide, by decide,
   (requestLowData_batches_bounded Scenario.env (Scenario.store5At 1002) Scenario.peer
      (by decide)).1 Scenario.peer.id [1002, 1001] (by decide)⟩

/-! ## The window check and pruning agree -/

theorem CheckAndRemove_keeps_recent (env : Env) (s : CMasternodePayments) (hash : uint256)
    (vote : CMasternodePaymentVote) (hmem : (hash, vote) ∈ s.mapMasternodePaymentVotes)
    (hrecent : s.nCachedBlockHeight - vote.nBlockHeight ≤ GetStorageLimit env) :
    (hash, vote) ∈ (CheckAndRemove env s).mapMasternodePaymentVotes ∧
    StdMap.find (CheckAndRemove env s).mapMasternodeBlocks vote.nBlockHeight =
      StdMap.find s.mapMasternodeBlocks vote.nBlockHeight := by
  cases hsync : env.IsBlockchainSynced with
  | false =>
    have hsame : CheckAndRemove env s = s := by simp [CheckAndRemove, hsync]
    rw [hsame]
    exact ⟨hmem, rfl⟩
  | true =>
    refine ⟨?_, CheckAndRemove_find_recent env s hsync vote.nBlockHeight hrecent⟩
    rw [(CheckAndRemove_synced env s hsync).1]
    exact List.mem_filter.mpr ⟨hmem, by rw [decide_eq_true_eq]; exact hrecent⟩

/-- A stored vote whose height passes the window check is kept by the 32-bit
method as well: its difference to the tip lies between `-20` and the limit, and
wrapping cannot carry such a difference above the limit. -/
theorem CheckAndRemove.int32_keeps_window_vote (env : Env) (s : CMasternodePayments)
    (hash : uint256) (vote : CMasternodePaymentVote)
    (hmem : (hash, vote) ∈ s.mapMasternodePaymentVotes)
    (hwin : ¬ (vote.nBlockHeight < s.nCachedBlockHeight - GetStorageLimit env ∨
      vote.nBlockHeight > s.nCachedBlockHeight + 20)) :
    (hash, vote) ∈ (CheckAndRemove.int32 env s).mapMasternodePaymentVotes := by
  cases hsync : env.IsBlockchainSynced with
  | false =>
    have hsame : CheckAndRemove.int32 env s = s := by simp [CheckAndRemove.int32, hsync]
    rw [hsame]
    exact hmem
  | true =>
    have hvotes : (CheckAndRemove.int32 env s).mapMasternodePaymentVotes =
        s.mapMasternodePaymentVotes.filter
          (fun e => decide (wrapInt32 (s.nCachedBlockHeight - e.2.nBlockHeight) ≤
            GetStorageLimit env)) := by
      simp [CheckAndRemove.int32, hsync, CheckAndRemove.loop32_votes]
    have hlo : ¬ vote.nBlockHeight < s.nCachedBlockHeight - GetStorageLimit env :=
      fun h => hwin (Or.inl h)
    have hhi : ¬ vote.nBlockHeight > s.nCachedBlockHeight + 20 := fun h => hwin (Or.inr h)
    rw [hvotes]
    refine List.mem_filter.mpr ⟨hmem, ?_⟩
    rw [decide_eq_true_eq]
    simp only []
    unfold wrapInt32
    omega

/-- C27: for every cached tip and storage limit, a stored vote whose height
passes the window check of message handling
(`nCachedBlockHeight - GetStorageLimit() ≤ height ≤ nCachedBlockHeight + 20`) is
not removed by `CheckAndRemove` run on the same store and environment, and the
tally of its height is left as it is; in particular, with a non-negative
storage limit, a vote at height exactly `nCachedBlockHeight - GetStorageLimit()`
passes the window check and is retained. -/
theorem window_votes_survive_checkAndRemove (env : Env) (s : CMasternodePayments) :
    (∀ hash vote, (hash, vote) ∈ s.mapMasternodePaymentVotes →
      ¬ (vote.nBlockHeight < s.nCachedBlockHeight - GetStorageLimit env ∨
        vote.nBlockHeight > s.nCachedBlockHeight + 20) →
      (hash, vote) ∈ (CheckAndRemove env s).mapMasternodePaymentVotes ∧
      StdMap.find (CheckAndRemove env s).mapMasternodeBlocks vote.nBlockHeight =
        StdMap.find s.mapMasternodeBlocks vote.nBlockHeight) ∧
    (∀ pfrom vote, 0 ≤ GetStorageLimit env →
      vote.nBlockHeight = s.nCachedBlockHeight - GetStorageLimit env →
      ProcessMessage.voteChecks env s pfrom vote = ProcessMessage.afterWindow env s pfrom vote ∧
      ∀ hash, (hash, vote) ∈ s.mapMasternodePaymentVotes →
        (hash, vote) ∈ (CheckAndRemove env s).mapMasternodePaymentVotes) := by
  constructor
  · intro hash vote hmem hwin
    apply CheckAndRemove_keeps_recent env s hash vote hmem
    have h1 : ¬ vote.nBlockHeight < s.nCachedBlockHeight - GetStorageLimit env :=
      fun h => hwin (Or.inl h)
    omega
  · intro pfrom vote hlimit hedge
    constructor
    · rw [ProcessMessage.voteChecks_eq, if_neg]
      omega
    · intro hash hmem
      exact (CheckAndRemove_keeps_recent env s hash vote hmem (by omega)).1

/-- Witness for C27: with the tip at 1050 and storage limit 50, the vote of
masternode 1 for height 1000 in the scenario store is at the lower bound of the
window and survives `CheckAndRemove`. -/
theorem window_votes_survive_checkAndRemove_witness :
    ((Scenario.vote 1 Scenario.S1).GetHash Scenario.env, Scenario.vote 1 Scenario.S1) ∈
      (Scenario.store5At 1050).mapMasternodePaymentVotes ∧
    (Scenario.vote 1 Scenario.S1).nBlockHeight =
      (Scenario.store5At 1050).nCachedBlockHeight - GetStorageLimit Scenario.env ∧
    ((Scenario.vote 1 Scenario.S1).GetHash Scenario.env, Scenario.vote 1 Scenario.S1) ∈
      (CheckAndRemove Scenario.env (Scenario.store5At 1050)).mapMasternodePaymentVotes :=
  ⟨by decide, by decide,
   ((window_votes_survive_checkAndRemove Scenario.env (Scenario.store5At 1050)).2 Scenario.peer
      (Scenario.vote 1 Scenario.S1) (by decide) (by decide)).2 _ (by decide)⟩

end MasternodePayments
